import Mathlib

/-!
# Point-cloud viewer: camera, framing and scene-extent model

A shallow embedding of the camera and framing code of the point-cloud viewer
(`mainwindow.cpp`, `mainwindow.h`, `viewportobject.cpp`, `viewportobject.h`).

## Numbers

The program computes in C++ `float`.  A `float` is embedded as a `FloatVal R`:
either a finite value, carried by an element of an ordered field `R`, or one of
the three non-finite results `+inf`, `-inf`, `NaN`.  Arithmetic on finite values
is exact arithmetic of `R` (rounding, overflow to infinity and the sign of zero
are not modelled); division by zero, arithmetic on infinities and comparisons
with `NaN` follow IEEE 754.  Literals such as `0.1f` stand for the exact decimal.
The definitions are computable for `R = ℚ`; statements about square roots can
be read at `R = ℝ`.

Rounding is modelled where a statement depends on it: for the drag and scroll
handlers and for the framing matrix as a map.  `toFloat32` rounds a rational to
the nearest IEEE 754 binary32 value, ties to even, with gradual underflow and
overflow to infinity.  The definitions whose name ends in `Rounded` embed the
same code with the result of each operation rounded, each operation on its own
(no fused multiply-add), and with the literals that are not binary fractions
(`0.1f`, `0.01f`, `0.001f`) rounded as well.  With a rounding that changes no
value they are the definitions of exact arithmetic (`handleEventRounded_exact`,
`framingModelRounded_exact`).

The functions of the C math library that the Qt matrix code calls (`sqrt`,
`sin`, `cos`, and the constant `pi`) are parameters, collected in `Libm`.
-/

namespace PointCloudViewer

/-! ## The `float` model -/

/-- A C++ `float`: a finite value or one of the IEEE non-finite results. -/
inductive FloatVal (R : Type) where
  | finite (q : R)
  | posInf
  | negInf
  | nan
  deriving DecidableEq, Repr

namespace FloatVal

variable {R : Type} [LinearOrderedField R]

/-- Unary minus. -/
def neg : FloatVal R → FloatVal R
  | finite a => finite (-a)
  | posInf => negInf
  | negInf => posInf
  | nan => nan

/-- IEEE addition, exact on finite values. -/
def add : FloatVal R → FloatVal R → FloatVal R
  | nan, _ => nan
  | _, nan => nan
  | finite a, finite b => finite (a + b)
  | posInf, negInf => nan
  | negInf, posInf => nan
  | posInf, _ => posInf
  | _, posInf => posInf
  | negInf, _ => negInf
  | _, negInf => negInf

/-- Product of an infinity of sign `pos` with the finite value `a`. -/
def infTimes (pos : Bool) (a : R) : FloatVal R :=
  if a = 0 then nan
  else if decide (0 < a) = pos then posInf else negInf

/-- IEEE multiplication, exact on finite values. -/
def mul : FloatVal R → FloatVal R → FloatVal R
  | nan, _ => nan
  | _, nan => nan
  | finite a, finite b => finite (a * b)
  | posInf, finite b => infTimes true b
  | negInf, finite b => infTimes false b
  | finite a, posInf => infTimes true a
  | finite a, negInf => infTimes false a
  | posInf, posInf => posInf
  | negInf, negInf => posInf
  | posInf, negInf => negInf
  | negInf, posInf => negInf

/-- IEEE division, exact on finite values with a non-zero divisor; a zero divisor
is taken as `+0`, so a non-zero finite value divided by zero is the infinity of
its own sign and `0 / 0` is `NaN`. -/
def div : FloatVal R → FloatVal R → FloatVal R
  | nan, _ => nan
  | _, nan => nan
  | finite a, finite b =>
      if b = 0 then
        (if a = 0 then nan else if 0 < a then posInf else negInf)
      else finite (a / b)
  | finite _, posInf => finite 0
  | finite _, negInf => finite 0
  | posInf, finite b => if 0 ≤ b then posInf else negInf
  | negInf, finite b => if 0 ≤ b then negInf else posInf
  | posInf, posInf => nan
  | posInf, negInf => nan
  | negInf, posInf => nan
  | negInf, negInf => nan

/-- IEEE `<`: false as soon as one side is `NaN`. -/
def lt : FloatVal R → FloatVal R → Bool
  | nan, _ => false
  | _, nan => false
  | finite a, finite b => decide (a < b)
  | negInf, negInf => false
  | negInf, _ => true
  | _, negInf => false
  | posInf, _ => false
  | _, posInf => true

/-- IEEE `<=`: false as soon as one side is `NaN`. -/
def le : FloatVal R → FloatVal R → Bool
  | nan, _ => false
  | _, nan => false
  | finite a, finite b => decide (a ≤ b)
  | negInf, _ => true
  | _, posInf => true
  | posInf, _ => false
  | _, negInf => false

/-- IEEE `==`: `NaN` is equal to nothing, itself included. -/
def beq : FloatVal R → FloatVal R → Bool
  | finite a, finite b => decide (a = b)
  | posInf, posInf => true
  | negInf, negInf => true
  | _, _ => false

instance : Neg (FloatVal R) := ⟨neg⟩
instance : Add (FloatVal R) := ⟨add⟩
instance : Sub (FloatVal R) := ⟨fun a b => add a (neg b)⟩
instance : Mul (FloatVal R) := ⟨mul⟩
instance : Div (FloatVal R) := ⟨div⟩
instance : LT (FloatVal R) := ⟨fun a b => lt a b = true⟩
instance : LE (FloatVal R) := ⟨fun a b => le a b = true⟩
instance : DecidableRel (fun a b : FloatVal R => a < b) := fun a b =>
  inferInstanceAs (Decidable (lt a b = true))
instance : DecidableRel (fun a b : FloatVal R => a ≤ b) := fun a b =>
  inferInstanceAs (Decidable (le a b = true))

/-- Conversion of a C++ `int` to `float`. -/
def ofInt (i : Int) : FloatVal R := finite (i : R)

/-- The value is finite. -/
def isFinite : FloatVal R → Bool
  | finite _ => true
  | _ => false

/-- Embeds `std::numeric_limits<float>::max()`, that is `(2 - 2^-23) * 2^127`. -/
def fltMax : R := 340282346638528859811704183484516925440

/-- Embeds `qMin(a, b)`, which Qt defines as `(a < b) ? a : b`. -/
def qMin (a b : FloatVal R) : FloatVal R := if a < b then a else b

/-- Embeds `qMax(a, b)`, which Qt defines as `(a < b) ? b : a`. -/
def qMax (a b : FloatVal R) : FloatVal R := if a < b then b else a

/-- Embeds `qAbs(a)`, which Qt defines as `(a >= 0) ? a : -a`. -/
def qAbs (a : FloatVal R) : FloatVal R := if finite 0 ≤ a then a else -a

/-- Embeds `qFuzzyIsNull(float f)`, which Qt defines as `qAbs(f) <= 0.00001f`. -/
def qFuzzyIsNull (a : FloatVal R) : Bool := decide (qAbs a ≤ finite (1 / 100000))

/-- Lifting of a library function such as `std::sin` to `float`: `NaN` on every
non-finite argument. -/
def liftFn (f : R → R) : FloatVal R → FloatVal R
  | finite a => finite (f a)
  | _ => nan

/-- Square root `std::sqrt`, from the library square root on finite values. -/
def sqrtWith (sqrt : R → R) : FloatVal R → FloatVal R
  | finite a => if a < 0 then nan else finite (sqrt a)
  | posInf => posInf
  | negInf => nan
  | nan => nan

end FloatVal

/-- The C math library functions used by the Qt vector and matrix code. -/
structure Libm (R : Type) where
  sqrt : R → R
  sin : R → R
  cos : R → R
  pi : R

/-- A square root on the rationals: exact on the square of a rational, rounded
down to a multiple of `1 / den` elsewhere, `0` on negative arguments. -/
def ratSqrt (q : ℚ) : ℚ := (Nat.sqrt (q.num.toNat * q.den) : ℚ) / q.den

/-- Rational stand-ins for the C math library, with which the model runs on `ℚ`:
`ratSqrt`, the Taylor polynomials of degree five and four for `sin` and `cos`,
and `355 / 113` for `pi`. -/
def Libm.rational : Libm ℚ :=
  { sqrt := ratSqrt
    sin := fun x => x - x ^ 3 / 6 + x ^ 5 / 120
    cos := fun x => 1 - x ^ 2 / 2 + x ^ 4 / 24
    pi := 355 / 113 }

/-! ## `QVector3D` -/

/-- Qt `QVector3D`: three `float` coordinates. -/
structure QVector3D (R : Type) where
  x : FloatVal R
  y : FloatVal R
  z : FloatVal R
  deriving DecidableEq, Repr

namespace QVector3D

variable {R : Type} [LinearOrderedField R]

/-- Vector with the finite coordinates `a`, `b`, `c`. -/
def ofFinite (a b c : R) : QVector3D R := ⟨.finite a, .finite b, .finite c⟩

/-- Embeds `operator+(v1, v2)`. -/
def add (a b : QVector3D R) : QVector3D R := ⟨a.x + b.x, a.y + b.y, a.z + b.z⟩

/-- Embeds `operator-(v1, v2)`. -/
def sub (a b : QVector3D R) : QVector3D R := ⟨a.x - b.x, a.y - b.y, a.z - b.z⟩

/-- Embeds `operator*(vector, factor)`. -/
def scaleBy (a : QVector3D R) (f : FloatVal R) : QVector3D R := ⟨a.x * f, a.y * f, a.z * f⟩

/-- Embeds `operator-(vector)`. -/
def neg (a : QVector3D R) : QVector3D R := ⟨-a.x, -a.y, -a.z⟩

instance : Add (QVector3D R) := ⟨add⟩
instance : Sub (QVector3D R) := ⟨sub⟩
instance : Neg (QVector3D R) := ⟨neg⟩

/-- Embeds `operator==(v1, v2)`: coordinate-wise `float` equality. -/
def beq (a b : QVector3D R) : Bool :=
  FloatVal.beq a.x b.x && FloatVal.beq a.y b.y && FloatVal.beq a.z b.z

/-- Embeds `QVector3D::length()`: the square root of the sum of the squared coordinates. -/
def length (lm : Libm R) (a : QVector3D R) : FloatVal R :=
  FloatVal.sqrtWith lm.sqrt (a.x * a.x + a.y * a.y + a.z * a.z)

/-- Embeds `QVector3D::normalize()`: in place, leaving the vector as it is when its length
is fuzzily 1 or fuzzily 0. -/
def normalize (lm : Libm R) (a : QVector3D R) : QVector3D R :=
  let len := length lm a
  if FloatVal.qFuzzyIsNull (len - .finite 1) || FloatVal.qFuzzyIsNull len then a
  else ⟨a.x / len, a.y / len, a.z / len⟩

/-- Embeds `QVector3D::normalized()`: the null vector when the length is fuzzily 0. -/
def normalized (lm : Libm R) (a : QVector3D R) : QVector3D R :=
  let len := length lm a
  if FloatVal.qFuzzyIsNull (len - .finite 1) then a
  else if FloatVal.qFuzzyIsNull len then ⟨.finite 0, .finite 0, .finite 0⟩
  else ⟨a.x / len, a.y / len, a.z / len⟩

/-- Embeds `QVector3D::crossProduct(v1, v2)`. -/
def crossProduct (a b : QVector3D R) : QVector3D R :=
  ⟨a.y * b.z - a.z * b.y, a.z * b.x - a.x * b.z, a.x * b.y - a.y * b.x⟩

end QVector3D

/-- A GLSL `vec4`. -/
structure Vec4 (R : Type) where
  x : FloatVal R
  y : FloatVal R
  z : FloatVal R
  w : FloatVal R
  deriving DecidableEq, Repr

/-! ## `QMatrix4x4` -/

/-- Qt `QMatrix4x4`.  Field `mCR` is Qt's `m[C][R]`: column `C`, row `R`.
`flagBits` is Qt's record of the matrix's shape, which selects the shortcut
taken by `scale`, `translate` and `operator*=`: `0` identity, `1` translation,
`2` scale, `4` rotation about z, `8` rotation, `16` perspective, `31` general. -/
structure QMatrix4x4 (R : Type) where
  m00 : FloatVal R
  m01 : FloatVal R
  m02 : FloatVal R
  m03 : FloatVal R
  m10 : FloatVal R
  m11 : FloatVal R
  m12 : FloatVal R
  m13 : FloatVal R
  m20 : FloatVal R
  m21 : FloatVal R
  m22 : FloatVal R
  m23 : FloatVal R
  m30 : FloatVal R
  m31 : FloatVal R
  m32 : FloatVal R
  m33 : FloatVal R
  flagBits : Nat
  deriving DecidableEq, Repr

namespace QMatrix4x4

variable {R : Type} [LinearOrderedField R]

/-- Embeds `QMatrix4x4::setToIdentity()`, also the default constructor. -/
def identity : QMatrix4x4 R :=
  { m00 := .finite 1, m01 := .finite 0, m02 := .finite 0, m03 := .finite 0
    m10 := .finite 0, m11 := .finite 1, m12 := .finite 0, m13 := .finite 0
    m20 := .finite 0, m21 := .finite 0, m22 := .finite 1, m23 := .finite 0
    m30 := .finite 0, m31 := .finite 0, m32 := .finite 0, m33 := .finite 1
    flagBits := 0 }

/-- Embeds `QMatrix4x4::scale(float factor)`. -/
def scale (m : QMatrix4x4 R) (f : FloatVal R) : QMatrix4x4 R :=
  if m.flagBits < 2 then
    { m with m00 := f, m11 := f, m22 := f, flagBits := m.flagBits ||| 2 }
  else if m.flagBits < 4 then
    { m with m00 := m.m00 * f, m11 := m.m11 * f, m22 := m.m22 * f
             flagBits := m.flagBits ||| 2 }
  else if m.flagBits < 8 then
    { m with m00 := m.m00 * f, m01 := m.m01 * f, m10 := m.m10 * f, m11 := m.m11 * f
             m22 := m.m22 * f, flagBits := m.flagBits ||| 2 }
  else
    { m with m00 := m.m00 * f, m01 := m.m01 * f, m02 := m.m02 * f, m03 := m.m03 * f
             m10 := m.m10 * f, m11 := m.m11 * f, m12 := m.m12 * f, m13 := m.m13 * f
             m20 := m.m20 * f, m21 := m.m21 * f, m22 := m.m22 * f, m23 := m.m23 * f
             flagBits := m.flagBits ||| 2 }

/-- Embeds `QMatrix4x4::translate(const QVector3D&)`. -/
def translate (m : QMatrix4x4 R) (v : QVector3D R) : QMatrix4x4 R :=
  if m.flagBits = 0 then
    { m with m30 := v.x, m31 := v.y, m32 := v.z, flagBits := m.flagBits ||| 1 }
  else if m.flagBits = 1 then
    { m with m30 := m.m30 + v.x, m31 := m.m31 + v.y, m32 := m.m32 + v.z
             flagBits := m.flagBits ||| 1 }
  else if m.flagBits = 2 then
    { m with m30 := m.m00 * v.x, m31 := m.m11 * v.y, m32 := m.m22 * v.z
             flagBits := m.flagBits ||| 1 }
  else if m.flagBits = 3 then
    { m with m30 := m.m30 + m.m00 * v.x, m31 := m.m31 + m.m11 * v.y
             m32 := m.m32 + m.m22 * v.z, flagBits := m.flagBits ||| 1 }
  else if m.flagBits < 8 then
    { m with m30 := m.m30 + (m.m00 * v.x + m.m10 * v.y)
             m31 := m.m31 + (m.m01 * v.x + m.m11 * v.y)
             m32 := m.m32 + m.m22 * v.z, flagBits := m.flagBits ||| 1 }
  else
    { m with m30 := m.m30 + (m.m00 * v.x + m.m10 * v.y + m.m20 * v.z)
             m31 := m.m31 + (m.m01 * v.x + m.m11 * v.y + m.m21 * v.z)
             m32 := m.m32 + (m.m02 * v.x + m.m12 * v.y + m.m22 * v.z)
             m33 := m.m33 + (m.m03 * v.x + m.m13 * v.y + m.m23 * v.z)
             flagBits := m.flagBits ||| 1 }

/-- Embeds `QMatrix4x4::operator*=(other)`: the shortcut for two scale/translation
matrices, the full product otherwise. -/
def mulAssign (m o : QMatrix4x4 R) : QMatrix4x4 R :=
  let fb := m.flagBits ||| o.flagBits
  if fb < 4 then
    { m with m30 := m.m30 + m.m00 * o.m30, m31 := m.m31 + m.m11 * o.m31
             m32 := m.m32 + m.m22 * o.m32
             m00 := m.m00 * o.m00, m11 := m.m11 * o.m11, m22 := m.m22 * o.m22
             flagBits := fb }
  else
    { m00 := m.m00 * o.m00 + m.m10 * o.m01 + m.m20 * o.m02 + m.m30 * o.m03
      m10 := m.m00 * o.m10 + m.m10 * o.m11 + m.m20 * o.m12 + m.m30 * o.m13
      m20 := m.m00 * o.m20 + m.m10 * o.m21 + m.m20 * o.m22 + m.m30 * o.m23
      m30 := m.m00 * o.m30 + m.m10 * o.m31 + m.m20 * o.m32 + m.m30 * o.m33
      m01 := m.m01 * o.m00 + m.m11 * o.m01 + m.m21 * o.m02 + m.m31 * o.m03
      m11 := m.m01 * o.m10 + m.m11 * o.m11 + m.m21 * o.m12 + m.m31 * o.m13
      m21 := m.m01 * o.m20 + m.m11 * o.m21 + m.m21 * o.m22 + m.m31 * o.m23
      m31 := m.m01 * o.m30 + m.m11 * o.m31 + m.m21 * o.m32 + m.m31 * o.m33
      m02 := m.m02 * o.m00 + m.m12 * o.m01 + m.m22 * o.m02 + m.m32 * o.m03
      m12 := m.m02 * o.m10 + m.m12 * o.m11 + m.m22 * o.m12 + m.m32 * o.m13
      m22 := m.m02 * o.m20 + m.m12 * o.m21 + m.m22 * o.m22 + m.m32 * o.m23
      m32 := m.m02 * o.m30 + m.m12 * o.m31 + m.m22 * o.m32 + m.m32 * o.m33
      m03 := m.m03 * o.m00 + m.m13 * o.m01 + m.m23 * o.m02 + m.m33 * o.m03
      m13 := m.m03 * o.m10 + m.m13 * o.m11 + m.m23 * o.m12 + m.m33 * o.m13
      m23 := m.m03 * o.m20 + m.m13 * o.m21 + m.m23 * o.m22 + m.m33 * o.m23
      m33 := m.m03 * o.m30 + m.m13 * o.m31 + m.m23 * o.m32 + m.m33 * o.m33
      flagBits := fb }

/-- Embeds `QMatrix4x4::lookAt(eye, center, up)`: nothing when `center - eye` is fuzzily
null; otherwise the matrix is multiplied by the viewing rotation and then
translated by `-eye`. -/
def lookAt (lm : Libm R) (m : QMatrix4x4 R) (eye center up : QVector3D R) : QMatrix4x4 R :=
  let forward0 := center - eye
  if FloatVal.qFuzzyIsNull forward0.x && FloatVal.qFuzzyIsNull forward0.y
      && FloatVal.qFuzzyIsNull forward0.z then m
  else
    let forward := QVector3D.normalize lm forward0
    let side := QVector3D.normalized lm (QVector3D.crossProduct forward up)
    let upVector := QVector3D.crossProduct side forward
    let r : QMatrix4x4 R :=
      { m00 := side.x, m10 := side.y, m20 := side.z, m30 := .finite 0
        m01 := upVector.x, m11 := upVector.y, m21 := upVector.z, m31 := .finite 0
        m02 := -forward.x, m12 := -forward.y, m22 := -forward.z, m32 := .finite 0
        m03 := .finite 0, m13 := .finite 0, m23 := .finite 0, m33 := .finite 1
        flagBits := 8 }
    translate (mulAssign m r) (-eye)

/-- Embeds `QMatrix4x4::perspective(verticalAngle, aspectRatio, nearPlane, farPlane)`:
nothing when the volume is empty (`near == far`, zero aspect ratio or zero sine of
the half angle); otherwise the matrix is multiplied by the projection. -/
def perspective (lm : Libm R) (m : QMatrix4x4 R)
    (verticalAngle aspectRatio nearPlane farPlane : FloatVal R) : QMatrix4x4 R :=
  if FloatVal.beq nearPlane farPlane || FloatVal.beq aspectRatio (.finite 0) then m
  else
    let radians := (verticalAngle / .finite 2) * .finite (lm.pi / 180)
    let sine := FloatVal.liftFn lm.sin radians
    if FloatVal.beq sine (.finite 0) then m
    else
      let cotan := FloatVal.liftFn lm.cos radians / sine
      let clip := farPlane - nearPlane
      let p : QMatrix4x4 R :=
        { m00 := cotan / aspectRatio, m10 := .finite 0, m20 := .finite 0, m30 := .finite 0
          m01 := .finite 0, m11 := cotan, m21 := .finite 0, m31 := .finite 0
          m02 := .finite 0, m12 := .finite 0, m22 := -(nearPlane + farPlane) / clip
          m32 := -(.finite 2 * nearPlane * farPlane) / clip
          m03 := .finite 0, m13 := .finite 0, m23 := -(.finite 1), m33 := .finite 0
          flagBits := 31 }
      mulAssign m p

/-- The vertex shader's `matrix * vec4`: the plain column-major product of the
sixteen entries with the column vector, in exact arithmetic; `mulVec4Rounded` is
the product with each operation rounded. -/
def mulVec4 (m : QMatrix4x4 R) (v : Vec4 R) : Vec4 R :=
  { x := m.m00 * v.x + m.m10 * v.y + m.m20 * v.z + m.m30 * v.w
    y := m.m01 * v.x + m.m11 * v.y + m.m21 * v.z + m.m31 * v.w
    z := m.m02 * v.x + m.m12 * v.y + m.m22 * v.z + m.m32 * v.w
    w := m.m03 * v.x + m.m13 * v.y + m.m23 * v.z + m.m33 * v.w }

end QMatrix4x4

/-! ## Entities and the view widget -/

/-- The `PointCloud` record of `mainwindow.h`.  The mesh fields (`vertices`,
`indices`, `polygons`, `polygonColors`, `lines`) are read by none of the
functions embedded here and are left out. -/
structure PointCloud (R : Type) where
  points : List (QVector3D R)
  colors : List (QVector3D R)
  sourceFormat : String
  isVisible : Bool
  pointSize : FloatVal R
  tintColor : Nat × Nat × Nat
  boundingBoxMin : QVector3D R
  boundingBoxMax : QVector3D R
  deriving DecidableEq, Repr

/-- Embeds `PointCloudGLWidget::RenderMode`. -/
inductive RenderMode where
  | POINTS
  | POINTS_SMOOTH
  deriving DecidableEq, Repr

/-- The state of `PointCloudGLWidget`.  `m_pointClouds` is the `QMap` from entity
name to entity, as the list of its pairs in iteration order; `width` and `height`
are the widget's size.  The GL handles and the mesh arrays are left out. -/
structure PointCloudGLWidget (R : Type) where
  m_projection : QMatrix4x4 R
  m_view : QMatrix4x4 R
  m_model : QMatrix4x4 R
  m_lastPos : Int × Int
  m_distance : FloatVal R
  m_xRot : FloatVal R
  m_yRot : FloatVal R
  m_focalDistance : FloatVal R
  m_fov : FloatVal R
  m_hasPointCloud : Bool
  m_pointCount : Int
  m_pointSize : FloatVal R
  m_renderMode : RenderMode
  m_pointClouds : List (String × PointCloud R)
  m_selectedEntityForBoundingBox : String
  m_showBoundingBox : Bool
  m_hasMesh : Bool
  width : Int
  height : Int
  deriving DecidableEq, Repr

/-- Embeds `QMap::contains(name)`. -/
def mapContains {R : Type} (m : List (String × PointCloud R)) (name : String) : Bool :=
  (m.lookup name).isSome

/-- Embeds `QMouseEvent`: the pointer position (a `QPointF`) and the mask of held
buttons (`Qt::LeftButton = 1`, `Qt::RightButton = 2`). -/
structure QMouseEvent where
  position : ℚ × ℚ
  buttons : Nat
  deriving DecidableEq, Repr

/-- Embeds `QWheelEvent`: the `angleDelta()` of the wheel. -/
structure QWheelEvent where
  angleDelta : Int × Int
  deriving DecidableEq, Repr

/-- Conversion of a `double` to `int`: truncation toward zero. -/
def truncToInt (q : ℚ) : Int := if 0 ≤ q then ⌊q⌋ else ⌈q⌉

/-- Embeds `qRound(double)`: `int(d + 0.5)` for `d >= 0`, `int(d - 0.5)` otherwise. -/
def qRound (q : ℚ) : Int := if 0 ≤ q then truncToInt (q + 1 / 2) else truncToInt (q - 1 / 2)

namespace PointCloudGLWidget

variable {R : Type} [LinearOrderedField R]

/-- The widget as its constructor and the member initialisers leave it, for a
widget of the given size. -/
def init (width height : Int) : PointCloudGLWidget R :=
  { m_projection := QMatrix4x4.identity
    m_view := QMatrix4x4.identity
    m_model := QMatrix4x4.identity
    m_lastPos := (0, 0)
    m_distance := .finite 5
    m_xRot := .finite 0
    m_yRot := .finite 0
    m_focalDistance := .finite (3 / 4)
    m_fov := .finite 60
    m_hasPointCloud := false
    m_pointCount := 0
    m_pointSize := .finite 3
    m_renderMode := .POINTS
    m_pointClouds := []
    m_selectedEntityForBoundingBox := ""
    m_showBoundingBox := false
    m_hasMesh := false
    width := width
    height := height }

/-- Embeds `setPointClouds`. -/
def setPointClouds (w : PointCloudGLWidget R) (pointClouds : List (String × PointCloud R)) :
    PointCloudGLWidget R :=
  { w with m_pointClouds := pointClouds }

/-- Embeds `updatePointCloudVisibility`. -/
def updatePointCloudVisibility (w : PointCloudGLWidget R) (name : String) (visible : Bool) :
    PointCloudGLWidget R :=
  if mapContains w.m_pointClouds name then
    { w with m_pointClouds := w.m_pointClouds.map fun kv =>
        if kv.1 = name then (kv.1, { kv.2 with isVisible := visible }) else kv }
  else w

/-- One pass of the inner loop of `calculateSceneExtents`: the box `(min, max)`
widened by one point. -/
def extendBox (box : QVector3D R × QVector3D R) (point : QVector3D R) :
    QVector3D R × QVector3D R :=
  (⟨FloatVal.qMin box.1.x point.x, FloatVal.qMin box.1.y point.y,
      FloatVal.qMin box.1.z point.z⟩,
   ⟨FloatVal.qMax box.2.x point.x, FloatVal.qMax box.2.y point.y,
      FloatVal.qMax box.2.z point.z⟩)

/-- One pass of the outer loop of `calculateSceneExtents`: the box and the
`foundVisiblePoints` flag after one entity. -/
def extentsStep (acc : (QVector3D R × QVector3D R) × Bool) (pc : PointCloud R) :
    (QVector3D R × QVector3D R) × Bool :=
  if pc.isVisible && !pc.points.isEmpty then (pc.points.foldl extendBox acc.1, true)
  else acc

/-- Embeds `calculateSceneExtents`, returning the pair `(min, max)` it writes to its two
reference parameters. -/
def calculateSceneExtents (w : PointCloudGLWidget R) : QVector3D R × QVector3D R :=
  let start : QVector3D R × QVector3D R :=
    (QVector3D.ofFinite FloatVal.fltMax FloatVal.fltMax FloatVal.fltMax,
     QVector3D.ofFinite (-FloatVal.fltMax) (-FloatVal.fltMax) (-FloatVal.fltMax))
  let r := (w.m_pointClouds.map Prod.snd).foldl extentsStep (start, false)
  if !r.2 then (QVector3D.ofFinite (-1) (-1) (-1), QVector3D.ofFinite 1 1 1)
  else r.1

/-- The model matrix that `resetView`, `setFocusOnPointCloud` and
`saveViewportForSelectedEntity` each build from a centre and a size:
`setToIdentity(); scale(1.0f / qMax(qMax(size.x, size.y), size.z));
translate(-center)`, in exact arithmetic; `framingModelRounded` is the matrix with
each operation rounded. -/
def framingModel (center size : QVector3D R) : QMatrix4x4 R :=
  let scale := FloatVal.finite 1 / FloatVal.qMax (FloatVal.qMax size.x size.y) size.z
  (QMatrix4x4.identity.scale scale).translate (-center)

/-- Embeds `resetView`. -/
def resetView (lm : Libm R) (w : PointCloudGLWidget R) : PointCloudGLWidget R :=
  let w1 := { w with m_xRot := .finite 30, m_yRot := .finite 40, m_distance := .finite 5
                     m_fov := .finite 30, m_focalDistance := .finite (1 / 2) }
  let ext := calculateSceneExtents w1
  let center := (ext.1 + ext.2).scaleBy (.finite (1 / 2))
  let size := ext.2 - ext.1
  let sceneSize := size.length lm
  { w1 with m_distance := sceneSize * .finite 2
            m_model := framingModel center size }

/-- Embeds `setFocusOnPointCloud`. -/
def setFocusOnPointCloud (lm : Libm R) (w : PointCloudGLWidget R) (name : String)
    (min max : QVector3D R) : PointCloudGLWidget R :=
  match w.m_pointClouds.lookup name with
  | none => w
  | some pc =>
    if pc.points.isEmpty then w
    else
      let center := (min + max).scaleBy (.finite (1 / 2))
      let size := max - min
      let sceneSize := size.length lm
      let cameraDistance := sceneSize * .finite 4
      let view := QMatrix4x4.lookAt lm QMatrix4x4.identity
        (center + ⟨.finite 0, .finite 0, cameraDistance⟩) center (QVector3D.ofFinite 0 1 0)
      let fov : FloatVal R := .finite 30
      let aspect : FloatVal R := FloatVal.ofInt w.width / FloatVal.ofInt w.height
      let nearPlane := FloatVal.qMax (.finite (1 / 100)) (sceneSize * .finite (1 / 100))
      let farPlane := sceneSize * .finite 20
      { w with m_distance := cameraDistance
               m_view := view
               m_fov := fov
               m_focalDistance := sceneSize * .finite (3 / 2)
               m_projection := QMatrix4x4.perspective lm QMatrix4x4.identity fov aspect
                 nearPlane farPlane
               m_model := framingModel center size
               m_xRot := .finite 30
               m_yRot := .finite 40
               m_selectedEntityForBoundingBox := name
               m_showBoundingBox := true }

/-- Embeds `showBoundingBox`. -/
def showBoundingBox (w : PointCloudGLWidget R) (_minCorner _maxCorner : QVector3D R) :
    PointCloudGLWidget R :=
  { w with m_selectedEntityForBoundingBox := "", m_showBoundingBox := true }

/-- Embeds `hideBoundingBox`. -/
def hideBoundingBox (w : PointCloudGLWidget R) : PointCloudGLWidget R :=
  { w with m_showBoundingBox := false }

/-- Embeds `mousePressEvent`: `m_lastPos = event->pos()`. -/
def mousePressEvent (w : PointCloudGLWidget R) (pos : Int × Int) : PointCloudGLWidget R :=
  { w with m_lastPos := pos }

/-- The `int dx` of `mouseMoveEvent`. -/
def mouseDx (w : PointCloudGLWidget R) (event : QMouseEvent) : Int :=
  truncToInt (event.position.1 - (w.m_lastPos.1 : ℚ))

/-- The `int dy` of `mouseMoveEvent`. -/
def mouseDy (w : PointCloudGLWidget R) (event : QMouseEvent) : Int :=
  truncToInt (event.position.2 - (w.m_lastPos.2 : ℚ))

/-- Embeds `mouseMoveEvent` in exact arithmetic; `mouseMoveEventRounded` is the
handler with its `float` operations rounded. -/
def mouseMoveEvent (w : PointCloudGLWidget R) (event : QMouseEvent) : PointCloudGLWidget R :=
  let dx := mouseDx w event
  let dy := mouseDy w event
  let w1 :=
    if event.buttons &&& 1 ≠ 0 then
      { w with m_yRot := w.m_yRot + FloatVal.ofInt dx, m_xRot := w.m_xRot + FloatVal.ofInt dy }
    else if event.buttons &&& 2 ≠ 0 then
      { w with
          m_distance :=
            FloatVal.qMax (.finite (1 / 10))
              (w.m_distance - FloatVal.ofInt dy * .finite (1 / 100)) }
    else w
  { w1 with m_lastPos := (qRound event.position.1, qRound event.position.2) }

/-- Embeds `wheelEvent` in exact arithmetic; `wheelEventRounded` is the handler
with its `float` operations rounded. -/
def wheelEvent (w : PointCloudGLWidget R) (event : QWheelEvent) : PointCloudGLWidget R :=
  { w with
      m_distance :=
        FloatVal.qMax (.finite (1 / 10))
          (w.m_distance - FloatVal.ofInt event.angleDelta.2 * .finite (1 / 1000)) }

end PointCloudGLWidget

/-- An input event delivered to the view widget. -/
inductive InputEvent where
  | press (pos : Int × Int)
  | move (event : QMouseEvent)
  | wheel (event : QWheelEvent)
  deriving DecidableEq, Repr

namespace PointCloudGLWidget

variable {R : Type} [LinearOrderedField R]

/-- Dispatch of one input event to its handler. -/
def handleEvent (w : PointCloudGLWidget R) : InputEvent → PointCloudGLWidget R
  | .press pos => w.mousePressEvent pos
  | .move event => w.mouseMoveEvent event
  | .wheel event => w.wheelEvent event

/-- The events are handled one after the other, in arrival order. -/
def handleEvents (w : PointCloudGLWidget R) (events : List InputEvent) : PointCloudGLWidget R :=
  events.foldl handleEvent w

end PointCloudGLWidget

/-! ## Rendering a frame -/

namespace QMatrix4x4

variable {R : Type} [LinearOrderedField R]

/-- The cosine and sine `(c, s)` that `QMatrix4x4::rotate(angle, x, y, z)` uses
for a non-zero angle: exact at 90, 180 and 270 degrees of either sign, the library
`cos` and `sin` of `qDegreesToRadians(angle)` elsewhere. -/
def rotationCosSin (lm : Libm R) (angle : FloatVal R) : FloatVal R × FloatVal R :=
  if FloatVal.beq angle (.finite 90) || FloatVal.beq angle (.finite (-270)) then
    (.finite 0, .finite 1)
  else if FloatVal.beq angle (.finite (-90)) || FloatVal.beq angle (.finite 270) then
    (.finite 0, .finite (-1))
  else if FloatVal.beq angle (.finite 180) || FloatVal.beq angle (.finite (-180)) then
    (.finite (-1), .finite 0)
  else
    let a := angle * .finite (lm.pi / 180)
    (FloatVal.liftFn lm.cos a, FloatVal.liftFn lm.sin a)

/-- Embeds `QMatrix4x4::rotate(angle, 1.0f, 0.0f, 0.0f)`: nothing for a zero angle;
otherwise the branch of `rotate` for the x axis, which combines columns 1 and 2
in place. -/
def rotateAboutX (lm : Libm R) (m : QMatrix4x4 R) (angle : FloatVal R) : QMatrix4x4 R :=
  if FloatVal.beq angle (.finite 0) then m
  else
    let c := (rotationCosSin lm angle).1
    let s := (rotationCosSin lm angle).2
    { m with m10 := m.m10 * c + m.m20 * s, m20 := m.m20 * c - m.m10 * s
             m11 := m.m11 * c + m.m21 * s, m21 := m.m21 * c - m.m11 * s
             m12 := m.m12 * c + m.m22 * s, m22 := m.m22 * c - m.m12 * s
             m13 := m.m13 * c + m.m23 * s, m23 := m.m23 * c - m.m13 * s
             flagBits := m.flagBits ||| 8 }

/-- Embeds `QMatrix4x4::rotate(angle, 0.0f, 1.0f, 0.0f)`: nothing for a zero angle;
otherwise the branch of `rotate` for the y axis, which combines columns 2 and 0
in place. -/
def rotateAboutY (lm : Libm R) (m : QMatrix4x4 R) (angle : FloatVal R) : QMatrix4x4 R :=
  if FloatVal.beq angle (.finite 0) then m
  else
    let c := (rotationCosSin lm angle).1
    let s := (rotationCosSin lm angle).2
    { m with m20 := m.m20 * c + m.m00 * s, m00 := m.m00 * c - m.m20 * s
             m21 := m.m21 * c + m.m01 * s, m01 := m.m01 * c - m.m21 * s
             m22 := m.m22 * c + m.m02 * s, m02 := m.m02 * c - m.m22 * s
             m23 := m.m23 * c + m.m03 * s, m03 := m.m03 * c - m.m23 * s
             flagBits := m.flagBits ||| 8 }

/-- The entry in row `i` and column `j`. -/
def entry (m : QMatrix4x4 R) (i j : Fin 4) : FloatVal R :=
  match i, j with
  | 0, 0 => m.m00 | 0, 1 => m.m10 | 0, 2 => m.m20 | 0, 3 => m.m30
  | 1, 0 => m.m01 | 1, 1 => m.m11 | 1, 2 => m.m21 | 1, 3 => m.m31
  | 2, 0 => m.m02 | 2, 1 => m.m12 | 2, 2 => m.m22 | 2, 3 => m.m32
  | 3, 0 => m.m03 | 3, 1 => m.m13 | 3, 2 => m.m23 | 3, 3 => m.m33

end QMatrix4x4

namespace PointCloudGLWidget

variable {R : Type} [LinearOrderedField R]

/-- Embeds `resizeGL(width, height)`: the projection is rebuilt from the current
field of view. -/
def resizeGL (lm : Libm R) (w : PointCloudGLWidget R) (width height : Int) :
    PointCloudGLWidget R :=
  { w with
      m_projection :=
        QMatrix4x4.perspective lm QMatrix4x4.identity w.m_fov
          (FloatVal.ofInt width / FloatVal.ofInt height) (.finite (1 / 100)) (.finite 1000) }

/-- Embeds `paintGL` as far as the widget's state goes: nothing when there is no
entity; otherwise the view matrix is rebuilt as `setToIdentity(); translate(0, 0,
-m_distance); rotate(m_xRot, 1, 0, 0); rotate(m_yRot, 0, 1, 0)` before the entities
are drawn with it. -/
def paintGL (lm : Libm R) (w : PointCloudGLWidget R) : PointCloudGLWidget R :=
  if w.m_pointClouds.isEmpty then w
  else
    { w with
        m_view :=
          QMatrix4x4.rotateAboutY lm
            (QMatrix4x4.rotateAboutX lm
              (QMatrix4x4.translate QMatrix4x4.identity ⟨.finite 0, .finite 0, -w.m_distance⟩)
              w.m_xRot)
            w.m_yRot }

end PointCloudGLWidget

/-! ### The orbit formula in the spec's words -/

/-- The cosine of an angle given in degrees: exact at the multiples of 90 degrees
up to 270 of either sign, the library cosine of the radians elsewhere. -/
def degCos {R : Type} [LinearOrderedField R] (lm : Libm R) (deg : R) : R :=
  if deg = 0 then 1
  else if deg = 90 ∨ deg = -270 ∨ deg = -90 ∨ deg = 270 then 0
  else if deg = 180 ∨ deg = -180 then -1
  else lm.cos (deg * (lm.pi / 180))

/-- The sine of an angle given in degrees: exact at the multiples of 90 degrees up
to 270 of either sign, the library sine of the radians elsewhere. -/
def degSin {R : Type} [LinearOrderedField R] (lm : Libm R) (deg : R) : R :=
  if deg = 0 then 0
  else if deg = 90 ∨ deg = -270 then 1
  else if deg = -90 ∨ deg = 270 then -1
  else if deg = 180 ∨ deg = -180 then 0
  else lm.sin (deg * (lm.pi / 180))

/-- The spec's `translate(0, 0, -distance)` as a 4 x 4 matrix. -/
def specTranslateZ {R : Type} [LinearOrderedField R] (distance : R) : Matrix (Fin 4) (Fin 4) R :=
  Matrix.of ![![1, 0, 0, 0], ![0, 1, 0, 0], ![0, 0, 1, -distance], ![0, 0, 0, 1]]

/-- The spec's `rotateX(pitch)`: the rotation about the x axis with cosine `c` and
sine `s`. -/
def specRotateX {R : Type} [LinearOrderedField R] (c s : R) : Matrix (Fin 4) (Fin 4) R :=
  Matrix.of ![![1, 0, 0, 0], ![0, c, -s, 0], ![0, s, c, 0], ![0, 0, 0, 1]]

/-- The spec's `rotateY(yaw)`: the rotation about the y axis with cosine `c` and
sine `s`. -/
def specRotateY {R : Type} [LinearOrderedField R] (c s : R) : Matrix (Fin 4) (Fin 4) R :=
  Matrix.of ![![c, 0, s, 0], ![0, 1, 0, 0], ![-s, 0, c, 0], ![0, 0, 0, 1]]

/-- The spec's `recomputeView()`: `T * Rx * Ry`, the translation outermost. -/
def specOrbitView {R : Type} [LinearOrderedField R] (lm : Libm R) (distance pitch yaw : R) :
    Matrix (Fin 4) (Fin 4) R :=
  specTranslateZ distance * specRotateX (degCos lm pitch) (degSin lm pitch)
    * specRotateY (degCos lm yaw) (degSin lm yaw)

/-- The `QMatrix4x4` whose entries are the finite entries of `A`, with the given
shape flags. -/
def QMatrix4x4.ofMatrix {R : Type} (A : Matrix (Fin 4) (Fin 4) R) (flagBits : Nat) :
    QMatrix4x4 R :=
  { m00 := .finite (A 0 0), m01 := .finite (A 1 0), m02 := .finite (A 2 0), m03 := .finite (A 3 0)
    m10 := .finite (A 0 1), m11 := .finite (A 1 1), m12 := .finite (A 2 1), m13 := .finite (A 3 1)
    m20 := .finite (A 0 2), m21 := .finite (A 1 2), m22 := .finite (A 2 2), m23 := .finite (A 3 2)
    m30 := .finite (A 0 3), m31 := .finite (A 1 3), m32 := .finite (A 2 3), m33 := .finite (A 3 3)
    flagBits := flagBits }

/-! ## Viewport snapshots and the main window -/

/-- Embeds `ViewportObject::ViewportParameters`. -/
structure ViewportParameters (R : Type) where
  modelMatrix : QMatrix4x4 R
  viewMatrix : QMatrix4x4 R
  cameraDistance : FloatVal R
  xRot : FloatVal R
  yRot : FloatVal R
  modelCenter : QVector3D R
  focalDistance : FloatVal R
  fov : FloatVal R
  deriving DecidableEq, Repr

/-- Embeds `ViewportObject`, once `setParameters` has filled its parameters. -/
structure ViewportObject (R : Type) where
  m_name : String
  m_params : ViewportParameters R
  deriving DecidableEq, Repr

namespace ViewportObject

variable {R : Type} [LinearOrderedField R]

/-- Embeds `ViewportObject::getName`. -/
def getName (v : ViewportObject R) : String := v.m_name

/-- Embeds `ViewportObject::setParameters`. -/
def setParameters (v : ViewportObject R) (params : ViewportParameters R) : ViewportObject R :=
  { v with m_params := params }

/-- Embeds `ViewportObject::applyViewport` on a non-null widget: the seven setters in
turn. -/
def applyViewport (v : ViewportObject R) (w : PointCloudGLWidget R) : PointCloudGLWidget R :=
  { w with m_model := v.m_params.modelMatrix
           m_view := v.m_params.viewMatrix
           m_distance := v.m_params.cameraDistance
           m_xRot := v.m_params.xRot
           m_yRot := v.m_params.yRot
           m_focalDistance := v.m_params.focalDistance
           m_fov := v.m_params.fov }

end ViewportObject

/-- The `Qt::UserRole` data of a tree item: an entity name on a top-level item,
a viewport on a child item. -/
inductive ItemData (R : Type) where
  | entityName (name : String)
  | viewport (v : ViewportObject R)
  deriving DecidableEq, Repr

/-- A top-level item of the tree with its viewport children. -/
structure TopLevelItem (R : Type) where
  text : String
  data : String
  children : List (ViewportObject R)
  deriving DecidableEq, Repr

/-- The tree widget: its top-level items and the data of the current item. -/
structure QTreeWidget (R : Type) where
  topLevelItems : List (TopLevelItem R)
  currentItem : Option (ItemData R)
  deriving DecidableEq, Repr

/-- The state of `MainWindow` that the camera code reads and writes.
`s_viewportIndex` is the `unsigned` static counter. -/
structure MainWindow (R : Type) where
  m_glWidget : PointCloudGLWidget R
  m_treeWidget : QTreeWidget R
  m_pointClouds : List (String × PointCloud R)
  m_viewportList : List (ViewportObject R)
  s_viewportIndex : Nat
  deriving DecidableEq, Repr

namespace MainWindow

variable {R : Type} [LinearOrderedField R]

/-- Embeds `getSelectedPointCloud`: the name held by the current item when it names a
loaded entity, the empty string otherwise (a viewport item's data converts to
the empty string). -/
def getSelectedPointCloud (mw : MainWindow R) : String :=
  match mw.m_treeWidget.currentItem with
  | none => ""
  | some (.entityName name) => if mapContains mw.m_pointClouds name then name else ""
  | some (.viewport _) => ""

/-- Embeds `updateAllVisiblePointClouds`. -/
def updateAllVisiblePointClouds (mw : MainWindow R) : MainWindow R :=
  { mw with m_glWidget := mw.m_glWidget.setPointClouds mw.m_pointClouds }

/-- Embeds `focusCameraOnPointCloud`. -/
def focusCameraOnPointCloud (lm : Libm R) (mw : MainWindow R) (name : String) : MainWindow R :=
  match mw.m_pointClouds.lookup name with
  | none => mw
  | some pc =>
    { mw with
        m_glWidget :=
          mw.m_glWidget.setFocusOnPointCloud lm name pc.boundingBoxMin pc.boundingBoxMax }

/-- Embeds `MainWindow::resetView`. -/
def resetView (lm : Libm R) (mw : MainWindow R) : MainWindow R :=
  updateAllVisiblePointClouds { mw with m_glWidget := mw.m_glWidget.resetView lm }

/-- Embeds `updateTreeWidget`: the viewport becomes a child of the first top-level item
whose data is the entity name, if there is one. -/
def updateTreeWidget (items : List (TopLevelItem R)) (viewport : ViewportObject R)
    (entityName : String) : List (TopLevelItem R) :=
  match items with
  | [] => []
  | item :: rest =>
    if item.data = entityName then
      { item with children := item.children ++ [viewport] } :: rest
    else item :: updateTreeWidget rest viewport entityName

/-- Embeds `saveViewportForSelectedEntity`. -/
def saveViewportForSelectedEntity (lm : Libm R) (mw : MainWindow R) : MainWindow R :=
  let name := getSelectedPointCloud mw
  if name.isEmpty then mw
  else
    match mw.m_pointClouds.lookup name with
    | none => mw
    | some pc =>
      if pc.points.isEmpty then mw
      else
        let bboxMin := pc.boundingBoxMin
        let bboxMax := pc.boundingBoxMax
        if QVector3D.beq bboxMin bboxMax then mw
        else
          let bboxCenter := (bboxMin + bboxMax).scaleBy (.finite (3 / 2))
          let bboxSize := bboxMax - bboxMin
          let sceneSize := bboxSize.length lm
          let cameraDistance := sceneSize * .finite 2
          let focalDistance := sceneSize * .finite (3 / 2)
          let fov : FloatVal R := .finite 30
          let viewMatrix := QMatrix4x4.lookAt lm QMatrix4x4.identity
            (bboxCenter + ⟨.finite 0, .finite 0, cameraDistance⟩) bboxCenter
            (QVector3D.ofFinite 0 1 0)
          let modelMatrix := PointCloudGLWidget.framingModel bboxCenter bboxSize
          let gl : PointCloudGLWidget R :=
            { mw.m_glWidget with m_distance := cameraDistance
                                 m_focalDistance := focalDistance
                                 m_fov := fov
                                 m_view := viewMatrix
                                 m_model := modelMatrix
                                 m_xRot := .finite 40
                                 m_yRot := .finite 40 }
          let index := (mw.s_viewportIndex + 1) % 2 ^ 32
          let params : ViewportParameters R :=
            { modelMatrix := gl.m_model
              viewMatrix := gl.m_view
              cameraDistance := gl.m_distance
              xRot := gl.m_xRot
              yRot := gl.m_yRot
              modelCenter := bboxCenter
              focalDistance := gl.m_focalDistance
              fov := gl.m_fov }
          let viewportObject : ViewportObject R :=
            { m_name := "Viewport #" ++ toString index ++ " - " ++ name, m_params := params }
          { mw with m_glWidget := gl
                    s_viewportIndex := index
                    m_viewportList := mw.m_viewportList ++ [viewportObject]
                    m_treeWidget :=
                      { mw.m_treeWidget with
                          topLevelItems :=
                            updateTreeWidget mw.m_treeWidget.topLevelItems viewportObject name } }

end MainWindow

/-! ## Loading, tree clicks and the session -/

/-- Embeds the `QMap` assignment `m[name] = pc`: the entry of `name` is replaced
where it is, or inserted in key order.  Keys are compared as Lean strings. -/
def mapInsert {R : Type} (m : List (String × PointCloud R)) (name : String)
    (pc : PointCloud R) : List (String × PointCloud R) :=
  match m with
  | [] => [(name, pc)]
  | (k, v) :: rest =>
    if name = k then (k, pc) :: rest
    else if name < k then (name, pc) :: (k, v) :: rest
    else (k, v) :: mapInsert rest name pc

/-- The seven tints that `loadPointCloud` cycles through. -/
def loadTints : List (Nat × Nat × Nat) :=
  [(255, 255, 255), (230, 230, 255), (230, 255, 230), (255, 230, 230), (255, 255, 230),
    (230, 255, 255), (255, 230, 255)]

/-- A file handed to `openFile`: the entity name (`QFileInfo::fileName()`) and the
positions and colours that the read loop of `loadPointCloud` collects from it. -/
structure PtsFile (R : Type) where
  name : String
  points : List (QVector3D R)
  colors : List (QVector3D R)
  deriving DecidableEq, Repr

namespace MainWindow

variable {R : Type} [LinearOrderedField R]

/-- The main window as its constructor leaves it, around a view widget of the
given size: nothing loaded, nothing selected, no viewport, counter at 0. -/
def init (width height : Int) : MainWindow R :=
  { m_glWidget := PointCloudGLWidget.init width height
    m_treeWidget := { topLevelItems := [], currentItem := none }
    m_pointClouds := []
    m_viewportList := []
    s_viewportIndex := 0 }

/-- Embeds `loadPointCloud` from the end of its read loop on, for a file that
opened and was not cancelled: `false` when no point was read; otherwise the cached
bounding box is folded over the points, the entity is stored under its name, its
tree item is appended and made current, `focusCameraOnPointCloud` is called, and
the result is `true`. -/
def loadPointCloud (lm : Libm R) (mw : MainWindow R) (file : PtsFile R) :
    MainWindow R × Bool :=
  if file.points.isEmpty then (mw, false)
  else
    let start : QVector3D R × QVector3D R :=
      (QVector3D.ofFinite FloatVal.fltMax FloatVal.fltMax FloatVal.fltMax,
       QVector3D.ofFinite (-FloatVal.fltMax) (-FloatVal.fltMax) (-FloatVal.fltMax))
    let box := file.points.foldl PointCloudGLWidget.extendBox start
    let pc : PointCloud R :=
      { points := file.points
        colors := file.colors
        sourceFormat := "PTS"
        isVisible := true
        pointSize := .finite 3
        tintColor := loadTints.getD (mw.m_pointClouds.length % 7) (255, 255, 255)
        boundingBoxMin := box.1
        boundingBoxMax := box.2 }
    let mw1 : MainWindow R :=
      { mw with
          m_pointClouds := mapInsert mw.m_pointClouds file.name pc
          m_treeWidget :=
            { topLevelItems :=
                mw.m_treeWidget.topLevelItems ++
                  [{ text := file.name, data := file.name, children := [] }]
              currentItem := some (.entityName file.name) } }
    (focusCameraOnPointCloud lm mw1 file.name, true)

/-- Embeds `openFile` for a selection of PTS files: each is loaded in turn, then
`updateAllVisiblePointClouds` hands the entity map to the view widget. -/
def openFile (lm : Libm R) (mw : MainWindow R) (files : List (PtsFile R)) : MainWindow R :=
  updateAllVisiblePointClouds (files.foldl (fun st file => (loadPointCloud lm st file).1) mw)

/-- The text that `item->data(0, Qt::UserRole).toString()` gives: the name on an
entity item, the empty string on a viewport item. -/
def itemName (item : ItemData R) : String :=
  match item with
  | .entityName name => name
  | .viewport _ => ""

/-- Embeds `onItemClicked` for a click on an item, which the tree has made its
current item. -/
def onItemClicked (lm : Libm R) (mw : MainWindow R) (item : ItemData R) : MainWindow R :=
  let mw1 : MainWindow R :=
    { mw with m_treeWidget := { mw.m_treeWidget with currentItem := some item } }
  if mapContains mw1.m_pointClouds (itemName item) then
    focusCameraOnPointCloud lm mw1 (itemName item)
  else mw1

/-- Embeds `onItemDoubleClicked`: a viewport item applies its viewport to the view
widget, an entity item focuses the camera on the entity. -/
def onItemDoubleClicked (lm : Libm R) (mw : MainWindow R) (item : ItemData R) :
    MainWindow R :=
  match item with
  | .viewport v => { mw with m_glWidget := v.applyViewport mw.m_glWidget }
  | .entityName name =>
    if mapContains mw.m_pointClouds name then focusCameraOnPointCloud lm mw name else mw

/-- Embeds `onItemChanged` in column 0 for an item with the given name and check
state. -/
def onItemChanged (mw : MainWindow R) (name : String) (checked : Bool) : MainWindow R :=
  if mapContains mw.m_pointClouds name then
    updateAllVisiblePointClouds
      { mw with
          m_pointClouds := mw.m_pointClouds.map fun kv =>
            if kv.1 = name then (kv.1, { kv.2 with isVisible := checked }) else kv
          m_glWidget := mw.m_glWidget.updatePointCloudVisibility name checked }
  else mw

end MainWindow

/-- One thing that happens in a session of the main window. -/
inductive AppOp (R : Type) where
  | openFile (files : List (PtsFile R))
  | click (item : ItemData R)
  | doubleClick (item : ItemData R)
  | check (name : String) (checked : Bool)
  | resetView
  | saveViewport
  | input (event : InputEvent)
  | resize (width height : Int)
  | paint

namespace MainWindow

variable {R : Type} [LinearOrderedField R]

/-- The main window after one operation. -/
def step (lm : Libm R) (mw : MainWindow R) : AppOp R → MainWindow R
  | .openFile files => openFile lm mw files
  | .click item => onItemClicked lm mw item
  | .doubleClick item => onItemDoubleClicked lm mw item
  | .check name checked => onItemChanged mw name checked
  | .resetView => resetView lm mw
  | .saveViewport => saveViewportForSelectedEntity lm mw
  | .input event => { mw with m_glWidget := mw.m_glWidget.handleEvent event }
  | .resize width height =>
    { mw with
        m_glWidget :=
          PointCloudGLWidget.resizeGL lm
            { mw.m_glWidget with width := width, height := height } width height }
  | .paint => { mw with m_glWidget := mw.m_glWidget.paintGL lm }

/-- The main window after a sequence of operations, in order. -/
def run (lm : Libm R) (mw : MainWindow R) (ops : List (AppOp R)) : MainWindow R :=
  ops.foldl (step lm) mw

end MainWindow

/-! ## Concrete scenes -/

/-- An entity loaded from a PTS file, with the given points and cached box. -/
def ptsCloud {R : Type} [LinearOrderedField R] (points : List (QVector3D R))
    (visible : Bool) (bbMin bbMax : QVector3D R) : PointCloud R :=
  { points := points
    colors := points.map fun _ => QVector3D.ofFinite 255 255 255
    sourceFormat := "PTS"
    isVisible := visible
    pointSize := .finite 3
    tintColor := (255, 255, 255)
    boundingBoxMin := bbMin
    boundingBoxMax := bbMax }

/-- A freshly constructed 1024 x 768 widget showing the given entities. -/
def widgetWith {R : Type} [LinearOrderedField R] (clouds : List (String × PointCloud R)) :
    PointCloudGLWidget R :=
  { (PointCloudGLWidget.init 1024 768 : PointCloudGLWidget R) with m_pointClouds := clouds }

/-- The four points `(0,0,0), (2,0,0), (0,2,0), (0,0,2)` of the spec's scenario A. -/
def tetraPoints {R : Type} [LinearOrderedField R] : List (QVector3D R) :=
  [.ofFinite 0 0 0, .ofFinite 2 0 0, .ofFinite 0 2 0, .ofFinite 0 0 2]

/-- Scenario A: one visible entity holding `tetraPoints`. -/
def tetraScene {R : Type} [LinearOrderedField R] : PointCloudGLWidget R :=
  widgetWith [("tetra.pts", ptsCloud tetraPoints true (.ofFinite 0 0 0) (.ofFinite 2 2 2))]

/-- A scene in which nothing qualifies: one hidden entity and one without points. -/
def hiddenScene {R : Type} [LinearOrderedField R] : PointCloudGLWidget R :=
  widgetWith [("empty.pts", ptsCloud [] true (.ofFinite 0 0 0) (.ofFinite 0 0 0)),
    ("tetra.pts", ptsCloud tetraPoints false (.ofFinite 0 0 0) (.ofFinite 2 2 2))]

/-- A scene with one visible entity holding the single point `(1, 2, 3)`. -/
def singlePointScene {R : Type} [LinearOrderedField R] : PointCloudGLWidget R :=
  widgetWith [("dot.pts", ptsCloud [.ofFinite 1 2 3] true (.ofFinite 1 2 3) (.ofFinite 1 2 3))]

/-- A small scene: one visible entity holding the two points `(0, 0, 0)` and
`(1/100, 0, 0)`. -/
def tinyScene {R : Type} [LinearOrderedField R] : PointCloudGLWidget R :=
  widgetWith [("tiny.pts", ptsCloud [.ofFinite 0 0 0, .ofFinite (1 / 100) 0 0] true
    (.ofFinite 0 0 0) (.ofFinite (1 / 100) 0 0))]

/-- The squared length of the size vector `max - min` of the box with corners
`(a1, a2, a3)` and `(b1, b2, b3)`. -/
def boxDiagSq {R : Type} [LinearOrderedField R] (a1 a2 a3 b1 b2 b3 : R) : R :=
  (b1 - a1) * (b1 - a1) + (b2 - a2) * (b2 - a2) + (b3 - a3) * (b3 - a3)

/-- The main window after scenario A's file was opened and its item clicked, with
the camera put back to its initial state: `tetra.pts` is loaded, shown and
selected, and the camera is at distance 5 with pitch and yaw 0. -/
def tetraWindow {R : Type} [LinearOrderedField R] : MainWindow R :=
  { m_glWidget := tetraScene
    m_treeWidget :=
      { topLevelItems := [{ text := "tetra.pts", data := "tetra.pts", children := [] }]
        currentItem := some (.entityName "tetra.pts") }
    m_pointClouds := [("tetra.pts", ptsCloud tetraPoints true (.ofFinite 0 0 0) (.ofFinite 2 2 2))]
    m_viewportList := []
    s_viewportIndex := 0 }

/-- Scenario A's file. -/
def tetraFile {R : Type} [LinearOrderedField R] : PtsFile R :=
  { name := "tetra.pts", points := tetraPoints
    colors := (tetraPoints : List (QVector3D R)).map fun _ => QVector3D.ofFinite 255 255 255 }

/-- A scene with scenario A's entity, one hidden entity and one entity without
points. -/
def tetraWithHiddenScene {R : Type} [LinearOrderedField R] : PointCloudGLWidget R :=
  widgetWith [("empty.pts", ptsCloud [] true (.ofFinite 0 0 0) (.ofFinite 0 0 0)),
    ("hidden.pts", ptsCloud [.ofFinite 9 9 9, .ofFinite (-9) 0 3] false (.ofFinite (-9) 0 3)
      (.ofFinite 9 9 9)),
    ("tetra.pts", ptsCloud tetraPoints true (.ofFinite 0 0 0) (.ofFinite 2 2 2))]

/-- Scenario A's entity before a second entity of two points. -/
def orderedScene {R : Type} [LinearOrderedField R] : PointCloudGLWidget R :=
  widgetWith [("tetra.pts", ptsCloud tetraPoints true (.ofFinite 0 0 0) (.ofFinite 2 2 2)),
    ("z.pts", ptsCloud [.ofFinite 1 1 1, .ofFinite 5 (-1) 0] true
      (.ofFinite 1 (-1) 0) (.ofFinite 5 1 1))]

/-- The entities of `orderedScene` under names that sort the other way, each with
its points in the opposite order. -/
def reorderedScene {R : Type} [LinearOrderedField R] : PointCloudGLWidget R :=
  widgetWith [("a.pts", ptsCloud [.ofFinite 5 (-1) 0, .ofFinite 1 1 1] true
      (.ofFinite 1 (-1) 0) (.ofFinite 5 1 1)),
    ("tetra.pts", ptsCloud tetraPoints.reverse true (.ofFinite 0 0 0) (.ofFinite 2 2 2))]

/-- A second file, of two points. -/
def sphereFile {R : Type} [LinearOrderedField R] : PtsFile R :=
  { name := "sphere.pts", points := [.ofFinite 1 1 1, .ofFinite 5 (-1) 0]
    colors := [.ofFinite 255 255 255, .ofFinite 255 255 255] }

/-! ## Predicates used in the statements -/

/-- None of the three coordinates is `NaN`. -/
def QVector3D.NoNaN {R : Type} (p : QVector3D R) : Prop :=
  p.x ≠ .nan ∧ p.y ≠ .nan ∧ p.z ≠ .nan

/-- All three coordinates are finite. -/
def QVector3D.IsFinite {R : Type} (p : QVector3D R) : Prop :=
  ∃ a b c : R, p = ⟨.finite a, .finite b, .finite c⟩

/-- The point lies in the box: `min <= p <= max` in each of x, y, z. -/
def InBox {R : Type} [LinearOrderedField R] (box : QVector3D R × QVector3D R)
    (p : QVector3D R) : Prop :=
  (box.1.x ≤ p.x ∧ p.x ≤ box.2.x) ∧ (box.1.y ≤ p.y ∧ p.y ≤ box.2.y) ∧
    (box.1.z ≤ p.z ∧ p.z ≤ box.2.z)

/-- The entity contributes to the scene extents: visible with at least one point. -/
def PointCloud.Qualifies {R : Type} (pc : PointCloud R) : Prop :=
  pc.isVisible = true ∧ pc.points ≠ []

/-- Neither corner of the box has a `NaN` coordinate. -/
def BoxNoNaN {R : Type} (box : QVector3D R × QVector3D R) : Prop :=
  box.1.NoNaN ∧ box.2.NoNaN

/-- The second box contains the first: its `min` is no larger and its `max` no
smaller, in each of x, y, z. -/
def Widens {R : Type} [LinearOrderedField R] (box box2 : QVector3D R × QVector3D R) : Prop :=
  (box2.1.x ≤ box.1.x ∧ box.2.x ≤ box2.2.x) ∧ (box2.1.y ≤ box.1.y ∧ box.2.y ≤ box2.2.y) ∧
    (box2.1.z ≤ box.1.z ∧ box.2.z ≤ box2.2.z)

/-- The seven camera fields that a snapshot captures and restores: model matrix,
view matrix, distance, pitch, yaw, focal distance and field of view. -/
def PointCloudGLWidget.cameraState {R : Type} (w : PointCloudGLWidget R) :
    QMatrix4x4 R × QMatrix4x4 R × FloatVal R × FloatVal R × FloatVal R × FloatVal R ×
      FloatVal R :=
  (w.m_model, w.m_view, w.m_distance, w.m_xRot, w.m_yRot, w.m_focalDistance, w.m_fov)

/-- The seven camera values held by a snapshot, in the order of `cameraState`. -/
def ViewportObject.stored {R : Type} (v : ViewportObject R) :
    QMatrix4x4 R × QMatrix4x4 R × FloatVal R × FloatVal R × FloatVal R × FloatVal R ×
      FloatVal R :=
  (v.m_params.modelMatrix, v.m_params.viewMatrix, v.m_params.cameraDistance, v.m_params.xRot,
    v.m_params.yRot, v.m_params.focalDistance, v.m_params.fov)

/-- The test that `calculateSceneExtents` makes on an entity: visible, with at least
one point. -/
def PointCloud.contributes {R : Type} (pc : PointCloud R) : Bool :=
  pc.isVisible && !pc.points.isEmpty

/-- The second list visits the entities of the first in another order, and may hold
the points of each entity in another order. -/
def Reordered {R : Type} (l1 l2 : List (PointCloud R)) : Prop :=
  ∃ l : List (PointCloud R), l1.Perm l ∧
    List.Forall₂ (fun a b => a.isVisible = b.isVisible ∧ a.points.Perm b.points) l l2

/-- The coordinates are finite `float` values: numbers of absolute value at most
`FLT_MAX`. -/
def QVector3D.InFloatRange {R : Type} [LinearOrderedField R] (p : QVector3D R) : Prop :=
  ∃ a b c : R, p = QVector3D.ofFinite a b c ∧ |a| ≤ FloatVal.fltMax ∧ |b| ≤ FloatVal.fltMax ∧
    |c| ≤ FloatVal.fltMax

/-- The box is the tight axis-aligned box of the points: every point lies in it, and
each of its six bounds is the matching coordinate of some point. -/
def TightBox {R : Type} [LinearOrderedField R] (pts : List (QVector3D R))
    (box : QVector3D R × QVector3D R) : Prop :=
  (∀ p ∈ pts, InBox box p) ∧
    (∃ p ∈ pts, p.x = box.1.x) ∧ (∃ p ∈ pts, p.y = box.1.y) ∧ (∃ p ∈ pts, p.z = box.1.z) ∧
    (∃ p ∈ pts, p.x = box.2.x) ∧ (∃ p ∈ pts, p.y = box.2.y) ∧ (∃ p ∈ pts, p.z = box.2.z)

/-- The main window with one entity loaded, shown and selected: `dot.pts`, whose
only point is `(1, 2, 3)`, so that its cached box has `min = max`. -/
def dotWindow {R : Type} [LinearOrderedField R] : MainWindow R :=
  { m_glWidget := singlePointScene
    m_treeWidget :=
      { topLevelItems := [{ text := "dot.pts", data := "dot.pts", children := [] }]
        currentItem := some (.entityName "dot.pts") }
    m_pointClouds :=
      [("dot.pts", ptsCloud [.ofFinite 1 2 3] true (.ofFinite 1 2 3) (.ofFinite 1 2 3))]
    m_viewportList := []
    s_viewportIndex := 0 }

/-- A scene with one visible entity holding the two points `(0, 0, 0)` and
`(2, 2, 1)`: its box has the diagonal 3. -/
def slabScene {R : Type} [LinearOrderedField R] : PointCloudGLWidget R :=
  widgetWith [("slab.pts", ptsCloud [.ofFinite 0 0 0, .ofFinite 2 2 1] true
    (.ofFinite 0 0 0) (.ofFinite 2 2 1))]

/-! ## The read loop of `loadPointCloud` -/

/-- The Qt text functions that the read loop of `loadPointCloud` calls on a line:
`QString::trimmed()`, `QString::split(QRegularExpression("\\s+"), Qt::SkipEmptyParts)`,
and `QString::toFloat(&ok)` and `QString::toInt(&ok)`, which give `none` when they
set `ok` to `false`. -/
structure QtText (R : Type) where
  trimmed : String → String
  split : String → List String
  toFloat : String → Option (FloatVal R)
  toInt : String → Option Int

/-- Embeds `qBound(min, val, max)` on `int`, which Qt defines as
`qMax(min, qMin(max, val))`. -/
def qBound (lo val hi : Int) : Int := max lo (min hi val)

/-- Embeds one pass of the `while (!in.atEnd())` loop of `loadPointCloud`, for a
progress dialog that is not cancelled: the positions and colours collected so far,
after the line `raw`. -/
def readPtsLine {R : Type} [LinearOrderedField R] (txt : QtText R)
    (st : List (QVector3D R) × List (QVector3D R)) (raw : String) :
    List (QVector3D R) × List (QVector3D R) :=
  let line := txt.trimmed raw
  if line.isEmpty then st
  else
    let values := txt.split line
    if 3 ≤ values.length then
      match txt.toFloat (values.getD 0 ""), txt.toFloat (values.getD 1 ""),
          txt.toFloat (values.getD 2 "") with
      | some x, some y, some z =>
        let points := st.1 ++ [⟨x, y, z⟩]
        if 6 ≤ values.length then
          match txt.toInt (values.getD 3 ""), txt.toInt (values.getD 4 ""),
              txt.toInt (values.getD 5 "") with
          | some r, some g, some b =>
            (points, st.2 ++ [⟨FloatVal.ofInt (qBound 0 r 255), FloatVal.ofInt (qBound 0 g 255),
              FloatVal.ofInt (qBound 0 b 255)⟩])
          | _, _, _ => (points, st.2 ++ [QVector3D.ofFinite 255 255 255])
        else (points, st.2 ++ [QVector3D.ofFinite 255 255 255])
      | _, _, _ => st
    else st

/-- Embeds the read loop of `loadPointCloud` over the lines of a file: the
positions and the colours it collects, from empty sequences. -/
def readPts {R : Type} [LinearOrderedField R] (txt : QtText R) (lines : List String) :
    List (QVector3D R) × List (QVector3D R) :=
  lines.foldl (readPtsLine txt) ([], [])

/-- The file that `loadPointCloud` goes on with once the read loop has run over the
lines. -/
def PtsFile.ofLines {R : Type} [LinearOrderedField R] (txt : QtText R) (name : String)
    (lines : List String) : PtsFile R :=
  { name := name, points := (readPts txt lines).1, colors := (readPts txt lines).2 }

/-- White space for the stand-in text functions: the space and the characters 9
to 13. -/
def isSpaceChar (c : Char) : Bool := c.toNat = 32 || (9 ≤ c.toNat && c.toNat ≤ 13)

/-- The non-empty runs of characters between white space, with `cur` the run being
read, in reverse. -/
def splitChars : List Char → List Char → List (List Char)
  | [], cur => if cur.isEmpty then [] else [cur.reverse]
  | c :: rest, cur =>
    if isSpaceChar c then
      if cur.isEmpty then splitChars rest [] else cur.reverse :: splitChars rest []
    else splitChars rest (c :: cur)

/-- The value of a run of decimal digits read after the value `acc`; `none` when a
character is not a digit. -/
def digitsValue : List Char → Nat → Option Nat
  | [], acc => some acc
  | c :: rest, acc =>
    if 48 ≤ c.toNat && c.toNat ≤ 57 then digitsValue rest (10 * acc + (c.toNat - 48))
    else none

/-- An unsigned decimal integer: a non-empty run of digits. -/
def parseNat (s : List Char) : Option Nat :=
  if s.isEmpty then none else digitsValue s 0

/-- A decimal integer with an optional sign, in the range of a 32-bit `int`. -/
def parseInt (s : List Char) : Option Int :=
  let v : Option Int :=
    match s with
    | '-' :: rest => (parseNat rest).map fun n => -(n : Int)
    | '+' :: rest => (parseNat rest).map fun n => (n : Int)
    | _ => (parseNat s).map fun n => (n : Int)
  v.bind fun i => if -2147483648 ≤ i ∧ i ≤ 2147483647 then some i else none

/-- An unsigned decimal number `digits` or `digits.digits`. -/
def parseUnsignedDecimal (s : List Char) : Option ℚ :=
  let whole := s.takeWhile fun c => c.toNat ≠ 46
  match s.dropWhile fun c => c.toNat ≠ 46 with
  | [] => (parseNat whole).map fun n => (n : ℚ)
  | _ :: frac =>
    match parseNat whole, parseNat frac with
    | some n, some f => some ((n : ℚ) + (f : ℚ) / (10 : ℚ) ^ frac.length)
    | _, _ => none

/-- A decimal number with an optional sign. -/
def parseDecimal (s : List Char) : Option ℚ :=
  match s with
  | '-' :: rest => (parseUnsignedDecimal rest).map fun q => -q
  | '+' :: rest => parseUnsignedDecimal rest
  | _ => parseUnsignedDecimal s

/-- Stand-ins for the Qt text functions, with which the read loop runs on `ℚ`:
ASCII white space, and plain decimal notation without exponent for numbers. -/
def QtText.ascii : QtText ℚ :=
  { trimmed := fun s =>
      String.mk (((s.data.dropWhile isSpaceChar).reverse.dropWhile isSpaceChar).reverse)
    split := fun s => (splitChars s.data []).map String.mk
    toFloat := fun s => (parseDecimal s.data).map FloatVal.finite
    toInt := fun s => parseInt s.data }

/-- Six lines of a PTS file: a bare position, a position with a colour out of range,
a line that is not numbers, a line of two fields, a position with a colour that is
not numbers, and an empty line. -/
def sampleLines : List String :=
  ["0 0 0", "  1 2 3 300 -5 7", "x y z", "1 2", "4 5 6 a b c", ""]

/-! ## Rounding to `float` -/

/-- Rounding of a rational to the nearest integer, a tie going to the even
neighbour. -/
def roundHalfEven (x : ℚ) : Int :=
  if x - ⌊x⌋ < 1 / 2 then ⌊x⌋
  else if 1 / 2 < x - ⌊x⌋ then ⌊x⌋ + 1
  else if ⌊x⌋ % 2 = 0 then ⌊x⌋ else ⌊x⌋ + 1

/-- Spacing of the `float` values around `q` (IEEE 754 binary32): `2 ^ (e - 23)`
when `2 ^ e ≤ |q| < 2 ^ (e + 1)`, and `2 ^ (-149)` below `2 ^ (-126)`. -/
def ulp32 (q : ℚ) : ℚ := (2 : ℚ) ^ (max (Int.log 2 |q|) (-126) - 23)

/-- The multiple of `ulp32 q` nearest to `q`, a tie going to the even multiple. -/
def round32 (q : ℚ) : ℚ := roundHalfEven (q / ulp32 q) * ulp32 q

/-- Rounding of an exact result to `float` in the default mode (to nearest, ties
to even): a result that rounds to `2 ^ 128` or beyond overflows to the infinity
of its sign. -/
def toFloat32 (q : ℚ) : FloatVal ℚ :=
  if (2 : ℚ) ^ 128 ≤ |round32 q| then (if 0 < q then .posInf else .negInf)
  else .finite (round32 q)

namespace FloatVal

variable {R : Type} [LinearOrderedField R]

/-- The `float` result of an operation whose exact result is `x`, for a rounding
`fl` of the finite results; an infinity and `NaN` are results as they are. -/
def roundWith (fl : R → FloatVal R) : FloatVal R → FloatVal R
  | finite a => fl a
  | x => x

/-- Conversion of a C++ `int` to `float`, rounded by `fl`. -/
def ofIntWith (fl : R → FloatVal R) (i : Int) : FloatVal R := fl (i : R)

end FloatVal

namespace PointCloudGLWidget

variable {R : Type} [LinearOrderedField R]

/-- Embeds `mouseMoveEvent` with its `float` arithmetic rounded by `fl`: the
conversions `float(dx)` and `float(dy)`, the sums `m_yRot + dx` and `m_xRot + dy`,
the literals `0.01f` and `0.1f`, the product `dy * 0.01f` and the difference
`m_distance - dy * 0.01f` are each rounded. -/
def mouseMoveEventRounded (fl : R → FloatVal R) (w : PointCloudGLWidget R)
    (event : QMouseEvent) : PointCloudGLWidget R :=
  let dx := mouseDx w event
  let dy := mouseDy w event
  let w1 :=
    if event.buttons &&& 1 ≠ 0 then
      { w with m_yRot := (w.m_yRot + FloatVal.ofIntWith fl dx).roundWith fl
               m_xRot := (w.m_xRot + FloatVal.ofIntWith fl dy).roundWith fl }
    else if event.buttons &&& 2 ≠ 0 then
      { w with
          m_distance :=
            FloatVal.qMax (fl (1 / 10))
              ((w.m_distance - (FloatVal.ofIntWith fl dy * fl (1 / 100)).roundWith fl).roundWith
                fl) }
    else w
  { w1 with m_lastPos := (qRound event.position.1, qRound event.position.2) }

/-- Embeds `wheelEvent` with its `float` arithmetic rounded by `fl`: the conversion
`float(angleDelta().y())`, the literals `0.001f` and `0.1f`, the product and the
difference are each rounded. -/
def wheelEventRounded (fl : R → FloatVal R) (w : PointCloudGLWidget R) (event : QWheelEvent) :
    PointCloudGLWidget R :=
  { w with
      m_distance :=
        FloatVal.qMax (fl (1 / 10))
          ((w.m_distance -
              (FloatVal.ofIntWith fl event.angleDelta.2 * fl (1 / 1000)).roundWith fl).roundWith
            fl) }

/-- One input event handled with rounded `float` arithmetic. -/
def handleEventRounded (fl : R → FloatVal R) (w : PointCloudGLWidget R) :
    InputEvent → PointCloudGLWidget R
  | .press pos => w.mousePressEvent pos
  | .move event => w.mouseMoveEventRounded fl event
  | .wheel event => w.wheelEventRounded fl event

/-- A sequence of input events handled with rounded `float` arithmetic. -/
def handleEventsRounded (fl : R → FloatVal R) (w : PointCloudGLWidget R)
    (events : List InputEvent) : PointCloudGLWidget R :=
  events.foldl (handleEventRounded fl) w

end PointCloudGLWidget

namespace QVector3D

variable {R : Type} [LinearOrderedField R]

/-- Embeds `operator+(v1, v2)` with each coordinate sum rounded by `fl`. -/
def addRounded (fl : R → FloatVal R) (a b : QVector3D R) : QVector3D R :=
  ⟨(a.x + b.x).roundWith fl, (a.y + b.y).roundWith fl, (a.z + b.z).roundWith fl⟩

/-- Embeds `operator-(v1, v2)` with each coordinate difference rounded by `fl`. -/
def subRounded (fl : R → FloatVal R) (a b : QVector3D R) : QVector3D R :=
  ⟨(a.x - b.x).roundWith fl, (a.y - b.y).roundWith fl, (a.z - b.z).roundWith fl⟩

/-- Embeds `operator*(vector, factor)` with each coordinate product rounded by `fl`. -/
def scaleByRounded (fl : R → FloatVal R) (a : QVector3D R) (f : FloatVal R) : QVector3D R :=
  ⟨(a.x * f).roundWith fl, (a.y * f).roundWith fl, (a.z * f).roundWith fl⟩

end QVector3D

namespace QMatrix4x4

variable {R : Type} [LinearOrderedField R]

/-- Embeds `QMatrix4x4::translate(const QVector3D&)` with each product and each sum
rounded by `fl`, in the order in which Qt writes them. -/
def translateRounded (fl : R → FloatVal R) (m : QMatrix4x4 R) (v : QVector3D R) :
    QMatrix4x4 R :=
  let r := FloatVal.roundWith fl
  if m.flagBits = 0 then
    { m with m30 := v.x, m31 := v.y, m32 := v.z, flagBits := m.flagBits ||| 1 }
  else if m.flagBits = 1 then
    { m with m30 := r (m.m30 + v.x), m31 := r (m.m31 + v.y), m32 := r (m.m32 + v.z)
             flagBits := m.flagBits ||| 1 }
  else if m.flagBits = 2 then
    { m with m30 := r (m.m00 * v.x), m31 := r (m.m11 * v.y), m32 := r (m.m22 * v.z)
             flagBits := m.flagBits ||| 1 }
  else if m.flagBits = 3 then
    { m with m30 := r (m.m30 + r (m.m00 * v.x)), m31 := r (m.m31 + r (m.m11 * v.y))
             m32 := r (m.m32 + r (m.m22 * v.z)), flagBits := m.flagBits ||| 1 }
  else if m.flagBits < 8 then
    { m with m30 := r (m.m30 + r (r (m.m00 * v.x) + r (m.m10 * v.y)))
             m31 := r (m.m31 + r (r (m.m01 * v.x) + r (m.m11 * v.y)))
             m32 := r (m.m32 + r (m.m22 * v.z)), flagBits := m.flagBits ||| 1 }
  else
    { m with m30 := r (m.m30 + r (r (r (m.m00 * v.x) + r (m.m10 * v.y)) + r (m.m20 * v.z)))
             m31 := r (m.m31 + r (r (r (m.m01 * v.x) + r (m.m11 * v.y)) + r (m.m21 * v.z)))
             m32 := r (m.m32 + r (r (r (m.m02 * v.x) + r (m.m12 * v.y)) + r (m.m22 * v.z)))
             m33 := r (m.m33 + r (r (r (m.m03 * v.x) + r (m.m13 * v.y)) + r (m.m23 * v.z)))
             flagBits := m.flagBits ||| 1 }

/-- The vertex shader's `matrix * vec4` in `float` arithmetic: each product and
each sum rounded by `fl`, a row being summed from left to right. -/
def mulVec4Rounded (fl : R → FloatVal R) (m : QMatrix4x4 R) (v : Vec4 R) : Vec4 R :=
  let r := FloatVal.roundWith fl
  { x := r (r (r (r (m.m00 * v.x) + r (m.m10 * v.y)) + r (m.m20 * v.z)) + r (m.m30 * v.w))
    y := r (r (r (r (m.m01 * v.x) + r (m.m11 * v.y)) + r (m.m21 * v.z)) + r (m.m31 * v.w))
    z := r (r (r (r (m.m02 * v.x) + r (m.m12 * v.y)) + r (m.m22 * v.z)) + r (m.m32 * v.w))
    w := r (r (r (r (m.m03 * v.x) + r (m.m13 * v.y)) + r (m.m23 * v.z)) + r (m.m33 * v.w)) }

end QMatrix4x4

namespace PointCloudGLWidget

variable {R : Type} [LinearOrderedField R]

/-- The model matrix that `resetView` and `setFocusOnPointCloud` build from the
box `(min, max)`, with the `float` arithmetic rounded by `fl`:
`center = (min + max) * 0.5f; size = max - min;
scale = 1.0f / qMax(qMax(size.x(), size.y()), size.z());
m_model.setToIdentity(); m_model.scale(scale); m_model.translate(-center)`.
The literals `0.5f` and `1.0f` are `float` values, `scale` on the identity stores
its argument without arithmetic, and a unary minus is exact. -/
def framingModelRounded (fl : R → FloatVal R) (min max : QVector3D R) : QMatrix4x4 R :=
  let center := (min.addRounded fl max).scaleByRounded fl (.finite (1 / 2))
  let size := max.subRounded fl min
  let scale :=
    (FloatVal.finite 1 / FloatVal.qMax (FloatVal.qMax size.x size.y) size.z).roundWith fl
  (QMatrix4x4.identity.scale scale).translateRounded fl (-center)

end PointCloudGLWidget

/-- The value `x` is a `float`: rounding leaves it as it is. -/
def IsFloat32 (x : ℚ) : Prop := toFloat32 x = .finite x

/-- Every `float` operation of the framing of the box `(a, b)` is exact: the sums
`a + b`, the centre `(a + b) * 0.5`, the size `b - a`, the scale `1 / m` for the
largest extent `m`, and the products `scale * -center`. -/
def FramingExact (a1 a2 a3 b1 b2 b3 : ℚ) : Prop :=
  IsFloat32 (a1 + b1) ∧ IsFloat32 (a2 + b2) ∧ IsFloat32 (a3 + b3) ∧
  IsFloat32 ((a1 + b1) * (1 / 2)) ∧ IsFloat32 ((a2 + b2) * (1 / 2)) ∧
  IsFloat32 ((a3 + b3) * (1 / 2)) ∧
  IsFloat32 (b1 - a1) ∧ IsFloat32 (b2 - a2) ∧ IsFloat32 (b3 - a3) ∧
  IsFloat32 (1 / max (max (b1 - a1) (b2 - a2)) (b3 - a3)) ∧
  IsFloat32 (1 / max (max (b1 - a1) (b2 - a2)) (b3 - a3) * -((a1 + b1) * (1 / 2))) ∧
  IsFloat32 (1 / max (max (b1 - a1) (b2 - a2)) (b3 - a3) * -((a2 + b2) * (1 / 2))) ∧
  IsFloat32 (1 / max (max (b1 - a1) (b2 - a2)) (b3 - a3) * -((a3 + b3) * (1 / 2)))

/-- Every `float` operation of the product of the framing matrix of the box
`(a, b)` with the point `p` is exact: the products `scale * p` and their sums with
the translation `scale * -center`. -/
def PointExact (a1 a2 a3 b1 b2 b3 p1 p2 p3 : ℚ) : Prop :=
  IsFloat32 (1 / max (max (b1 - a1) (b2 - a2)) (b3 - a3) * p1) ∧
  IsFloat32 (1 / max (max (b1 - a1) (b2 - a2)) (b3 - a3) * p2) ∧
  IsFloat32 (1 / max (max (b1 - a1) (b2 - a2)) (b3 - a3) * p3) ∧
  IsFloat32 (1 / max (max (b1 - a1) (b2 - a2)) (b3 - a3) * p1 +
    1 / max (max (b1 - a1) (b2 - a2)) (b3 - a3) * -((a1 + b1) * (1 / 2))) ∧
  IsFloat32 (1 / max (max (b1 - a1) (b2 - a2)) (b3 - a3) * p2 +
    1 / max (max (b1 - a1) (b2 - a2)) (b3 - a3) * -((a2 + b2) * (1 / 2))) ∧
  IsFloat32 (1 / max (max (b1 - a1) (b2 - a2)) (b3 - a3) * p3 +
    1 / max (max (b1 - a1) (b2 - a2)) (b3 - a3) * -((a3 + b3) * (1 / 2)))

/-! ## Arithmetic of `FloatVal` on finite values -/

namespace FloatVal

variable {R : Type} [LinearOrderedField R]

theorem lt_def (a b : FloatVal R) : a < b ↔ lt a b = true := Iff.rfl

theorem le_def (a b : FloatVal R) : a ≤ b ↔ le a b = true := Iff.rfl

@[simp] theorem finite_add (a b : R) : (finite a + finite b : FloatVal R) = finite (a + b) := rfl

@[simp] theorem neg_finite (a : R) : (-(finite a) : FloatVal R) = finite (-a) := rfl

@[simp] theorem finite_sub (a b : R) : (finite a - finite b : FloatVal R) = finite (a - b) := by
  show add (finite a) (neg (finite b)) = _
  simp [add, neg, sub_eq_add_neg]

@[simp] theorem finite_mul (a b : R) : (finite a * finite b : FloatVal R) = finite (a * b) := rfl

theorem finite_div (a : R) {b : R} (h : b ≠ 0) :
    (finite a / finite b : FloatVal R) = finite (a / b) := by
  show div _ _ = _
  simp [div, h]

theorem finite_div_zero {a : R} (h : 0 < a) : (finite a / finite 0 : FloatVal R) = posInf := by
  show div _ _ = _
  simp [div, h, ne_of_gt h]

@[simp] theorem finite_lt_iff (a b : R) : (finite a : FloatVal R) < finite b ↔ a < b := by
  simp [lt_def, lt]

@[simp] theorem finite_le_iff (a b : R) : (finite a : FloatVal R) ≤ finite b ↔ a ≤ b := by
  simp [le_def, le]

@[simp] theorem qMax_finite (a b : R) : qMax (finite a) (finite b) = finite (max a b) := by
  unfold qMax
  by_cases h : a < b
  · simp [h, max_eq_right (le_of_lt h)]
  · simp [h, max_eq_left (not_lt.mp h)]

@[simp] theorem qMin_finite (a b : R) : qMin (finite a) (finite b) = finite (min a b) := by
  unfold qMin
  by_cases h : a < b
  · simp [h, min_eq_left (le_of_lt h)]
  · simp [h, min_eq_right (not_lt.mp h)]

/-! ### The order on values that are not `NaN` -/

theorem le_trans_val {a b c : FloatVal R} (hab : a ≤ b) (hbc : b ≤ c) : a ≤ c := by
  cases a <;> cases b <;> cases c <;> simp_all [le_def, le]
  exact le_trans hab hbc

theorem qMin_le_left {a b : FloatVal R} (ha : a ≠ nan) (hb : b ≠ nan) : qMin a b ≤ a := by
  cases a <;> cases b <;> simp_all [qMin, lt_def, le_def, lt, le]
  rename_i x y
  by_cases h : x < y <;> simp [h, le]
  exact not_lt.mp h

theorem qMin_le_right {a b : FloatVal R} (ha : a ≠ nan) (hb : b ≠ nan) : qMin a b ≤ b := by
  cases a <;> cases b <;> simp_all [qMin, lt_def, le_def, lt, le]
  rename_i x y
  by_cases h : x < y <;> simp [h, le]
  exact le_of_lt h

theorem le_qMax_left {a b : FloatVal R} (ha : a ≠ nan) (hb : b ≠ nan) : a ≤ qMax a b := by
  cases a <;> cases b <;> simp_all [qMax, lt_def, le_def, lt, le]
  rename_i x y
  by_cases h : x < y <;> simp [h, le]
  exact le_of_lt h

theorem le_qMax_right {a b : FloatVal R} (ha : a ≠ nan) (hb : b ≠ nan) : b ≤ qMax a b := by
  cases a <;> cases b <;> simp_all [qMax, lt_def, le_def, lt, le]
  rename_i x y
  by_cases h : x < y <;> simp [h, le]
  exact not_lt.mp h

theorem qMin_ne_nan {a b : FloatVal R} (ha : a ≠ nan) (hb : b ≠ nan) : qMin a b ≠ nan := by
  unfold qMin
  split <;> assumption

theorem qMax_ne_nan {a b : FloatVal R} (ha : a ≠ nan) (hb : b ≠ nan) : qMax a b ≠ nan := by
  unfold qMax
  split <;> assumption

theorem le_refl_val {a : FloatVal R} (ha : a ≠ nan) : a ≤ a := by
  cases a <;> simp_all [le_def, le]

theorem le_qMax_floor (c : R) (x : FloatVal R) :
    (finite c : FloatVal R) ≤ qMax (finite c) x := by
  cases x <;> simp [qMax, lt_def, le_def, lt, le]
  rename_i q
  by_cases h : c < q <;> simp [h, le]
  exact le_of_lt h

theorem posInf_mul_finite (b : R) : (posInf * finite b : FloatVal R) = infTimes true b := rfl

end FloatVal

/-! ## The rational square root -/

theorem ratSqrt_mul_self (a : ℚ) (h : 0 ≤ a) : ratSqrt (a * a) = a := by
  unfold ratSqrt
  have hnum : 0 ≤ a.num := Rat.num_nonneg.mpr h
  obtain ⟨n, hn⟩ := Int.eq_ofNat_of_zero_le hnum
  rw [Rat.mul_self_num, Rat.mul_self_den, hn]
  have h1 : ((n : ℤ) * (n : ℤ)).toNat * (a.den * a.den) = (n * a.den) * (n * a.den) := by
    have : ((n : ℤ) * (n : ℤ)).toNat = n * n := by
      rw [← Int.natCast_mul]; exact Int.toNat_natCast _
    rw [this]; ring
  rw [h1, Nat.sqrt_eq]
  have hden : (a.den : ℚ) ≠ 0 := by exact_mod_cast a.den_nz
  have ha : a = (n : ℚ) / a.den := by
    have := (Rat.num_div_den a).symm
    rw [hn] at this
    exact_mod_cast this
  push_cast
  rw [mul_div_mul_right _ _ hden]
  exact ha.symm

theorem ratSqrt_pos (a : ℚ) (h : 0 < a) : 0 < ratSqrt a := by
  unfold ratSqrt
  have hnum : 0 < a.num := Rat.num_pos.mpr h
  have hden : 0 < a.den := a.den_pos
  have h1 : 0 < a.num.toNat := by omega
  have h2 : 0 < Nat.sqrt (a.num.toNat * a.den) := Nat.sqrt_pos.mpr (Nat.mul_pos h1 hden)
  have h3 : (0 : ℚ) < (a.den : ℚ) := by exact_mod_cast hden
  have h4 : (0 : ℚ) < (Nat.sqrt (a.num.toNat * a.den) : ℚ) := by exact_mod_cast h2
  exact div_pos h4 h3

/-! ## Vectors with finite coordinates -/

namespace QVector3D

variable {R : Type} [LinearOrderedField R]

@[simp] theorem add_x (a b : QVector3D R) : (a + b).x = a.x + b.x := rfl
@[simp] theorem add_y (a b : QVector3D R) : (a + b).y = a.y + b.y := rfl
@[simp] theorem add_z (a b : QVector3D R) : (a + b).z = a.z + b.z := rfl
@[simp] theorem sub_x (a b : QVector3D R) : (a - b).x = a.x - b.x := rfl
@[simp] theorem sub_y (a b : QVector3D R) : (a - b).y = a.y - b.y := rfl
@[simp] theorem sub_z (a b : QVector3D R) : (a - b).z = a.z - b.z := rfl
@[simp] theorem neg_x (a : QVector3D R) : (-a).x = -a.x := rfl
@[simp] theorem neg_y (a : QVector3D R) : (-a).y = -a.y := rfl
@[simp] theorem neg_z (a : QVector3D R) : (-a).z = -a.z := rfl
@[simp] theorem scaleBy_x (a : QVector3D R) (f : FloatVal R) : (a.scaleBy f).x = a.x * f := rfl
@[simp] theorem scaleBy_y (a : QVector3D R) (f : FloatVal R) : (a.scaleBy f).y = a.y * f := rfl
@[simp] theorem scaleBy_z (a : QVector3D R) (f : FloatVal R) : (a.scaleBy f).z = a.z * f := rfl
omit [LinearOrderedField R] in
@[simp] theorem ofFinite_x (a b c : R) : (ofFinite a b c).x = .finite a := rfl
omit [LinearOrderedField R] in
@[simp] theorem ofFinite_y (a b c : R) : (ofFinite a b c).y = .finite b := rfl
omit [LinearOrderedField R] in
@[simp] theorem ofFinite_z (a b c : R) : (ofFinite a b c).z = .finite c := rfl

@[simp] theorem ofFinite_add (a b c d e f : R) :
    ofFinite a b c + ofFinite d e f = ofFinite (a + d) (b + e) (c + f) := rfl

@[simp] theorem ofFinite_sub (a b c d e f : R) :
    ofFinite a b c - ofFinite d e f = ofFinite (a - d) (b - e) (c - f) := by
  show QVector3D.sub _ _ = _
  simp [QVector3D.sub, ofFinite]

@[simp] theorem ofFinite_scaleBy (a b c k : R) :
    (ofFinite a b c).scaleBy (.finite k) = ofFinite (a * k) (b * k) (c * k) := rfl

@[simp] theorem neg_ofFinite (a b c : R) : -(ofFinite a b c) = ofFinite (-a) (-b) (-c) := rfl

/-- The length of a vector with finite coordinates is the library square root of
the sum of their squares. -/
theorem length_ofFinite (lm : Libm R) (a b c : R) :
    length lm (ofFinite a b c) = .finite (lm.sqrt (a * a + b * b + c * c)) := by
  have h : ¬ (a * a + b * b + c * c < 0) :=
    not_lt.mpr (by nlinarith [mul_self_nonneg a, mul_self_nonneg b, mul_self_nonneg c])
  simp [length, FloatVal.sqrtWith, h]

end QVector3D

/-! ## The scene-extent loops -/

namespace PointCloudGLWidget

variable {R : Type} [LinearOrderedField R]

theorem widens_refl {box : QVector3D R × QVector3D R} (h : BoxNoNaN box) : Widens box box := by
  obtain ⟨⟨h1, h2, h3⟩, h4, h5, h6⟩ := h
  exact ⟨⟨FloatVal.le_refl_val h1, FloatVal.le_refl_val h4⟩,
    ⟨FloatVal.le_refl_val h2, FloatVal.le_refl_val h5⟩,
    ⟨FloatVal.le_refl_val h3, FloatVal.le_refl_val h6⟩⟩

theorem widens_trans {a b c : QVector3D R × QVector3D R} (hab : Widens a b) (hbc : Widens b c) :
    Widens a c := by
  obtain ⟨⟨x1, x2⟩, ⟨y1, y2⟩, z1, z2⟩ := hab
  obtain ⟨⟨u1, u2⟩, ⟨v1, v2⟩, w1, w2⟩ := hbc
  exact ⟨⟨FloatVal.le_trans_val u1 x1, FloatVal.le_trans_val x2 u2⟩,
    ⟨FloatVal.le_trans_val v1 y1, FloatVal.le_trans_val y2 v2⟩,
    ⟨FloatVal.le_trans_val w1 z1, FloatVal.le_trans_val z2 w2⟩⟩

theorem inBox_of_widens {a b : QVector3D R × QVector3D R} {p : QVector3D R}
    (hab : Widens a b) (hp : InBox a p) : InBox b p := by
  obtain ⟨⟨x1, x2⟩, ⟨y1, y2⟩, z1, z2⟩ := hab
  obtain ⟨⟨u1, u2⟩, ⟨v1, v2⟩, w1, w2⟩ := hp
  exact ⟨⟨FloatVal.le_trans_val x1 u1, FloatVal.le_trans_val u2 x2⟩,
    ⟨FloatVal.le_trans_val y1 v1, FloatVal.le_trans_val v2 y2⟩,
    ⟨FloatVal.le_trans_val z1 w1, FloatVal.le_trans_val w2 z2⟩⟩

/-- One widening step keeps the box free of `NaN`, contains the old box and
contains the new point. -/
theorem extendBox_spec {box : QVector3D R × QVector3D R} {p : QVector3D R}
    (hb : BoxNoNaN box) (hp : p.NoNaN) :
    BoxNoNaN (extendBox box p) ∧ Widens box (extendBox box p) ∧ InBox (extendBox box p) p := by
  obtain ⟨⟨h1, h2, h3⟩, h4, h5, h6⟩ := hb
  obtain ⟨p1, p2, p3⟩ := hp
  refine ⟨⟨⟨?_, ?_, ?_⟩, ?_, ?_, ?_⟩, ⟨⟨?_, ?_⟩, ⟨?_, ?_⟩, ?_, ?_⟩, ⟨?_, ?_⟩, ⟨?_, ?_⟩, ?_, ?_⟩ <;>
    simp only [extendBox] <;>
    first
      | exact FloatVal.qMin_ne_nan (by assumption) (by assumption)
      | exact FloatVal.qMax_ne_nan (by assumption) (by assumption)
      | exact FloatVal.qMin_le_left (by assumption) (by assumption)
      | exact FloatVal.qMin_le_right (by assumption) (by assumption)
      | exact FloatVal.le_qMax_left (by assumption) (by assumption)
      | exact FloatVal.le_qMax_right (by assumption) (by assumption)

/-- The inner loop: after all points of one entity the box is free of `NaN`,
contains the box it started from and contains every point of the entity. -/
theorem foldl_extendBox_spec (pts : List (QVector3D R)) :
    ∀ box : QVector3D R × QVector3D R, BoxNoNaN box → (∀ p ∈ pts, p.NoNaN) →
      BoxNoNaN (pts.foldl extendBox box) ∧ Widens box (pts.foldl extendBox box) ∧
        ∀ p ∈ pts, InBox (pts.foldl extendBox box) p := by
  induction pts with
  | nil =>
    intro box hb _
    exact ⟨hb, widens_refl hb, fun p hp => absurd hp (List.not_mem_nil p)⟩
  | cons q rest ih =>
    intro box hb hpts
    obtain ⟨s1, s2, s3⟩ := extendBox_spec hb (hpts q (List.mem_cons_self q rest))
    obtain ⟨r1, r2, r3⟩ := ih (extendBox box q) s1
      (fun p hp => hpts p (List.mem_cons_of_mem q hp))
    refine ⟨r1, widens_trans s2 r2, ?_⟩
    intro p hp
    rcases List.mem_cons.mp hp with rfl | hmem
    · exact inBox_of_widens r2 s3
    · exact r3 p hmem

/-- The outer loop over the entities: the box stays free of `NaN` and only grows,
every point of every qualifying entity ends up inside, and the flag is set as soon
as one entity qualifies. -/
theorem foldl_extentsStep_spec (pcs : List (PointCloud R)) :
    ∀ acc : (QVector3D R × QVector3D R) × Bool, BoxNoNaN acc.1 →
      (∀ pc ∈ pcs, pc.isVisible = true → ∀ p ∈ pc.points, p.NoNaN) →
      BoxNoNaN (pcs.foldl extentsStep acc).1 ∧ Widens acc.1 (pcs.foldl extentsStep acc).1 ∧
        (∀ pc ∈ pcs, pc.isVisible = true → ∀ p ∈ pc.points,
          InBox (pcs.foldl extentsStep acc).1 p) ∧
        ((acc.2 = true ∨ ∃ pc ∈ pcs, pc.Qualifies) → (pcs.foldl extentsStep acc).2 = true) := by
  induction pcs with
  | nil =>
    intro acc hb _
    refine ⟨hb, widens_refl hb, fun pc hpc => absurd hpc (List.not_mem_nil pc), ?_⟩
    rintro (h | ⟨pc, hpc, _⟩)
    · exact h
    · exact absurd hpc (List.not_mem_nil pc)
  | cons c rest ih =>
    intro acc hb hpts
    have hrest : ∀ pc ∈ rest, pc.isVisible = true → ∀ p ∈ pc.points, p.NoNaN :=
      fun pc hpc => hpts pc (List.mem_cons_of_mem c hpc)
    by_cases hq : (c.isVisible && !c.points.isEmpty) = true
    · have hvis : c.isVisible = true := by
        cases hv : c.isVisible <;> simp_all
      obtain ⟨s1, s2, s3⟩ := foldl_extendBox_spec c.points acc.1 hb
        (hpts c (List.mem_cons_self c rest) hvis)
      have hstep : extentsStep acc c = (c.points.foldl extendBox acc.1, true) := by
        simp [extentsStep, hq]
      obtain ⟨r1, r2, r3, r4⟩ := ih (extentsStep acc c) (by rw [hstep]; exact s1) hrest
      rw [hstep] at r1 r2 r3 r4
      simp only [List.foldl_cons, hstep]
      refine ⟨r1, widens_trans s2 r2, ?_, fun _ => r4 (Or.inl rfl)⟩
      intro pc hpc hv p hp
      rcases List.mem_cons.mp hpc with rfl | hmem
      · exact inBox_of_widens r2 (s3 p hp)
      · exact r3 pc hmem hv p hp
    · have hstep : extentsStep acc c = acc := by
        simp [extentsStep, hq]
      obtain ⟨r1, r2, r3, r4⟩ := ih acc hb hrest
      simp only [List.foldl_cons, hstep]
      refine ⟨r1, r2, ?_, ?_⟩
      · intro pc hpc hv p hp
        rcases List.mem_cons.mp hpc with rfl | hmem
        · have hempty : pc.points = [] := by
            cases hpts' : pc.points with
            | nil => rfl
            | cons a l => simp [hv, hpts'] at hq
          rw [hempty] at hp
          exact absurd hp (List.not_mem_nil p)
        · exact r3 pc hmem hv p hp
      · rintro (h | ⟨pc, hpc, hqual⟩)
        · exact r4 (Or.inl h)
        · rcases List.mem_cons.mp hpc with rfl | hmem
          · exfalso
            obtain ⟨hv, hne⟩ := hqual
            cases hpts' : pc.points with
            | nil => exact hne hpts'
            | cons a l => simp [hv, hpts'] at hq
          · exact r4 (Or.inr ⟨pc, hmem, hqual⟩)

/-- When no entity qualifies the outer loop leaves its accumulator as it was. -/
theorem foldl_extentsStep_none (pcs : List (PointCloud R)) :
    ∀ acc : (QVector3D R × QVector3D R) × Bool, (∀ pc ∈ pcs, ¬ pc.Qualifies) →
      pcs.foldl extentsStep acc = acc := by
  induction pcs with
  | nil => intro acc _; rfl
  | cons c rest ih =>
    intro acc h
    have hc : ¬ c.Qualifies := h c (List.mem_cons_self c rest)
    have hstep : extentsStep acc c = acc := by
      unfold extentsStep
      split
      · rename_i hq
        exfalso
        apply hc
        cases hv : c.isVisible <;> cases hpts : c.points <;> simp_all [PointCloud.Qualifies]
      · rfl
    simp only [List.foldl_cons, hstep]
    exact ih acc (fun pc hpc => h pc (List.mem_cons_of_mem c hpc))

/-- Widening a finite box by a finite point gives a finite box. -/
theorem extendBox_finite {box : QVector3D R × QVector3D R} {p : QVector3D R}
    (h1 : box.1.IsFinite) (h2 : box.2.IsFinite) (hp : p.IsFinite) :
    (extendBox box p).1.IsFinite ∧ (extendBox box p).2.IsFinite := by
  obtain ⟨a1, a2, a3, ha⟩ := h1
  obtain ⟨b1, b2, b3, hb⟩ := h2
  obtain ⟨p1, p2, p3, hp⟩ := hp
  simp only [extendBox, ha, hb, hp, FloatVal.qMin_finite, FloatVal.qMax_finite]
  exact ⟨⟨_, _, _, rfl⟩, ⟨_, _, _, rfl⟩⟩

theorem foldl_extendBox_finite (pts : List (QVector3D R)) :
    ∀ box : QVector3D R × QVector3D R, box.1.IsFinite → box.2.IsFinite →
      (∀ p ∈ pts, p.IsFinite) →
      (pts.foldl extendBox box).1.IsFinite ∧ (pts.foldl extendBox box).2.IsFinite := by
  induction pts with
  | nil => intro box h1 h2 _; exact ⟨h1, h2⟩
  | cons q rest ih =>
    intro box h1 h2 hpts
    obtain ⟨s1, s2⟩ := extendBox_finite h1 h2 (hpts q (List.mem_cons_self q rest))
    exact ih (extendBox box q) s1 s2 (fun p hp => hpts p (List.mem_cons_of_mem q hp))

theorem foldl_extentsStep_finite (pcs : List (PointCloud R)) :
    ∀ acc : (QVector3D R × QVector3D R) × Bool, acc.1.1.IsFinite → acc.1.2.IsFinite →
      (∀ pc ∈ pcs, pc.isVisible = true → ∀ p ∈ pc.points, p.IsFinite) →
      (pcs.foldl extentsStep acc).1.1.IsFinite ∧ (pcs.foldl extentsStep acc).1.2.IsFinite := by
  induction pcs with
  | nil => intro acc h1 h2 _; exact ⟨h1, h2⟩
  | cons c rest ih =>
    intro acc h1 h2 hpts
    have hrest : ∀ pc ∈ rest, pc.isVisible = true → ∀ p ∈ pc.points, p.IsFinite :=
      fun pc hpc => hpts pc (List.mem_cons_of_mem c hpc)
    by_cases hq : (c.isVisible && !c.points.isEmpty) = true
    · have hvis : c.isVisible = true := by
        cases hv : c.isVisible <;> simp_all
      obtain ⟨s1, s2⟩ := foldl_extendBox_finite c.points acc.1 h1 h2
        (hpts c (List.mem_cons_self c rest) hvis)
      have hstep : extentsStep acc c = (c.points.foldl extendBox acc.1, true) := by
        simp [extentsStep, hq]
      simp only [List.foldl_cons, hstep]
      exact ih _ s1 s2 hrest
    · have hstep : extentsStep acc c = acc := by
        simp [extentsStep, hq]
      simp only [List.foldl_cons, hstep]
      exact ih acc h1 h2 hrest

/-- When every point of every visible entity has finite coordinates, the scene
extents are a finite box. -/
theorem calculateSceneExtents_finite (w : PointCloudGLWidget R)
    (hfin : ∀ kv ∈ w.m_pointClouds, kv.2.isVisible = true → ∀ p ∈ kv.2.points, p.IsFinite) :
    ∃ a1 a2 a3 b1 b2 b3 : R, w.calculateSceneExtents =
      (QVector3D.ofFinite a1 a2 a3, QVector3D.ofFinite b1 b2 b3) := by
  have hfin2 : ∀ pc ∈ w.m_pointClouds.map Prod.snd, pc.isVisible = true →
      ∀ p ∈ pc.points, p.IsFinite := by
    intro pc hpc
    obtain ⟨kv, hkv, rfl⟩ := List.mem_map.mp hpc
    exact hfin kv hkv
  obtain ⟨⟨a1, a2, a3, ha⟩, b1, b2, b3, hb⟩ :=
    foldl_extentsStep_finite (w.m_pointClouds.map Prod.snd)
      ((QVector3D.ofFinite FloatVal.fltMax FloatVal.fltMax FloatVal.fltMax,
        QVector3D.ofFinite (-FloatVal.fltMax) (-FloatVal.fltMax) (-FloatVal.fltMax)), false)
      ⟨_, _, _, rfl⟩ ⟨_, _, _, rfl⟩ hfin2
  simp only [calculateSceneExtents]
  by_cases hflag : (!((w.m_pointClouds.map Prod.snd).foldl extentsStep
      ((QVector3D.ofFinite FloatVal.fltMax FloatVal.fltMax FloatVal.fltMax,
        QVector3D.ofFinite (-FloatVal.fltMax) (-FloatVal.fltMax) (-FloatVal.fltMax)),
        false)).2) = true
  · rw [if_pos hflag]
    exact ⟨-1, -1, -1, 1, 1, 1, rfl⟩
  · rw [if_neg hflag]
    exact ⟨a1, a2, a3, b1, b2, b3, Prod.ext ha hb⟩

/-! ## Scene extents (C1, C2) -/

/-- C1. For every entity map in which at least one entity is visible with a
non-empty point list (coordinates being numbers, not `NaN`), the pair `(min, max)`
returned by `calculateSceneExtents` has `min <= max` in each of x, y, z, and every
point of every visible entity lies in `[min, max]` in each of x, y, z. -/
theorem calculateSceneExtents_bounds (w : PointCloudGLWidget R)
    (hq : ∃ kv ∈ w.m_pointClouds, kv.2.Qualifies)
    (hnum : ∀ kv ∈ w.m_pointClouds, kv.2.isVisible = true → ∀ p ∈ kv.2.points, p.NoNaN) :
    (w.calculateSceneExtents.1.x ≤ w.calculateSceneExtents.2.x ∧
      w.calculateSceneExtents.1.y ≤ w.calculateSceneExtents.2.y ∧
      w.calculateSceneExtents.1.z ≤ w.calculateSceneExtents.2.z) ∧
    ∀ kv ∈ w.m_pointClouds, kv.2.isVisible = true → ∀ p ∈ kv.2.points,
      InBox w.calculateSceneExtents p := by
  have hstart : BoxNoNaN
      ((QVector3D.ofFinite FloatVal.fltMax FloatVal.fltMax FloatVal.fltMax,
        QVector3D.ofFinite (-FloatVal.fltMax) (-FloatVal.fltMax) (-FloatVal.fltMax)) :
        QVector3D R × QVector3D R) := by
    simp [BoxNoNaN, QVector3D.NoNaN, QVector3D.ofFinite]
  have hnum2 : ∀ pc ∈ w.m_pointClouds.map Prod.snd, pc.isVisible = true →
      ∀ p ∈ pc.points, p.NoNaN := by
    intro pc hpc
    obtain ⟨kv, hkv, rfl⟩ := List.mem_map.mp hpc
    exact hnum kv hkv
  obtain ⟨_, _, hin, hflag⟩ := foldl_extentsStep_spec (w.m_pointClouds.map Prod.snd)
    (_, false) hstart hnum2
  obtain ⟨kv0, hkv0, hqual⟩ := hq
  have hfound := hflag (Or.inr ⟨kv0.2, List.mem_map.mpr ⟨kv0, hkv0, rfl⟩, hqual⟩)
  have hres : w.calculateSceneExtents =
      ((w.m_pointClouds.map Prod.snd).foldl extentsStep
        ((QVector3D.ofFinite FloatVal.fltMax FloatVal.fltMax FloatVal.fltMax,
          QVector3D.ofFinite (-FloatVal.fltMax) (-FloatVal.fltMax) (-FloatVal.fltMax)),
          false)).1 := by
    simp only [calculateSceneExtents, hfound]
    rfl
  have hall : ∀ kv ∈ w.m_pointClouds, kv.2.isVisible = true → ∀ p ∈ kv.2.points,
      InBox w.calculateSceneExtents p := by
    intro kv hkv hv p hp
    rw [hres]
    exact hin kv.2 (List.mem_map.mpr ⟨kv, hkv, rfl⟩) hv p hp
  refine ⟨?_, hall⟩
  obtain ⟨hv, hne⟩ := hqual
  obtain ⟨p, hp⟩ := List.exists_mem_of_ne_nil _ hne
  obtain ⟨⟨x1, x2⟩, ⟨y1, y2⟩, z1, z2⟩ := hall kv0 hkv0 hv p hp
  exact ⟨FloatVal.le_trans_val x1 x2, FloatVal.le_trans_val y1 y2, FloatVal.le_trans_val z1 z2⟩

/-- C2. For every entity map in which no entity is both visible and non-empty
(the empty map and a map of hidden entities included), `calculateSceneExtents`
returns exactly `min = (-1,-1,-1)` and `max = (1,1,1)`. -/
theorem calculateSceneExtents_default (w : PointCloudGLWidget R)
    (h : ∀ kv ∈ w.m_pointClouds, ¬ kv.2.Qualifies) :
    w.calculateSceneExtents = (QVector3D.ofFinite (-1) (-1) (-1), QVector3D.ofFinite 1 1 1) := by
  have h2 : ∀ pc ∈ w.m_pointClouds.map Prod.snd, ¬ pc.Qualifies := by
    intro pc hpc
    obtain ⟨kv, hkv, rfl⟩ := List.mem_map.mp hpc
    exact h kv hkv
  simp [calculateSceneExtents, foldl_extentsStep_none _ _ h2]

/-- Witness of C1 on scenario A: the entity qualifies, its coordinates are numbers,
and the bounds hold. -/
theorem calculateSceneExtents_bounds_witness :
    (∃ kv ∈ (tetraScene : PointCloudGLWidget ℚ).m_pointClouds, kv.2.Qualifies) ∧
      (∀ kv ∈ (tetraScene : PointCloudGLWidget ℚ).m_pointClouds, kv.2.isVisible = true →
        ∀ p ∈ kv.2.points, p.NoNaN) ∧
      ((tetraScene : PointCloudGLWidget ℚ).calculateSceneExtents.1.x ≤
          (tetraScene : PointCloudGLWidget ℚ).calculateSceneExtents.2.x ∧
        (tetraScene : PointCloudGLWidget ℚ).calculateSceneExtents.1.y ≤
          (tetraScene : PointCloudGLWidget ℚ).calculateSceneExtents.2.y ∧
        (tetraScene : PointCloudGLWidget ℚ).calculateSceneExtents.1.z ≤
          (tetraScene : PointCloudGLWidget ℚ).calculateSceneExtents.2.z) ∧
      ∀ kv ∈ (tetraScene : PointCloudGLWidget ℚ).m_pointClouds, kv.2.isVisible = true →
        ∀ p ∈ kv.2.points, InBox (tetraScene : PointCloudGLWidget ℚ).calculateSceneExtents p := by
  have hq : ∃ kv ∈ (tetraScene : PointCloudGLWidget ℚ).m_pointClouds, kv.2.Qualifies := by
    simp [tetraScene, widgetWith, ptsCloud, tetraPoints, init, PointCloud.Qualifies]
  have hn : ∀ kv ∈ (tetraScene : PointCloudGLWidget ℚ).m_pointClouds, kv.2.isVisible = true →
      ∀ p ∈ kv.2.points, p.NoNaN := by
    simp [tetraScene, widgetWith, ptsCloud, tetraPoints, init, QVector3D.NoNaN,
      QVector3D.ofFinite]
  exact ⟨hq, hn, calculateSceneExtents_bounds tetraScene hq hn⟩

/-- Witness of C2 on a scene with one empty and one hidden entity. -/
theorem calculateSceneExtents_default_witness :
    (∀ kv ∈ (hiddenScene : PointCloudGLWidget ℚ).m_pointClouds, ¬ kv.2.Qualifies) ∧
      (hiddenScene : PointCloudGLWidget ℚ).calculateSceneExtents =
        (QVector3D.ofFinite (-1) (-1) (-1), QVector3D.ofFinite 1 1 1) := by
  have h : ∀ kv ∈ (hiddenScene : PointCloudGLWidget ℚ).m_pointClouds, ¬ kv.2.Qualifies := by
    simp [hiddenScene, widgetWith, ptsCloud, init, PointCloud.Qualifies]
  exact ⟨h, calculateSceneExtents_default hiddenScene h⟩

/-! ## The model matrix of framing -/

theorem lor_two_one : (2 ||| 1 : Nat) = 3 := rfl

/-- The framing matrix for a finite centre and a finite size whose largest
component `m` is not zero: scale `1 / m` on the diagonal, `(1 / m) * (-center)` in
the translation column. -/
theorem framingModel_finite (c1 c2 c3 s1 s2 s3 : R) (hm : max (max s1 s2) s3 ≠ 0) :
    framingModel (QVector3D.ofFinite c1 c2 c3) (QVector3D.ofFinite s1 s2 s3) =
      { (QMatrix4x4.identity : QMatrix4x4 R) with
        m00 := .finite (1 / max (max s1 s2) s3)
        m11 := .finite (1 / max (max s1 s2) s3)
        m22 := .finite (1 / max (max s1 s2) s3)
        m30 := .finite (1 / max (max s1 s2) s3 * -c1)
        m31 := .finite (1 / max (max s1 s2) s3 * -c2)
        m32 := .finite (1 / max (max s1 s2) s3 * -c3)
        flagBits := 3 } := by
  simp [framingModel, FloatVal.finite_div _ hm, QMatrix4x4.scale, QMatrix4x4.translate,
    QMatrix4x4.identity]

/-- Unfolds `resetView` on a scene whose extents are the finite box `(a, b)`: the five
fixed camera values, the distance `2 * |b - a|` and the framing matrix of the
box; nothing else changes. -/
theorem resetView_of_extents (lm : Libm R) (w : PointCloudGLWidget R) (a1 a2 a3 b1 b2 b3 : R)
    (hext : w.calculateSceneExtents = (QVector3D.ofFinite a1 a2 a3, QVector3D.ofFinite b1 b2 b3)) :
    w.resetView lm =
      { w with
        m_xRot := .finite 30
        m_yRot := .finite 40
        m_fov := .finite 30
        m_focalDistance := .finite (1 / 2)
        m_distance := .finite (lm.sqrt ((b1 - a1) * (b1 - a1) + (b2 - a2) * (b2 - a2)
          + (b3 - a3) * (b3 - a3)) * 2)
        m_model := framingModel
          (QVector3D.ofFinite ((a1 + b1) * (1 / 2)) ((a2 + b2) * (1 / 2)) ((a3 + b3) * (1 / 2)))
          (QVector3D.ofFinite (b1 - a1) (b2 - a2) (b3 - a3)) } := by
  have h : ∀ w2 : PointCloudGLWidget R, w2.m_pointClouds = w.m_pointClouds →
      w2.calculateSceneExtents = w.calculateSceneExtents := by
    intro w2 h2
    simp only [calculateSceneExtents, h2]
  have hw1 := h { w with m_xRot := .finite 30, m_yRot := .finite 40, m_distance := .finite 5
                         m_fov := .finite 30, m_focalDistance := .finite (1 / 2) } rfl
  simp only [resetView, hw1, hext, QVector3D.ofFinite_add, QVector3D.ofFinite_sub,
    QVector3D.ofFinite_scaleBy, QVector3D.length_ofFinite, FloatVal.finite_mul]

theorem singlePointScene_extents :
    (singlePointScene : PointCloudGLWidget R).calculateSceneExtents =
      (QVector3D.ofFinite 1 2 3, QVector3D.ofFinite 1 2 3) := by
  norm_num [singlePointScene, widgetWith, ptsCloud, calculateSceneExtents, extentsStep,
    extendBox, init, QVector3D.ofFinite, FloatVal.fltMax]

/-- C3, the code at the failing input.  On the scene whose only point is
`(1, 2, 3)`, a bounding box with `min = max`, `resetView` and
`setFocusOnPointCloud` both compute the scale `1 / 0 = +inf` and store a model
matrix with `+inf` on the diagonal and `-inf` in the translation column: its
entries are not all finite, and it is not the translation by `-center` that a scale
of `1.0` would give. -/
theorem degenerate_box_model_matrix :
    ((singlePointScene : PointCloudGLWidget ℚ).resetView Libm.rational).m_model =
        { (QMatrix4x4.identity : QMatrix4x4 ℚ) with
          m00 := .posInf, m11 := .posInf, m22 := .posInf
          m30 := .negInf, m31 := .negInf, m32 := .negInf, flagBits := 3 } ∧
      ((singlePointScene : PointCloudGLWidget ℚ).setFocusOnPointCloud Libm.rational "dot.pts"
          (.ofFinite 1 2 3) (.ofFinite 1 2 3)).m_model =
        { (QMatrix4x4.identity : QMatrix4x4 ℚ) with
          m00 := .posInf, m11 := .posInf, m22 := .posInf
          m30 := .negInf, m31 := .negInf, m32 := .negInf, flagBits := 3 } ∧
      ((singlePointScene : PointCloudGLWidget ℚ).resetView Libm.rational).m_model.m00.isFinite =
        false ∧
      ((singlePointScene : PointCloudGLWidget ℚ).resetView Libm.rational).m_model ≠
        ((QMatrix4x4.identity : QMatrix4x4 ℚ).scale (.finite 1)).translate
          (-(QVector3D.ofFinite 1 2 3)) := by
  have h1 : ((singlePointScene : PointCloudGLWidget ℚ).resetView Libm.rational).m_model =
      { (QMatrix4x4.identity : QMatrix4x4 ℚ) with
        m00 := .posInf, m11 := .posInf, m22 := .posInf
        m30 := .negInf, m31 := .negInf, m32 := .negInf, flagBits := 3 } := by
    rw [resetView_of_extents _ _ _ _ _ _ _ _ singlePointScene_extents]
    norm_num [framingModel, QMatrix4x4.identity, QMatrix4x4.scale, QMatrix4x4.translate,
      FloatVal.finite_div_zero, FloatVal.posInf_mul_finite, FloatVal.infTimes, lor_two_one]
  refine ⟨h1, ?_, ?_, ?_⟩
  · norm_num [setFocusOnPointCloud, singlePointScene, widgetWith, ptsCloud, init, List.lookup,
      framingModel, QMatrix4x4.identity, QMatrix4x4.scale, QMatrix4x4.translate,
      FloatVal.finite_div_zero, FloatVal.posInf_mul_finite, FloatVal.infTimes, lor_two_one]
  · rw [h1]
    rfl
  · rw [h1]
    simp [QMatrix4x4.identity, QMatrix4x4.scale, QMatrix4x4.translate]

/-! ## Drag and scroll: the floor (C4) -/

omit [LinearOrderedField R] in
/-- An event at an integral offset from the last pointer position has that offset
as its `dx`. -/
theorem mouseDx_offset (w : PointCloudGLWidget R) (dx : Int) (y : ℚ) (buttons : Nat) :
    mouseDx w ⟨((w.m_lastPos.1 + dx : Int), y), buttons⟩ = dx := by
  unfold mouseDx truncToInt
  simp only [Int.cast_add, add_sub_cancel_left]
  split <;> simp

omit [LinearOrderedField R] in
/-- An event at an integral offset from the last pointer position has that offset
as its `dy`. -/
theorem mouseDy_offset (w : PointCloudGLWidget R) (dy : Int) (x : ℚ) (buttons : Nat) :
    mouseDy w ⟨(x, (w.m_lastPos.2 + dy : Int)), buttons⟩ = dy := by
  unfold mouseDy truncToInt
  simp only [Int.cast_add, add_sub_cancel_left]
  split <;> simp

/-- One event keeps the distance at or above the floor. -/
theorem handleEvent_floor (w : PointCloudGLWidget R) (e : InputEvent)
    (h : (FloatVal.finite (1 / 10) : FloatVal R) ≤ w.m_distance) :
    (FloatVal.finite (1 / 10) : FloatVal R) ≤ (w.handleEvent e).m_distance := by
  cases e with
  | press pos => exact h
  | move event =>
    simp only [handleEvent, mouseMoveEvent]
    split
    · exact h
    · split
      · exact FloatVal.le_qMax_floor _ _
      · exact h
  | wheel event => exact FloatVal.le_qMax_floor _ _

/-- C4. From any state whose orbit distance is at least `0.1` (the initial state,
with distance `5.0`, is one), after every finite sequence of pointer-press,
pointer-move and wheel events, whatever the button masks and the deltas, the
orbit distance is at least `0.1`. -/
theorem distance_floor_invariant (w : PointCloudGLWidget R)
    (h : (FloatVal.finite (1 / 10) : FloatVal R) ≤ w.m_distance) (events : List InputEvent) :
    (FloatVal.finite (1 / 10) : FloatVal R) ≤ (w.handleEvents events).m_distance := by
  unfold handleEvents
  induction events generalizing w with
  | nil => exact h
  | cons e rest ih => exact ih (w.handleEvent e) (handleEvent_floor w e h)

/-- Witness of C4: the initial state has distance `5.0 >= 0.1`, and a press, a
right-drag of 40000 pixels, a wheel turn of 1000000 and a left-drag leave the
distance at or above `0.1`. -/
theorem distance_floor_invariant_witness :
    (FloatVal.finite (1 / 10) : FloatVal ℚ) ≤ (init 1024 768 : PointCloudGLWidget ℚ).m_distance ∧
      (FloatVal.finite (1 / 10) : FloatVal ℚ) ≤
        ((init 1024 768 : PointCloudGLWidget ℚ).handleEvents
          [.press (0, 0), .move ⟨(3, 40000), 2⟩, .wheel ⟨(0, 1000000)⟩,
            .move ⟨(-7, 12), 1⟩]).m_distance := by
  have h : (FloatVal.finite (1 / 10) : FloatVal ℚ) ≤
      (init 1024 768 : PointCloudGLWidget ℚ).m_distance := by
    norm_num [init]
  exact ⟨h, distance_floor_invariant _ h _⟩

/-! ## Framing the whole scene (C9) -/

theorem tetraScene_extents :
    (tetraScene : PointCloudGLWidget R).calculateSceneExtents =
      (QVector3D.ofFinite 0 0 0, QVector3D.ofFinite 2 2 2) := by
  norm_num [tetraScene, widgetWith, ptsCloud, tetraPoints, calculateSceneExtents, extentsStep,
    extendBox, init, QVector3D.ofFinite, FloatVal.fltMax]

theorem tinyScene_extents :
    (tinyScene : PointCloudGLWidget R).calculateSceneExtents =
      (QVector3D.ofFinite 0 0 0, QVector3D.ofFinite (1 / 100) 0 0) := by
  norm_num [tinyScene, widgetWith, ptsCloud, calculateSceneExtents, extentsStep,
    extendBox, init, QVector3D.ofFinite, FloatVal.fltMax]

/-- C5 fails as stated.  On the scene with the two points `(0,0,0)` and
`(1/100,0,0)`, a box with `min != max`, `resetView` stores the distance
`2 * diag = 1/50` as computed: it is below the `0.1` floor. -/
theorem framing_distance_below_floor :
    ((tinyScene : PointCloudGLWidget ℚ).resetView Libm.rational).m_distance = .finite (1 / 50) ∧
      ¬ ((FloatVal.finite (1 / 10) : FloatVal ℚ) ≤
        ((tinyScene : PointCloudGLWidget ℚ).resetView Libm.rational).m_distance) := by
  have hs : ratSqrt (1 / 10000) = 1 / 100 := by
    have h := ratSqrt_mul_self (1 / 100) (by norm_num)
    norm_num at h ⊢
    exact h
  have hd : ((tinyScene : PointCloudGLWidget ℚ).resetView Libm.rational).m_distance =
      .finite (1 / 50) := by
    rw [resetView_of_extents _ _ _ _ _ _ _ _ tinyScene_extents]
    show FloatVal.finite (ratSqrt _ * 2) = _
    norm_num
    norm_num at hs
    rw [hs]
    norm_num
  refine ⟨hd, ?_⟩
  rw [hd]
  norm_num

theorem boxDiagSq_pos (a1 a2 a3 b1 b2 b3 : R) (hne : ¬ (a1 = b1 ∧ a2 = b2 ∧ a3 = b3)) :
    0 < boxDiagSq a1 a2 a3 b1 b2 b3 := by
  unfold boxDiagSq
  by_cases h1 : a1 = b1
  · by_cases h2 : a2 = b2
    · have h3 : b3 - a3 ≠ 0 := fun h => hne ⟨h1, h2, (sub_eq_zero.mp h).symm⟩
      nlinarith [mul_self_nonneg (b1 - a1), mul_self_nonneg (b2 - a2), mul_self_pos.mpr h3]
    · have h2' : b2 - a2 ≠ 0 := fun h => h2 (sub_eq_zero.mp h).symm
      nlinarith [mul_self_nonneg (b1 - a1), mul_self_nonneg (b3 - a3), mul_self_pos.mpr h2']
  · have h1' : b1 - a1 ≠ 0 := fun h => h1 (sub_eq_zero.mp h).symm
    nlinarith [mul_self_nonneg (b2 - a2), mul_self_nonneg (b3 - a3), mul_self_pos.mpr h1']

/-- Evaluates `QVector3D::operator==` on finite vectors that differ in a coordinate. -/
theorem beq_ofFinite_false (a1 a2 a3 b1 b2 b3 : R) (hne : ¬ (a1 = b1 ∧ a2 = b2 ∧ a3 = b3)) :
    QVector3D.beq (QVector3D.ofFinite a1 a2 a3) (QVector3D.ofFinite b1 b2 b3) = false := by
  simp only [QVector3D.beq, QVector3D.ofFinite, FloatVal.beq]
  by_cases h1 : a1 = b1
  · by_cases h2 : a2 = b2
    · have h3 : a3 ≠ b3 := fun h => hne ⟨h1, h2, h⟩
      simp [h3]
    · simp [h2]
  · simp [h1]

/-- C5 as amended.  With a library square root that is positive on positive
arguments, and a finite box `(a, b)` with `a != b`: the framed distance
`sqrt(|b - a|^2)` times 2 or 4 is strictly positive and is stored as computed, with
no clamp, by `resetView` (`2 * diag`), by `setFocusOnPointCloud` (`4 * diag`) and by
a successful `saveViewportForSelectedEntity` (`2 * diag`, also recorded in the new
snapshot); `applyViewport` stores the snapshot's distance; every pointer or wheel
event keeps a distance that is at least `0.1` at least `0.1`. -/
theorem distance_by_operation (lm : Libm R) (hsqrt : ∀ x : R, 0 < x → 0 < lm.sqrt x)
    (a1 a2 a3 b1 b2 b3 : R) (hne : ¬ (a1 = b1 ∧ a2 = b2 ∧ a3 = b3)) :
    0 < lm.sqrt (boxDiagSq a1 a2 a3 b1 b2 b3) ∧
    (∀ w : PointCloudGLWidget R,
      w.calculateSceneExtents = (QVector3D.ofFinite a1 a2 a3, QVector3D.ofFinite b1 b2 b3) →
      (w.resetView lm).m_distance = .finite (lm.sqrt (boxDiagSq a1 a2 a3 b1 b2 b3) * 2)) ∧
    (∀ (w : PointCloudGLWidget R) (name : String) (pc : PointCloud R),
      w.m_pointClouds.lookup name = some pc → pc.points ≠ [] →
      (w.setFocusOnPointCloud lm name (QVector3D.ofFinite a1 a2 a3)
          (QVector3D.ofFinite b1 b2 b3)).m_distance =
        .finite (lm.sqrt (boxDiagSq a1 a2 a3 b1 b2 b3) * 4)) ∧
    (∀ (mw : MainWindow R) (pc : PointCloud R),
      mw.getSelectedPointCloud.isEmpty = false →
      mw.m_pointClouds.lookup mw.getSelectedPointCloud = some pc → pc.points ≠ [] →
      pc.boundingBoxMin = QVector3D.ofFinite a1 a2 a3 →
      pc.boundingBoxMax = QVector3D.ofFinite b1 b2 b3 →
      (mw.saveViewportForSelectedEntity lm).m_glWidget.m_distance =
          .finite (lm.sqrt (boxDiagSq a1 a2 a3 b1 b2 b3) * 2) ∧
        ∃ v : ViewportObject R,
          (mw.saveViewportForSelectedEntity lm).m_viewportList = mw.m_viewportList ++ [v] ∧
          v.m_params.cameraDistance = .finite (lm.sqrt (boxDiagSq a1 a2 a3 b1 b2 b3) * 2)) ∧
    (∀ (v : ViewportObject R) (w : PointCloudGLWidget R),
      (v.applyViewport w).m_distance = v.m_params.cameraDistance) ∧
    (∀ (w : PointCloudGLWidget R) (e : InputEvent),
      (FloatVal.finite (1 / 10) : FloatVal R) ≤ w.m_distance →
      (FloatVal.finite (1 / 10) : FloatVal R) ≤ (w.handleEvent e).m_distance) := by
  refine ⟨hsqrt _ (boxDiagSq_pos a1 a2 a3 b1 b2 b3 hne), ?_, ?_, ?_, fun _ _ => rfl,
    fun w e h => handleEvent_floor w e h⟩
  · intro w hext
    rw [resetView_of_extents lm w a1 a2 a3 b1 b2 b3 hext]
    rfl
  · intro w name pc hlook hpts
    have hemp : pc.points.isEmpty = false := by
      cases hp : pc.points with
      | nil => exact absurd hp hpts
      | cons a l => rfl
    simp only [setFocusOnPointCloud, hlook, hemp, QVector3D.ofFinite_sub,
      QVector3D.length_ofFinite, FloatVal.finite_mul]
    rfl
  · intro mw pc hname hlook hpts hmin hmax
    have hemp : pc.points.isEmpty = false := by
      cases hp : pc.points with
      | nil => exact absurd hp hpts
      | cons a l => rfl
    have hbeq := beq_ofFinite_false a1 a2 a3 b1 b2 b3 hne
    simp only [MainWindow.saveViewportForSelectedEntity, hname, hlook, hemp, hmin, hmax, hbeq,
      QVector3D.ofFinite_sub, QVector3D.length_ofFinite, FloatVal.finite_mul]
    exact ⟨rfl, _, rfl, rfl⟩

/-- Witness of the amended C5 with the rational library on the box
`(0,0,0)-(1/100,0,0)`. -/
theorem distance_by_operation_witness :
    (∀ x : ℚ, 0 < x → 0 < Libm.rational.sqrt x) ∧
      ¬ ((0 : ℚ) = 1 / 100 ∧ (0 : ℚ) = 0 ∧ (0 : ℚ) = 0) ∧
      0 < Libm.rational.sqrt (boxDiagSq 0 0 0 (1 / 100) 0 0) ∧
      ((tinyScene : PointCloudGLWidget ℚ).resetView Libm.rational).m_distance =
        .finite (Libm.rational.sqrt (boxDiagSq 0 0 0 (1 / 100) 0 0) * 2) := by
  have hs : ∀ x : ℚ, 0 < x → 0 < Libm.rational.sqrt x := fun x hx => ratSqrt_pos x hx
  have hne : ¬ ((0 : ℚ) = 1 / 100 ∧ (0 : ℚ) = 0 ∧ (0 : ℚ) = 0) := by norm_num
  have h := distance_by_operation Libm.rational hs 0 0 0 (1 / 100) 0 0 hne
  exact ⟨hs, hne, h.1, h.2.1 tinyScene tinyScene_extents⟩

/-! ## Framing one entity (C11) -/

/-- The vector sum of a finite vector and `(0, 0, z)` with `z` finite. -/
theorem ofFinite_add_z (a b c z : R) :
    QVector3D.ofFinite a b c + (⟨.finite 0, .finite 0, .finite z⟩ : QVector3D R) =
      QVector3D.ofFinite a b (c + z) := by
  show QVector3D.add _ _ = _
  simp [QVector3D.add, QVector3D.ofFinite]

end PointCloudGLWidget

namespace QMatrix4x4
variable {R : Type} [LinearOrderedField R]

/-! ## The orbit view of a frame (C12) -/

omit [LinearOrderedField R] in
/-- The entry in row `i` and column `j` of `ofMatrix A` is that of `A`. -/
theorem entry_ofMatrix (A : Matrix (Fin 4) (Fin 4) R) (f : Nat) (i j : Fin 4) :
    (ofMatrix A f).entry i j = .finite (A i j) := by
  fin_cases i <;> fin_cases j <;> rfl

omit [LinearOrderedField R] in
/-- Matrices with equal entries give equal `ofMatrix`. -/
theorem ofMatrix_congr {A B : Matrix (Fin 4) (Fin 4) R} (f : Nat) (h : ∀ i j, A i j = B i j) :
    ofMatrix A f = ofMatrix B f := by
  simp only [ofMatrix, h]

/-- The cosine and sine that `rotate` uses for a finite non-zero angle are those of
the angle in degrees. -/
theorem rotationCosSin_finite (lm : Libm R) (p : R) (hp : p ≠ 0) :
    rotationCosSin lm (.finite p) = (.finite (degCos lm p), .finite (degSin lm p)) := by
  unfold rotationCosSin degCos degSin
  simp only [FloatVal.beq, Bool.or_eq_true, decide_eq_true_eq, FloatVal.finite_mul,
    FloatVal.liftFn]
  split_ifs <;> first | rfl | (exfalso; tauto)

theorem degCos_zero (lm : Libm R) : degCos lm 0 = 1 := by simp [degCos]

theorem degSin_zero (lm : Libm R) : degSin lm 0 = 0 := by simp [degSin]

/-- Rotating a finite matrix about the x axis multiplies it on the right by the
spec's `rotateX`. -/
theorem rotateAboutX_ofMatrix (lm : Libm R) (A : Matrix (Fin 4) (Fin 4) R) (f : Nat) (p : R) :
    rotateAboutX lm (ofMatrix A f) (.finite p) =
      ofMatrix (A * specRotateX (degCos lm p) (degSin lm p)) (if p = 0 then f else f ||| 8) := by
  by_cases hp : p = 0
  · subst hp
    have hb : FloatVal.beq (.finite (0 : R)) (.finite 0) = true := by simp [FloatVal.beq]
    simp only [rotateAboutX, hb, if_true, degCos_zero, degSin_zero]
    apply ofMatrix_congr
    intro i j
    fin_cases i <;> fin_cases j <;>
      simp [Matrix.mul_apply, Fin.sum_univ_four, specRotateX, Matrix.vecHead, Matrix.vecTail]
  · have hb : FloatVal.beq (.finite p) (.finite (0 : R)) = false := by simp [FloatVal.beq, hp]
    simp only [rotateAboutX, hb, rotationCosSin_finite lm p hp, if_neg hp, ofMatrix,
      FloatVal.finite_mul, FloatVal.finite_add, FloatVal.finite_sub]
    simp [Matrix.mul_apply, Fin.sum_univ_four, specRotateX, Matrix.vecHead, Matrix.vecTail]
    (repeat' apply And.intro) <;> first | trivial | ring

/-- Rotating a finite matrix about the y axis multiplies it on the right by the
spec's `rotateY`. -/
theorem rotateAboutY_ofMatrix (lm : Libm R) (A : Matrix (Fin 4) (Fin 4) R) (f : Nat) (p : R) :
    rotateAboutY lm (ofMatrix A f) (.finite p) =
      ofMatrix (A * specRotateY (degCos lm p) (degSin lm p)) (if p = 0 then f else f ||| 8) := by
  by_cases hp : p = 0
  · subst hp
    have hb : FloatVal.beq (.finite (0 : R)) (.finite 0) = true := by simp [FloatVal.beq]
    simp only [rotateAboutY, hb, if_true, degCos_zero, degSin_zero]
    apply ofMatrix_congr
    intro i j
    fin_cases i <;> fin_cases j <;>
      simp [Matrix.mul_apply, Fin.sum_univ_four, specRotateY, Matrix.vecHead, Matrix.vecTail]
  · have hb : FloatVal.beq (.finite p) (.finite (0 : R)) = false := by simp [FloatVal.beq, hp]
    simp only [rotateAboutY, hb, rotationCosSin_finite lm p hp, if_neg hp, ofMatrix,
      FloatVal.finite_mul, FloatVal.finite_add, FloatVal.finite_sub]
    simp [Matrix.mul_apply, Fin.sum_univ_four, specRotateY, Matrix.vecHead, Matrix.vecTail]
    (repeat' apply And.intro) <;> first | trivial | ring

/-- The shader product of a finite matrix with a finite point is the matrix-vector
product. -/
theorem mulVec4_ofMatrix (A : Matrix (Fin 4) (Fin 4) R) (f : Nat) (x y z t : R) :
    (ofMatrix A f).mulVec4 ⟨.finite x, .finite y, .finite z, .finite t⟩ =
      ⟨.finite (A.mulVec ![x, y, z, t] 0), .finite (A.mulVec ![x, y, z, t] 1),
        .finite (A.mulVec ![x, y, z, t] 2), .finite (A.mulVec ![x, y, z, t] 3)⟩ := by
  simp [mulVec4, ofMatrix, Matrix.mulVec, Matrix.dotProduct, Fin.sum_univ_four,
    Matrix.vecHead, Matrix.vecTail]

/-- The first step of `paintGL`: the identity translated by `(0, 0, -distance)` is
the spec's translation. -/
theorem translate_identity_z (d : R) :
    translate (identity : QMatrix4x4 R) ⟨.finite 0, .finite 0, -(.finite d)⟩ =
      ofMatrix (specTranslateZ d) 1 := by
  simp [translate, identity, ofMatrix, specTranslateZ, Matrix.vecHead, Matrix.vecTail]

end QMatrix4x4

namespace PointCloudGLWidget
variable {R : Type} [LinearOrderedField R]

/-- The view matrix that `paintGL` builds from a finite distance, pitch and yaw has
the entries of the spec's `T * Rx * Ry`. -/
theorem paintGL_view (lm : Libm R) (w : PointCloudGLWidget R) (d p y : R)
    (hne : w.m_pointClouds ≠ []) (hd : w.m_distance = .finite d) (hp : w.m_xRot = .finite p)
    (hy : w.m_yRot = .finite y) :
    ∃ f : Nat, (w.paintGL lm).m_view = QMatrix4x4.ofMatrix (specOrbitView lm d p y) f := by
  have hemp : w.m_pointClouds.isEmpty = false := by
    cases hc : w.m_pointClouds with
    | nil => exact absurd hc hne
    | cons a l => rfl
  simp only [paintGL, hemp, hd, hp, hy, QMatrix4x4.translate_identity_z,
    QMatrix4x4.rotateAboutX_ofMatrix, QMatrix4x4.rotateAboutY_ofMatrix]
  exact ⟨_, rfl⟩

/-- C12. Whenever a frame is rendered (the entity map is not empty), with finite
distance, pitch and yaw, the view matrix that `paintGL` computes is
`translate(0, 0, -distance) * rotateX(pitch) * rotateY(yaw)` in that order: its
entries are those of `T * Rx * Ry`, a point `P` is transformed as `T * Rx * Ry * P`,
and the origin is sent to `(0, 0, -distance)` whatever the pitch and the yaw. -/
theorem paintGL_view_is_orbit (lm : Libm R) (w : PointCloudGLWidget R) (d p y : R)
    (hne : w.m_pointClouds ≠ []) (hd : w.m_distance = .finite d) (hp : w.m_xRot = .finite p)
    (hy : w.m_yRot = .finite y) :
    (∀ i j : Fin 4, (w.paintGL lm).m_view.entry i j = .finite (specOrbitView lm d p y i j)) ∧
    (∀ P1 P2 P3 : R,
      (w.paintGL lm).m_view.mulVec4 ⟨.finite P1, .finite P2, .finite P3, .finite 1⟩ =
        ⟨.finite ((specOrbitView lm d p y).mulVec ![P1, P2, P3, 1] 0),
          .finite ((specOrbitView lm d p y).mulVec ![P1, P2, P3, 1] 1),
          .finite ((specOrbitView lm d p y).mulVec ![P1, P2, P3, 1] 2),
          .finite ((specOrbitView lm d p y).mulVec ![P1, P2, P3, 1] 3)⟩) ∧
    (w.paintGL lm).m_view.mulVec4 ⟨.finite 0, .finite 0, .finite 0, .finite 1⟩ =
      ⟨.finite 0, .finite 0, .finite (-d), .finite 1⟩ := by
  obtain ⟨f, hv⟩ := paintGL_view lm w d p y hne hd hp hy
  rw [hv]
  refine ⟨fun i j => QMatrix4x4.entry_ofMatrix _ _ i j,
    fun P1 P2 P3 => QMatrix4x4.mulVec4_ofMatrix _ _ _ _ _ _, ?_⟩
  rw [QMatrix4x4.mulVec4_ofMatrix]
  simp [specOrbitView, specTranslateZ, specRotateX, specRotateY, Matrix.mulVec,
    Matrix.dotProduct, Matrix.mul_apply, Fin.sum_univ_four, Matrix.vecHead, Matrix.vecTail]

/-- Witness of C12 on scenario A at distance 5, pitch 90 and yaw 180. -/
theorem paintGL_view_is_orbit_witness :
    (tetraScene : PointCloudGLWidget ℚ).m_pointClouds ≠ [] ∧
      ({ (tetraScene : PointCloudGLWidget ℚ) with
          m_xRot := .finite 90, m_yRot := .finite 180 }.paintGL Libm.rational).m_view.mulVec4
          ⟨.finite 0, .finite 0, .finite 0, .finite 1⟩ =
        ⟨.finite 0, .finite 0, .finite (-5), .finite 1⟩ := by
  have hne : (tetraScene : PointCloudGLWidget ℚ).m_pointClouds ≠ [] := by
    simp [tetraScene, widgetWith]
  exact ⟨hne, (paintGL_view_is_orbit Libm.rational
    { (tetraScene : PointCloudGLWidget ℚ) with m_xRot := .finite 90, m_yRot := .finite 180 }
    5 90 180 hne rfl rfl rfl).2.2⟩

/-! ## Idempotence (C16, C18) -/

/-- C16. Applying a snapshot twice in a row gives the same widget state, in every
field, as applying it once; so does a second double-click on its tree item. -/
theorem applyViewport_idempotent (lm : Libm R) (v : ViewportObject R)
    (w : PointCloudGLWidget R) (mw : MainWindow R) :
    v.applyViewport (v.applyViewport w) = v.applyViewport w ∧
      MainWindow.onItemDoubleClicked lm (MainWindow.onItemDoubleClicked lm mw (.viewport v))
          (.viewport v) =
        MainWindow.onItemDoubleClicked lm mw (.viewport v) :=
  ⟨rfl, rfl⟩

/-- Unfolds `setFocusOnPointCloud` for an entity that the widget knows and that has
points. -/
theorem setFocusOnPointCloud_of_lookup (lm : Libm R) (w : PointCloudGLWidget R) (name : String)
    (pc : PointCloud R) (min max : QVector3D R)
    (hlook : w.m_pointClouds.lookup name = some pc) (hemp : pc.points.isEmpty = false) :
    w.setFocusOnPointCloud lm name min max =
      { w with
        m_distance := (max - min).length lm * .finite 4
        m_view := QMatrix4x4.lookAt lm QMatrix4x4.identity
          ((min + max).scaleBy (.finite (1 / 2)) +
            ⟨.finite 0, .finite 0, (max - min).length lm * .finite 4⟩)
          ((min + max).scaleBy (.finite (1 / 2))) (QVector3D.ofFinite 0 1 0)
        m_fov := .finite 30
        m_focalDistance := (max - min).length lm * .finite (3 / 2)
        m_projection := QMatrix4x4.perspective lm QMatrix4x4.identity (.finite 30)
          (FloatVal.ofInt w.width / FloatVal.ofInt w.height)
          (FloatVal.qMax (.finite (1 / 100)) ((max - min).length lm * .finite (1 / 100)))
          ((max - min).length lm * .finite 20)
        m_model := framingModel ((min + max).scaleBy (.finite (1 / 2))) (max - min)
        m_xRot := .finite 30
        m_yRot := .finite 40
        m_selectedEntityForBoundingBox := name
        m_showBoundingBox := true } := by
  simp only [setFocusOnPointCloud, hlook, hemp]
  rfl

/-- C18. On a static scene `resetView` and `setFocusOnPointCloud` are idempotent:
a second call with the same arguments leaves the whole widget state, and so the
model matrix, as the first call left it, whatever the camera was before. -/
theorem framing_idempotent (lm : Libm R) (w : PointCloudGLWidget R) (name : String)
    (min max : QVector3D R) :
    ((w.resetView lm).resetView lm).m_model = (w.resetView lm).m_model ∧
      (w.resetView lm).resetView lm = w.resetView lm ∧
      ((w.setFocusOnPointCloud lm name min max).setFocusOnPointCloud lm name min max).m_model =
        (w.setFocusOnPointCloud lm name min max).m_model ∧
      (w.setFocusOnPointCloud lm name min max).setFocusOnPointCloud lm name min max =
        w.setFocusOnPointCloud lm name min max := by
  have hreset : (w.resetView lm).resetView lm = w.resetView lm := rfl
  have hfocus : (w.setFocusOnPointCloud lm name min max).setFocusOnPointCloud lm name min max =
      w.setFocusOnPointCloud lm name min max := by
    cases hl : w.m_pointClouds.lookup name with
    | none => simp only [setFocusOnPointCloud, hl]
    | some pc =>
      by_cases hemp : pc.points.isEmpty = true
      · simp only [setFocusOnPointCloud, hl, hemp, if_true]
      · have hemp2 : pc.points.isEmpty = false := by simpa using hemp
        rw [setFocusOnPointCloud_of_lookup lm w name pc min max hl hemp2]
        exact setFocusOnPointCloud_of_lookup lm _ name pc min max hl hemp2
  exact ⟨by rw [hreset], hreset, by rw [hfocus], hfocus⟩

end PointCloudGLWidget

namespace FloatVal
variable {R : Type} [LinearOrderedField R]

/-! ### `qMin` and `qMax` on the non-finite values -/

theorem qMin_finite_posInf (a : R) : qMin (finite a) posInf = finite a := by
  simp [qMin, lt_def, lt]

theorem qMin_posInf_finite (a : R) : qMin posInf (finite a) = finite a := by
  simp [qMin, lt_def, lt]

theorem qMin_finite_negInf (a : R) : qMin (finite a) negInf = negInf := by
  simp [qMin, lt_def, lt]

theorem qMin_negInf_finite (a : R) : qMin negInf (finite a) = negInf := by
  simp [qMin, lt_def, lt]

theorem qMin_posInf_posInf : qMin (posInf : FloatVal R) posInf = posInf := by
  simp [qMin, lt_def, lt]

theorem qMin_posInf_negInf : qMin (posInf : FloatVal R) negInf = negInf := by
  simp [qMin, lt_def, lt]

theorem qMin_negInf_posInf : qMin (negInf : FloatVal R) posInf = negInf := by
  simp [qMin, lt_def, lt]

theorem qMin_negInf_negInf : qMin (negInf : FloatVal R) negInf = negInf := by
  simp [qMin, lt_def, lt]

theorem qMin_nan_left (x : FloatVal R) : qMin nan x = x := by
  simp [qMin, lt_def, lt]

theorem qMax_finite_posInf (a : R) : qMax (finite a) posInf = posInf := by
  simp [qMax, lt_def, lt]

theorem qMax_posInf_finite (a : R) : qMax posInf (finite a) = posInf := by
  simp [qMax, lt_def, lt]

theorem qMax_finite_negInf (a : R) : qMax (finite a) negInf = finite a := by
  simp [qMax, lt_def, lt]

theorem qMax_negInf_finite (a : R) : qMax negInf (finite a) = finite a := by
  simp [qMax, lt_def, lt]

theorem qMax_posInf_posInf : qMax (posInf : FloatVal R) posInf = posInf := by
  simp [qMax, lt_def, lt]

theorem qMax_posInf_negInf : qMax (posInf : FloatVal R) negInf = posInf := by
  simp [qMax, lt_def, lt]

theorem qMax_negInf_posInf : qMax (negInf : FloatVal R) posInf = posInf := by
  simp [qMax, lt_def, lt]

theorem qMax_negInf_negInf : qMax (negInf : FloatVal R) negInf = negInf := by
  simp [qMax, lt_def, lt]

theorem qMax_nan_left (x : FloatVal R) : qMax nan x = nan := by
  simp [qMax, lt_def, lt]

/-- Taking `qMin` with two values that are not `NaN` gives the same result in
either order, whatever the value one starts from. -/
theorem qMin_right_comm (z : FloatVal R) {x y : FloatVal R} (hx : x ≠ nan) (hy : y ≠ nan) :
    qMin (qMin z x) y = qMin (qMin z y) x := by
  cases z <;> cases x <;> cases y <;>
    first
      | exact absurd rfl hx
      | exact absurd rfl hy
      | (simp only [qMin_finite]; exact congrArg finite (inf_right_comm _ _ _))
      | (simp only [qMin_finite, qMin_finite_posInf, qMin_posInf_finite, qMin_finite_negInf,
          qMin_negInf_finite, qMin_posInf_posInf, qMin_posInf_negInf, qMin_negInf_posInf,
          qMin_negInf_negInf, qMin_nan_left]; done)
      | (simp only [qMin_finite, qMin_finite_posInf, qMin_posInf_finite, qMin_finite_negInf,
          qMin_negInf_finite, qMin_posInf_posInf, qMin_posInf_negInf, qMin_negInf_posInf,
          qMin_negInf_negInf, qMin_nan_left]; exact congrArg finite (inf_comm _ _))

/-- Taking `qMax` with two values that are not `NaN` gives the same result in
either order, whatever the value one starts from. -/
theorem qMax_right_comm (z : FloatVal R) {x y : FloatVal R} (hx : x ≠ nan) (hy : y ≠ nan) :
    qMax (qMax z x) y = qMax (qMax z y) x := by
  cases z <;> cases x <;> cases y <;>
    first
      | exact absurd rfl hx
      | exact absurd rfl hy
      | (simp only [qMax_finite]; exact congrArg finite (sup_right_comm _ _ _))
      | (simp only [qMax_finite, qMax_finite_posInf, qMax_posInf_finite, qMax_finite_negInf,
          qMax_negInf_finite, qMax_posInf_posInf, qMax_posInf_negInf, qMax_negInf_posInf,
          qMax_negInf_negInf, qMax_nan_left]; done)
      | (simp only [qMax_finite, qMax_finite_posInf, qMax_posInf_finite, qMax_finite_negInf,
          qMax_negInf_finite, qMax_posInf_posInf, qMax_posInf_negInf, qMax_negInf_posInf,
          qMax_negInf_negInf, qMax_nan_left]; exact congrArg finite (sup_comm _ _))

end FloatVal

namespace PointCloudGLWidget
variable {R : Type} [LinearOrderedField R]

/-! ## What the scene extents depend on (C19, C20) -/

/-- A contributing entity widens the box by each of its points. -/
theorem extentsStep_of_contributes (acc : (QVector3D R × QVector3D R) × Bool)
    (pc : PointCloud R) (h : pc.contributes = true) :
    extentsStep acc pc = (pc.points.foldl extendBox acc.1, true) := by
  simp only [PointCloud.contributes] at h
  simp [extentsStep, h]

/-- An entity that does not contribute leaves the accumulator as it is. -/
theorem extentsStep_of_not_contributes (acc : (QVector3D R × QVector3D R) × Bool)
    (pc : PointCloud R) (h : pc.contributes = false) : extentsStep acc pc = acc := by
  simp only [PointCloud.contributes] at h
  simp [extentsStep, h]

/-- The outer loop skips the entities that do not contribute. -/
theorem foldl_extentsStep_filter (pcs : List (PointCloud R)) :
    ∀ acc : (QVector3D R × QVector3D R) × Bool,
      pcs.foldl extentsStep acc = (pcs.filter PointCloud.contributes).foldl extentsStep acc := by
  induction pcs with
  | nil => intro acc; rfl
  | cons c rest ih =>
    intro acc
    cases hc : c.contributes with
    | true => simp only [List.foldl_cons, List.filter_cons, hc, if_true, ih]
    | false =>
      simp only [List.foldl_cons, List.filter_cons, hc, extentsStep_of_not_contributes acc c hc]
      simpa using ih acc

/-- C19. Two entity maps that agree on their visible, non-empty entities have the
same scene extents, whatever hidden or empty entities either holds. -/
theorem calculateSceneExtents_contributing_only (w1 w2 : PointCloudGLWidget R)
    (h : w1.m_pointClouds.filter (fun kv => kv.2.contributes) =
      w2.m_pointClouds.filter (fun kv => kv.2.contributes)) :
    w1.calculateSceneExtents = w2.calculateSceneExtents := by
  have hmap : ∀ l : List (String × PointCloud R),
      (l.map Prod.snd).filter PointCloud.contributes =
        (l.filter (fun kv => kv.2.contributes)).map Prod.snd := by
    intro l
    rw [List.filter_map]
    rfl
  simp only [calculateSceneExtents]
  rw [foldl_extentsStep_filter (w1.m_pointClouds.map Prod.snd),
    foldl_extentsStep_filter (w2.m_pointClouds.map Prod.snd), hmap, hmap, h]

/-- Witness of C19: scenario A with and without a hidden and an empty entity. -/
theorem calculateSceneExtents_contributing_only_witness :
    (tetraScene : PointCloudGLWidget ℚ).m_pointClouds.filter (fun kv => kv.2.contributes) =
        (tetraWithHiddenScene : PointCloudGLWidget ℚ).m_pointClouds.filter
          (fun kv => kv.2.contributes) ∧
      (tetraScene : PointCloudGLWidget ℚ).calculateSceneExtents =
        (tetraWithHiddenScene : PointCloudGLWidget ℚ).calculateSceneExtents := by
  have h : (tetraScene : PointCloudGLWidget ℚ).m_pointClouds.filter
      (fun kv => kv.2.contributes) =
      (tetraWithHiddenScene : PointCloudGLWidget ℚ).m_pointClouds.filter
        (fun kv => kv.2.contributes) := by
    simp [tetraScene, tetraWithHiddenScene, widgetWith, ptsCloud, tetraPoints, init,
      PointCloud.contributes]
  exact ⟨h, calculateSceneExtents_contributing_only _ _ h⟩

/-- Widening a box by two points without `NaN` gives the same box in either order. -/
theorem extendBox_right_comm (box : QVector3D R × QVector3D R) {p q : QVector3D R}
    (hp : p.NoNaN) (hq : q.NoNaN) :
    extendBox (extendBox box p) q = extendBox (extendBox box q) p := by
  simp only [extendBox, FloatVal.qMin_right_comm _ hp.1 hq.1,
    FloatVal.qMin_right_comm _ hp.2.1 hq.2.1, FloatVal.qMin_right_comm _ hp.2.2 hq.2.2,
    FloatVal.qMax_right_comm _ hp.1 hq.1, FloatVal.qMax_right_comm _ hp.2.1 hq.2.1,
    FloatVal.qMax_right_comm _ hp.2.2 hq.2.2]

/-- The inner loop gives the same box for the points in any order. -/
theorem foldl_extendBox_perm {pts pts2 : List (QVector3D R)} (h : pts.Perm pts2)
    (hnum : ∀ p ∈ pts, p.NoNaN) (box : QVector3D R × QVector3D R) :
    pts.foldl extendBox box = pts2.foldl extendBox box :=
  List.Perm.foldl_eq' h (fun x hx y hy z => extendBox_right_comm z (hnum x hx) (hnum y hy)) box

/-- Two entities whose visible points have no `NaN` can be visited in either
order. -/
theorem extentsStep_right_comm (acc : (QVector3D R × QVector3D R) × Bool) {c1 c2 : PointCloud R}
    (h1 : c1.isVisible = true → ∀ p ∈ c1.points, p.NoNaN)
    (h2 : c2.isVisible = true → ∀ p ∈ c2.points, p.NoNaN) :
    extentsStep (extentsStep acc c1) c2 = extentsStep (extentsStep acc c2) c1 := by
  cases hc1 : c1.contributes with
  | false =>
    rw [extentsStep_of_not_contributes _ c1 hc1, extentsStep_of_not_contributes _ c1 hc1]
  | true =>
    cases hc2 : c2.contributes with
    | false =>
      rw [extentsStep_of_not_contributes _ c2 hc2, extentsStep_of_not_contributes _ c2 hc2]
    | true =>
      have v1 : c1.isVisible = true := by
        simp only [PointCloud.contributes, Bool.and_eq_true] at hc1
        exact hc1.1
      have v2 : c2.isVisible = true := by
        simp only [PointCloud.contributes, Bool.and_eq_true] at hc2
        exact hc2.1
      rw [extentsStep_of_contributes _ c1 hc1, extentsStep_of_contributes _ c2 hc2,
        extentsStep_of_contributes _ c2 hc2, extentsStep_of_contributes _ c1 hc1]
      have happ : (c1.points ++ c2.points).foldl extendBox acc.1 =
          (c2.points ++ c1.points).foldl extendBox acc.1 := by
        apply foldl_extendBox_perm List.perm_append_comm
        intro p hp
        rcases List.mem_append.mp hp with h | h
        · exact h1 v1 p h
        · exact h2 v2 p h
      simp only [List.foldl_append] at happ
      simp only [happ]

/-- The outer loop gives the same result for the entities in any order. -/
theorem foldl_extentsStep_perm {l l2 : List (PointCloud R)} (h : l.Perm l2)
    (hnum : ∀ pc ∈ l, pc.isVisible = true → ∀ p ∈ pc.points, p.NoNaN)
    (acc : (QVector3D R × QVector3D R) × Bool) :
    l.foldl extentsStep acc = l2.foldl extentsStep acc :=
  List.Perm.foldl_eq' h
    (fun x hx y hy z => extentsStep_right_comm z (hnum x hx) (hnum y hy)) acc

/-- The outer loop gives the same result when the points of each entity are
listed in another order. -/
theorem foldl_extentsStep_forall₂ {l l2 : List (PointCloud R)}
    (h : List.Forall₂ (fun a b => a.isVisible = b.isVisible ∧ a.points.Perm b.points) l l2)
    (hnum : ∀ pc ∈ l, pc.isVisible = true → ∀ p ∈ pc.points, p.NoNaN) :
    ∀ acc : (QVector3D R × QVector3D R) × Bool,
      l.foldl extentsStep acc = l2.foldl extentsStep acc := by
  induction h with
  | nil => intro acc; rfl
  | @cons a b la lb hab _ ih =>
    intro acc
    have hstep : extentsStep acc a = extentsStep acc b := by
      obtain ⟨hv, hp⟩ := hab
      have hempty : a.points.isEmpty = b.points.isEmpty := by
        have hlen := hp.length_eq
        cases ha : a.points with
        | nil =>
          cases hb : b.points with
          | nil => rfl
          | cons y ys => rw [ha, hb] at hlen; exact absurd hlen (by simp)
        | cons x xs =>
          cases hb : b.points with
          | nil => rw [ha, hb] at hlen; exact absurd hlen (by simp)
          | cons y ys => rfl
      cases hc : a.contributes with
      | false =>
        have hcb : b.contributes = false := by
          simp only [PointCloud.contributes, ← hv, ← hempty]
          exact hc
        rw [extentsStep_of_not_contributes _ a hc, extentsStep_of_not_contributes _ b hcb]
      | true =>
        have hcb : b.contributes = true := by
          simp only [PointCloud.contributes, ← hv, ← hempty]
          exact hc
        have va : a.isVisible = true := by
          simp only [PointCloud.contributes, Bool.and_eq_true] at hc
          exact hc.1
        rw [extentsStep_of_contributes _ a hc, extentsStep_of_contributes _ b hcb,
          foldl_extendBox_perm hp (hnum a (List.mem_cons_self a la) va)]
    simp only [List.foldl_cons, hstep]
    exact ih (fun pc hpc => hnum pc (List.mem_cons_of_mem a hpc)) _

/-- C20. For coordinates that are numbers (no `NaN`), the scene extents do not depend
on the order of iteration: listing the points of any entity in another order, or
visiting the entities in another order, leaves `(min, max)` unchanged. -/
theorem calculateSceneExtents_order_independent (w1 w2 : PointCloudGLWidget R)
    (hnum : ∀ kv ∈ w1.m_pointClouds, kv.2.isVisible = true → ∀ p ∈ kv.2.points, p.NoNaN)
    (h : Reordered (w1.m_pointClouds.map Prod.snd) (w2.m_pointClouds.map Prod.snd)) :
    w1.calculateSceneExtents = w2.calculateSceneExtents := by
  obtain ⟨l, hperm, hall⟩ := h
  have hnum1 : ∀ pc ∈ w1.m_pointClouds.map Prod.snd, pc.isVisible = true →
      ∀ p ∈ pc.points, p.NoNaN := by
    intro pc hpc
    obtain ⟨kv, hkv, rfl⟩ := List.mem_map.mp hpc
    exact hnum kv hkv
  have hnum2 : ∀ pc ∈ l, pc.isVisible = true → ∀ p ∈ pc.points, p.NoNaN :=
    fun pc hpc => hnum1 pc (hperm.symm.subset hpc)
  simp only [calculateSceneExtents]
  rw [foldl_extentsStep_perm hperm hnum1, foldl_extentsStep_forall₂ hall hnum2]

/-- Witness of C20: `orderedScene` and `reorderedScene` have the same extents. -/
theorem calculateSceneExtents_order_independent_witness :
    Reordered ((orderedScene : PointCloudGLWidget ℚ).m_pointClouds.map Prod.snd)
        ((reorderedScene : PointCloudGLWidget ℚ).m_pointClouds.map Prod.snd) ∧
      (orderedScene : PointCloudGLWidget ℚ).calculateSceneExtents =
        (reorderedScene : PointCloudGLWidget ℚ).calculateSceneExtents := by
  have hre : Reordered ((orderedScene : PointCloudGLWidget ℚ).m_pointClouds.map Prod.snd)
      ((reorderedScene : PointCloudGLWidget ℚ).m_pointClouds.map Prod.snd) :=
    ⟨[ptsCloud [.ofFinite 1 1 1, .ofFinite 5 (-1) 0] true (.ofFinite 1 (-1) 0) (.ofFinite 5 1 1),
        ptsCloud tetraPoints true (.ofFinite 0 0 0) (.ofFinite 2 2 2)],
      List.Perm.swap _ _ _,
      List.Forall₂.cons ⟨rfl, List.Perm.swap _ _ _⟩
        (List.Forall₂.cons ⟨rfl, (List.reverse_perm _).symm⟩ List.Forall₂.nil)⟩
  have hnum : ∀ kv ∈ (orderedScene : PointCloudGLWidget ℚ).m_pointClouds,
      kv.2.isVisible = true → ∀ p ∈ kv.2.points, p.NoNaN := by
    intro kv hkv _ p hp
    simp only [orderedScene, widgetWith, List.mem_cons, List.mem_singleton, List.not_mem_nil,
      or_false] at hkv
    rcases hkv with rfl | rfl <;>
      simp only [ptsCloud, tetraPoints, List.mem_cons, List.mem_singleton, List.not_mem_nil,
        or_false] at hp
    · rcases hp with rfl | rfl | rfl | rfl <;> simp [QVector3D.NoNaN, QVector3D.ofFinite]
    · rcases hp with rfl | rfl <;> simp [QVector3D.NoNaN, QVector3D.ofFinite]
  exact ⟨hre, calculateSceneExtents_order_independent orderedScene reorderedScene hnum hre⟩

end PointCloudGLWidget

namespace MainWindow
variable {R : Type} [LinearOrderedField R]

/-! ## Loading a file (C13) -/

/-- When the view widget does not know the name, `setFocusOnPointCloud` returns at
its first test and the widget is unchanged. -/
theorem setFocusOnPointCloud_of_unknown (lm : Libm R) (w : PointCloudGLWidget R) (name : String)
    (min max : QVector3D R) (h : w.m_pointClouds.lookup name = none) :
    w.setFocusOnPointCloud lm name min max = w := by
  simp only [PointCloudGLWidget.setFocusOnPointCloud, h]

/-- When the view widget does not know the name, `focusCameraOnPointCloud` leaves
the view widget unchanged. -/
theorem focusCameraOnPointCloud_widget_of_unknown (lm : Libm R) (mw : MainWindow R)
    (name : String) (h : mw.m_glWidget.m_pointClouds.lookup name = none) :
    (focusCameraOnPointCloud lm mw name).m_glWidget = mw.m_glWidget := by
  unfold focusCameraOnPointCloud
  cases mw.m_pointClouds.lookup name with
  | none => rfl
  | some pc => exact setFocusOnPointCloud_of_unknown lm _ _ _ _ h

/-- A load under a name that the view widget does not know yet leaves the whole
view widget, camera included, as it was: the entity is stored in the main window's
map only, and the focus call returns early. -/
theorem loadPointCloud_widget_of_unknown (lm : Libm R) (mw : MainWindow R) (file : PtsFile R)
    (h : mw.m_glWidget.m_pointClouds.lookup file.name = none) :
    (loadPointCloud lm mw file).1.m_glWidget = mw.m_glWidget := by
  unfold loadPointCloud
  by_cases he : file.points.isEmpty = true
  · simp only [he, if_true]
  · simp only [he]
    exact focusCameraOnPointCloud_widget_of_unknown lm _ _ h

/-- C13, the code at the failing input.  From the initial main window, loading
scenario A's file succeeds (`loadPointCloud` returns `true`) and stores the entity
with its box `(0,0,0)-(2,2,2)`, but the view widget is exactly as before the load:
distance 5, identity model matrix (not the matrix recentred on the box), no focused
entity.  The same holds once `openFile` has handed the map to the widget. -/
theorem load_leaves_camera_unframed (lm : Libm ℚ) :
    (loadPointCloud lm (init 1024 768) tetraFile).2 = true ∧
      ((loadPointCloud lm (init 1024 768) tetraFile).1.m_pointClouds.lookup "tetra.pts").map
          (fun pc => (pc.boundingBoxMin, pc.boundingBoxMax)) =
        some (QVector3D.ofFinite 0 0 0, QVector3D.ofFinite 2 2 2) ∧
      (loadPointCloud lm (init 1024 768) tetraFile).1.m_glWidget =
        PointCloudGLWidget.init 1024 768 ∧
      (loadPointCloud lm (init 1024 768) tetraFile).1.m_glWidget.m_distance = .finite 5 ∧
      (loadPointCloud lm (init 1024 768) tetraFile).1.m_glWidget.m_model =
        QMatrix4x4.identity ∧
      (QMatrix4x4.identity : QMatrix4x4 ℚ) ≠
        PointCloudGLWidget.framingModel (.ofFinite 1 1 1) (.ofFinite 2 2 2) ∧
      (loadPointCloud lm (init 1024 768)
          tetraFile).1.m_glWidget.m_selectedEntityForBoundingBox = "" ∧
      (openFile lm (init 1024 768) [tetraFile]).m_glWidget.m_distance = .finite 5 ∧
      (openFile lm (init 1024 768) [tetraFile]).m_glWidget.m_model = QMatrix4x4.identity ∧
      (openFile lm (init 1024 768)
          [tetraFile]).m_glWidget.m_selectedEntityForBoundingBox = "" := by
  have hw : (loadPointCloud lm (init 1024 768) tetraFile).1.m_glWidget =
      PointCloudGLWidget.init 1024 768 :=
    loadPointCloud_widget_of_unknown lm (init 1024 768) tetraFile rfl
  have ho : (openFile lm (init 1024 768) [tetraFile]).m_glWidget =
      (PointCloudGLWidget.init 1024 768 : PointCloudGLWidget ℚ).setPointClouds
        (loadPointCloud lm (init 1024 768) tetraFile).1.m_pointClouds := by
    simp only [openFile, List.foldl_cons, List.foldl_nil, updateAllVisiblePointClouds, hw]
  refine ⟨rfl, ?_, hw, by rw [hw]; rfl, by rw [hw]; rfl, ?_, by rw [hw]; rfl,
    by rw [ho]; rfl, by rw [ho]; rfl, by rw [ho]; rfl⟩
  · norm_num [loadPointCloud, tetraFile, tetraPoints, focusCameraOnPointCloud, mapInsert, init,
      List.lookup, PointCloudGLWidget.extendBox, QVector3D.ofFinite, FloatVal.fltMax,
      PointCloudGLWidget.setFocusOnPointCloud, PointCloudGLWidget.init]
  · simp [PointCloudGLWidget.framingModel, QMatrix4x4.identity, QMatrix4x4.scale,
      QMatrix4x4.translate, QVector3D.ofFinite]

/-! ## Saving and applying a viewport (C14, C15) -/

/-- A save that passes its three tests appends one snapshot, which holds the camera
as the save leaves it; that camera does not depend on the camera before the save. -/
theorem saveViewportForSelectedEntity_of_success (lm : Libm R) (mw : MainWindow R)
    (pc : PointCloud R) (hsel : (getSelectedPointCloud mw).isEmpty = false)
    (hlook : mw.m_pointClouds.lookup (getSelectedPointCloud mw) = some pc)
    (hpts : pc.points ≠ [])
    (hbox : QVector3D.beq pc.boundingBoxMin pc.boundingBoxMax = false) :
    ∃ v : ViewportObject R,
      (saveViewportForSelectedEntity lm mw).m_viewportList = mw.m_viewportList ++ [v] ∧
      v.m_name = "Viewport #" ++ toString ((mw.s_viewportIndex + 1) % 2 ^ 32) ++ " - " ++
        getSelectedPointCloud mw ∧
      (saveViewportForSelectedEntity lm mw).s_viewportIndex =
        (mw.s_viewportIndex + 1) % 2 ^ 32 ∧
      v.stored = (saveViewportForSelectedEntity lm mw).m_glWidget.cameraState ∧
      ∀ w : PointCloudGLWidget R,
        (saveViewportForSelectedEntity lm { mw with m_glWidget := w }).m_glWidget.cameraState =
          (saveViewportForSelectedEntity lm mw).m_glWidget.cameraState := by
  have hemp : pc.points.isEmpty = false := by
    cases hp : pc.points with
    | nil => exact absurd hp hpts
    | cons a l => rfl
  have hsave : ∀ w : PointCloudGLWidget R,
      getSelectedPointCloud { mw with m_glWidget := w } = getSelectedPointCloud mw :=
    fun _ => rfl
  refine ⟨{ m_name := "Viewport #" ++ toString ((mw.s_viewportIndex + 1) % 2 ^ 32) ++ " - " ++
                getSelectedPointCloud mw
            m_params :=
              { modelMatrix := (saveViewportForSelectedEntity lm mw).m_glWidget.m_model
                viewMatrix := (saveViewportForSelectedEntity lm mw).m_glWidget.m_view
                cameraDistance := (saveViewportForSelectedEntity lm mw).m_glWidget.m_distance
                xRot := (saveViewportForSelectedEntity lm mw).m_glWidget.m_xRot
                yRot := (saveViewportForSelectedEntity lm mw).m_glWidget.m_yRot
                modelCenter :=
                  (pc.boundingBoxMin + pc.boundingBoxMax).scaleBy (.finite (3 / 2))
                focalDistance := (saveViewportForSelectedEntity lm mw).m_glWidget.m_focalDistance
                fov := (saveViewportForSelectedEntity lm mw).m_glWidget.m_fov } },
    ?_, rfl, ?_, rfl, ?_⟩
  · simp only [saveViewportForSelectedEntity, hsel, hlook, hemp, hbox, Bool.false_eq_true,
      if_false]
  · simp only [saveViewportForSelectedEntity, hsel, hlook, hemp, hbox, Bool.false_eq_true,
      if_false]
  · intro w
    simp only [saveViewportForSelectedEntity, hsave, hsel, hlook, hemp, hbox,
      Bool.false_eq_true, if_false]
    rfl

/-- A save that passes its three tests leaves the camera at pitch 40, yaw 40 and
fov 30. -/
theorem saveViewportForSelectedEntity_angles (lm : Libm R) (mw : MainWindow R)
    (pc : PointCloud R) (hsel : (getSelectedPointCloud mw).isEmpty = false)
    (hlook : mw.m_pointClouds.lookup (getSelectedPointCloud mw) = some pc)
    (hpts : pc.points ≠ [])
    (hbox : QVector3D.beq pc.boundingBoxMin pc.boundingBoxMax = false) :
    (saveViewportForSelectedEntity lm mw).m_glWidget.m_xRot = .finite 40 ∧
      (saveViewportForSelectedEntity lm mw).m_glWidget.m_yRot = .finite 40 ∧
      (saveViewportForSelectedEntity lm mw).m_glWidget.m_fov = .finite 30 := by
  have hemp : pc.points.isEmpty = false := by
    cases hp : pc.points with
    | nil => exact absurd hp hpts
    | cons a l => rfl
  simp only [saveViewportForSelectedEntity, hsel, hlook, hemp, hbox, Bool.false_eq_true,
    if_false, and_self]

/-- A save either is rejected and leaves the whole state as it was, or passes its
three tests. -/
theorem saveViewportForSelectedEntity_cases (lm : Libm R) (mw : MainWindow R) :
    saveViewportForSelectedEntity lm mw = mw ∨
      ∃ pc : PointCloud R, (getSelectedPointCloud mw).isEmpty = false ∧
        mw.m_pointClouds.lookup (getSelectedPointCloud mw) = some pc ∧ pc.points ≠ [] ∧
        QVector3D.beq pc.boundingBoxMin pc.boundingBoxMax = false := by
  by_cases hsel : (getSelectedPointCloud mw).isEmpty = true
  · left
    simp only [saveViewportForSelectedEntity, hsel, if_true]
  · cases hlook : mw.m_pointClouds.lookup (getSelectedPointCloud mw) with
    | none =>
      left
      simp only [saveViewportForSelectedEntity, hsel, hlook, Bool.false_eq_true, if_false]
    | some pc =>
      by_cases hemp : pc.points.isEmpty = true
      · left
        simp only [saveViewportForSelectedEntity, hsel, hlook, hemp, if_true,
          Bool.false_eq_true, if_false]
      · by_cases hbox : QVector3D.beq pc.boundingBoxMin pc.boundingBoxMax = true
        · left
          simp only [saveViewportForSelectedEntity, hsel, hlook, hemp, hbox, if_true,
            Bool.false_eq_true, if_false]
        · right
          refine ⟨pc, by simpa using hsel, rfl, ?_, by simpa using hbox⟩
          intro hnil
          rw [hnil] at hemp
          exact hemp rfl

/-- Focusing the camera leaves the snapshot list and the counter as they are. -/
theorem focusCameraOnPointCloud_viewports (lm : Libm R) (mw : MainWindow R) (name : String) :
    (focusCameraOnPointCloud lm mw name).m_viewportList = mw.m_viewportList ∧
      (focusCameraOnPointCloud lm mw name).s_viewportIndex = mw.s_viewportIndex := by
  unfold focusCameraOnPointCloud
  cases mw.m_pointClouds.lookup name <;> exact ⟨rfl, rfl⟩

/-- Loading a file leaves the snapshot list and the counter as they are. -/
theorem loadPointCloud_viewports (lm : Libm R) (mw : MainWindow R) (file : PtsFile R) :
    (loadPointCloud lm mw file).1.m_viewportList = mw.m_viewportList ∧
      (loadPointCloud lm mw file).1.s_viewportIndex = mw.s_viewportIndex := by
  unfold loadPointCloud
  by_cases he : file.points.isEmpty = true
  · simp only [he, if_true, and_self]
  · simp only [he]
    exact focusCameraOnPointCloud_viewports lm _ _

/-- Opening files leaves the snapshot list and the counter as they are. -/
theorem openFile_viewports (lm : Libm R) (files : List (PtsFile R)) :
    ∀ mw : MainWindow R, (openFile lm mw files).m_viewportList = mw.m_viewportList ∧
      (openFile lm mw files).s_viewportIndex = mw.s_viewportIndex := by
  induction files with
  | nil => intro mw; exact ⟨rfl, rfl⟩
  | cons file rest ih =>
    intro mw
    have h1 := loadPointCloud_viewports lm mw file
    have h2 := ih (loadPointCloud lm mw file).1
    exact ⟨h2.1.trans h1.1, h2.2.trans h1.2⟩

/-- Every operation either leaves the snapshot list and the counter as they are, or
is a successful save: it appends one snapshot named after the incremented counter. -/
theorem step_viewports (lm : Libm R) (mw : MainWindow R) (op : AppOp R) :
    ((step lm mw op).m_viewportList = mw.m_viewportList ∧
        (step lm mw op).s_viewportIndex = mw.s_viewportIndex) ∨
      ∃ (v : ViewportObject R) (n : String),
        (step lm mw op).m_viewportList = mw.m_viewportList ++ [v] ∧
        v.m_name = "Viewport #" ++ toString ((mw.s_viewportIndex + 1) % 2 ^ 32) ++ " - " ++ n ∧
        (step lm mw op).s_viewportIndex = (mw.s_viewportIndex + 1) % 2 ^ 32 := by
  cases op with
  | openFile files => exact Or.inl (openFile_viewports lm files mw)
  | click item =>
    left
    simp only [step, onItemClicked]
    split
    · exact focusCameraOnPointCloud_viewports lm _ _
    · exact ⟨rfl, rfl⟩
  | doubleClick item =>
    left
    cases item with
    | viewport v => exact ⟨rfl, rfl⟩
    | entityName name =>
      simp only [step, onItemDoubleClicked]
      split
      · exact focusCameraOnPointCloud_viewports lm _ _
      · exact ⟨rfl, rfl⟩
  | check name checked =>
    left
    simp only [step, onItemChanged]
    split <;> exact ⟨rfl, rfl⟩
  | resetView => exact Or.inl ⟨rfl, rfl⟩
  | saveViewport =>
    rcases saveViewportForSelectedEntity_cases lm mw with h | ⟨pc, hsel, hlook, hpts, hbox⟩
    · left
      simp only [step, h, and_self]
    · right
      obtain ⟨v, h1, h2, h3, _⟩ :=
        saveViewportForSelectedEntity_of_success lm mw pc hsel hlook hpts hbox
      exact ⟨v, _, h1, h2, h3⟩
  | input event => exact Or.inl ⟨rfl, rfl⟩
  | resize width height => exact Or.inl ⟨rfl, rfl⟩
  | paint => exact Or.inl ⟨rfl, rfl⟩

/-- The snapshot list only grows, at its end. -/
theorem run_viewportList_grows (lm : Libm R) (ops : List (AppOp R)) :
    ∀ mw : MainWindow R, ∃ rest : List (ViewportObject R),
      (run lm mw ops).m_viewportList = mw.m_viewportList ++ rest := by
  induction ops with
  | nil => intro mw; exact ⟨[], (List.append_nil _).symm⟩
  | cons op ops ih =>
    intro mw
    obtain ⟨rest, hrest⟩ := ih (step lm mw op)
    have hrun : run lm mw (op :: ops) = run lm (step lm mw op) ops := rfl
    rw [hrun, hrest]
    rcases step_viewports lm mw op with h | ⟨v, _, h, _⟩
    · exact ⟨rest, by rw [h.1]⟩
    · exact ⟨[v] ++ rest, by rw [h, List.append_assoc]⟩

/-- The selected entity of `tetraWindow` is `tetra.pts`. -/
theorem tetraWindow_selected :
    (getSelectedPointCloud (tetraWindow : MainWindow R)).isEmpty = false := by
  have hname : getSelectedPointCloud (tetraWindow : MainWindow R) = "tetra.pts" := by
    simp [getSelectedPointCloud, tetraWindow, mapContains, List.lookup]
  rw [hname]
  rfl

/-- The entity that `tetraWindow` holds under the selected name. -/
theorem tetraWindow_lookup :
    (tetraWindow : MainWindow R).m_pointClouds.lookup
        (getSelectedPointCloud (tetraWindow : MainWindow R)) =
      some (ptsCloud tetraPoints true (.ofFinite 0 0 0) (.ofFinite 2 2 2)) := by
  have hname : getSelectedPointCloud (tetraWindow : MainWindow R) = "tetra.pts" := by
    simp [getSelectedPointCloud, tetraWindow, mapContains, List.lookup]
  rw [hname]
  simp [tetraWindow, List.lookup]

/-- Scenario A's entity has points. -/
theorem tetraCloud_points :
    (ptsCloud (tetraPoints : List (QVector3D R)) true (.ofFinite 0 0 0)
      (.ofFinite 2 2 2)).points ≠ [] := by
  simp [ptsCloud, tetraPoints]

/-- The cached box of scenario A's entity has `min != max`. -/
theorem tetraCloud_box :
    QVector3D.beq
      (ptsCloud (tetraPoints : List (QVector3D R)) true (.ofFinite 0 0 0)
        (.ofFinite 2 2 2)).boundingBoxMin
      (ptsCloud (tetraPoints : List (QVector3D R)) true (.ofFinite 0 0 0)
        (.ofFinite 2 2 2)).boundingBoxMax = false :=
  PointCloudGLWidget.beq_ofFinite_false 0 0 0 2 2 2 (by norm_num)

/-- C14, the counterexample.  On the main window with scenario A's entity selected
and the camera at pitch 0, yaw 0 and fov 60, a save is not a pure capture: it
leaves the camera at pitch 40, yaw 40 and fov 30, and the new snapshot stores pitch
40, not the pitch 0 that the camera held when the save was invoked. -/
theorem save_moves_camera :
    (tetraWindow : MainWindow ℚ).m_glWidget.m_xRot = .finite 0 ∧
      (tetraWindow : MainWindow ℚ).m_glWidget.m_yRot = .finite 0 ∧
      (tetraWindow : MainWindow ℚ).m_glWidget.m_fov = .finite 60 ∧
      (saveViewportForSelectedEntity Libm.rational tetraWindow).m_glWidget.m_xRot =
        .finite 40 ∧
      (saveViewportForSelectedEntity Libm.rational tetraWindow).m_glWidget.m_yRot =
        .finite 40 ∧
      (saveViewportForSelectedEntity Libm.rational tetraWindow).m_glWidget.m_fov =
        .finite 30 ∧
      (saveViewportForSelectedEntity Libm.rational tetraWindow).m_glWidget.cameraState ≠
        (tetraWindow : MainWindow ℚ).m_glWidget.cameraState ∧
      (saveViewportForSelectedEntity Libm.rational tetraWindow).m_viewportList.map
          (fun v => v.m_params.xRot) = [.finite 40] := by
  obtain ⟨hx, hy, hf⟩ :=
    saveViewportForSelectedEntity_angles Libm.rational tetraWindow _ tetraWindow_selected
      tetraWindow_lookup tetraCloud_points tetraCloud_box
  obtain ⟨v, h1, _, _, h4, _⟩ :=
    saveViewportForSelectedEntity_of_success Libm.rational tetraWindow _ tetraWindow_selected
      tetraWindow_lookup tetraCloud_points tetraCloud_box
  refine ⟨rfl, rfl, rfl, hx, hy, hf, ?_, ?_⟩
  · intro h
    have h4 := congrArg (fun c => c.2.2.2.1) h
    simp only [PointCloudGLWidget.cameraState, hx] at h4
    have h0 : (tetraWindow : MainWindow ℚ).m_glWidget.m_xRot = .finite 0 := rfl
    rw [h0] at h4
    simp at h4
  · have hv : v.m_params.xRot = .finite 40 := by
      have := congrArg (fun c => c.2.2.2.1) h4
      simp only [ViewportObject.stored, PointCloudGLWidget.cameraState, hx] at this
      exact this
    rw [h1]
    simp [tetraWindow, hv]

/-- C14 as amended.  A save that passes its three tests (an entity is selected, it
has points, its box has `min != max`) first overwrites the seven camera fields with
values that do not depend on the camera before the call, and then captures: the one
snapshot it appends stores exactly the seven values the camera holds after the
call. -/
theorem save_reframes_then_captures (lm : Libm R) (mw : MainWindow R) (pc : PointCloud R)
    (hsel : (getSelectedPointCloud mw).isEmpty = false)
    (hlook : mw.m_pointClouds.lookup (getSelectedPointCloud mw) = some pc)
    (hpts : pc.points ≠ [])
    (hbox : QVector3D.beq pc.boundingBoxMin pc.boundingBoxMax = false) :
    ∃ v : ViewportObject R,
      (saveViewportForSelectedEntity lm mw).m_viewportList = mw.m_viewportList ++ [v] ∧
      v.stored = (saveViewportForSelectedEntity lm mw).m_glWidget.cameraState ∧
      ∀ w : PointCloudGLWidget R,
        (saveViewportForSelectedEntity lm { mw with m_glWidget := w }).m_glWidget.cameraState =
          (saveViewportForSelectedEntity lm mw).m_glWidget.cameraState := by
  obtain ⟨v, h1, _, _, h4, h5⟩ :=
    saveViewportForSelectedEntity_of_success lm mw pc hsel hlook hpts hbox
  exact ⟨v, h1, h4, h5⟩

/-- Witness of the amended C14 on the main window with scenario A's entity
selected. -/
theorem save_reframes_then_captures_witness :
    (getSelectedPointCloud (tetraWindow : MainWindow ℚ)).isEmpty = false ∧
      ∃ v : ViewportObject ℚ,
        (saveViewportForSelectedEntity Libm.rational tetraWindow).m_viewportList =
          (tetraWindow : MainWindow ℚ).m_viewportList ++ [v] ∧
        v.stored =
          (saveViewportForSelectedEntity Libm.rational tetraWindow).m_glWidget.cameraState ∧
        ∀ w : PointCloudGLWidget ℚ,
          (saveViewportForSelectedEntity Libm.rational
              { (tetraWindow : MainWindow ℚ) with m_glWidget := w }).m_glWidget.cameraState =
            (saveViewportForSelectedEntity Libm.rational tetraWindow).m_glWidget.cameraState :=
  ⟨tetraWindow_selected,
    save_reframes_then_captures Libm.rational tetraWindow _ tetraWindow_selected
      tetraWindow_lookup tetraCloud_points tetraCloud_box⟩

/-- C15. For the snapshot that a successful save appends and every sequence of later
operations (opening and focusing other entities, clicks, visibility changes, input
events, reset view, further saves, resizes, frames): the snapshot is still in the
list, and applying it, directly or by a double-click on its tree item, sets the
seven camera fields to the values stored in the snapshot, which are those the
camera held when the save returned. -/
theorem applyViewport_restores_saved (lm : Libm R) (mw : MainWindow R) (pc : PointCloud R)
    (hsel : (getSelectedPointCloud mw).isEmpty = false)
    (hlook : mw.m_pointClouds.lookup (getSelectedPointCloud mw) = some pc)
    (hpts : pc.points ≠ [])
    (hbox : QVector3D.beq pc.boundingBoxMin pc.boundingBoxMax = false)
    (ops : List (AppOp R)) :
    ∃ v : ViewportObject R,
      (saveViewportForSelectedEntity lm mw).m_viewportList = mw.m_viewportList ++ [v] ∧
      v.stored = (saveViewportForSelectedEntity lm mw).m_glWidget.cameraState ∧
      (∃ rest : List (ViewportObject R),
        (run lm (saveViewportForSelectedEntity lm mw) ops).m_viewportList =
          mw.m_viewportList ++ [v] ++ rest) ∧
      (v.applyViewport (run lm (saveViewportForSelectedEntity lm mw) ops).m_glWidget).cameraState =
        v.stored ∧
      (run lm (saveViewportForSelectedEntity lm mw)
          (ops ++ [.doubleClick (.viewport v)])).m_glWidget.cameraState =
        (saveViewportForSelectedEntity lm mw).m_glWidget.cameraState := by
  obtain ⟨v, h1, _, _, h4, _⟩ :=
    saveViewportForSelectedEntity_of_success lm mw pc hsel hlook hpts hbox
  obtain ⟨rest, hrest⟩ := run_viewportList_grows lm ops (saveViewportForSelectedEntity lm mw)
  refine ⟨v, h1, h4, ⟨rest, by rw [hrest, h1]⟩, rfl, ?_⟩
  rw [← h4]
  simp only [run, List.foldl_append, List.foldl_cons, List.foldl_nil]
  rfl

/-- Witness of C15: scenario A's entity is saved, then a second file is opened and
focused, the pointer is pressed, the view is reset, a frame is drawn and a second
viewport is saved. -/
theorem applyViewport_restores_saved_witness :
    (getSelectedPointCloud (tetraWindow : MainWindow ℚ)).isEmpty = false ∧
      ∃ v : ViewportObject ℚ,
        (saveViewportForSelectedEntity Libm.rational tetraWindow).m_viewportList =
          (tetraWindow : MainWindow ℚ).m_viewportList ++ [v] ∧
        v.stored =
          (saveViewportForSelectedEntity Libm.rational tetraWindow).m_glWidget.cameraState ∧
        (∃ rest : List (ViewportObject ℚ),
          (run Libm.rational (saveViewportForSelectedEntity Libm.rational tetraWindow)
              [.openFile [sphereFile], .click (.entityName "sphere.pts"),
                .input (.press (3, 4)), .resetView, .paint, .saveViewport]).m_viewportList =
            (tetraWindow : MainWindow ℚ).m_viewportList ++ [v] ++ rest) ∧
        (v.applyViewport
            (run Libm.rational (saveViewportForSelectedEntity Libm.rational tetraWindow)
              [.openFile [sphereFile], .click (.entityName "sphere.pts"),
                .input (.press (3, 4)), .resetView, .paint,
                .saveViewport]).m_glWidget).cameraState = v.stored ∧
        (run Libm.rational (saveViewportForSelectedEntity Libm.rational tetraWindow)
            ([.openFile [sphereFile], .click (.entityName "sphere.pts"),
                .input (.press (3, 4)), .resetView, .paint, .saveViewport] ++
              [.doubleClick (.viewport v)])).m_glWidget.cameraState =
          (saveViewportForSelectedEntity Libm.rational tetraWindow).m_glWidget.cameraState :=
  ⟨tetraWindow_selected,
    applyViewport_restores_saved Libm.rational tetraWindow _ tetraWindow_selected
      tetraWindow_lookup tetraCloud_points tetraCloud_box _⟩

end MainWindow

/-! ## Decimal rendering of the viewport index -/

/-- A decimal digit character decodes to the digit it renders. -/
theorem digitChar_toNat (k : Nat) (hk : k < 10) : (Nat.digitChar k).toNat - 48 = k := by
  interval_cases k <;> rfl

/-- A decimal digit character is not a space. -/
theorem digitChar_ne_space (k : Nat) (hk : k < 10) : Nat.digitChar k ≠ ' ' := by
  interval_cases k <;> decide

/-- Reading the decimal rendering back, most significant digit first, gives the
number. -/
theorem toDigitsCore_decode : ∀ (fuel n : Nat) (ds : List Char), n < fuel →
    (Nat.toDigitsCore 10 fuel n ds).foldl (fun acc c => 10 * acc + (c.toNat - 48)) 0 =
      ds.foldl (fun acc c => 10 * acc + (c.toNat - 48)) n := by
  intro fuel
  induction fuel with
  | zero => intro n ds h; exact absurd h (Nat.not_lt_zero n)
  | succ fuel ih =>
    intro n ds h
    have hd : (Nat.digitChar (n % 10)).toNat - 48 = n % 10 :=
      digitChar_toNat _ (Nat.mod_lt n (by decide))
    by_cases h0 : n / 10 = 0
    · have hn : n % 10 = n := by omega
      rw [hn] at hd
      simp only [Nat.toDigitsCore, h0, if_true, List.foldl_cons, hn, hd, Nat.mul_zero,
        Nat.zero_add]
    · have hlt : n / 10 < fuel := by omega
      simp only [Nat.toDigitsCore, h0, if_false]
      rw [ih (n / 10) _ hlt]
      simp only [List.foldl_cons, hd]
      have hn : 10 * (n / 10) + n % 10 = n := Nat.div_add_mod n 10
      rw [hn]

/-- The decimal rendering has no space. -/
theorem toDigitsCore_no_space : ∀ (fuel n : Nat) (ds : List Char), ' ' ∉ ds →
    ' ' ∉ Nat.toDigitsCore 10 fuel n ds := by
  intro fuel
  induction fuel with
  | zero => intro n ds h; exact h
  | succ fuel ih =>
    intro n ds h
    have hd : ' ' ∉ Nat.digitChar (n % 10) :: ds := by
      intro hmem
      rcases List.mem_cons.mp hmem with h1 | h1
      · exact digitChar_ne_space _ (Nat.mod_lt n (by decide)) h1.symm
      · exact h h1
    by_cases h0 : n / 10 = 0
    · simp only [Nat.toDigitsCore, h0, if_true]
      exact hd
    · simp only [Nat.toDigitsCore, h0, if_false]
      exact ih _ _ hd

/-- Two numbers with the same decimal rendering are equal. -/
theorem toDigits_injective (i j : Nat) (h : Nat.toDigits 10 i = Nat.toDigits 10 j) : i = j := by
  have hi := toDigitsCore_decode (i + 1) i [] (Nat.lt_succ_self i)
  have hj := toDigitsCore_decode (j + 1) j [] (Nat.lt_succ_self j)
  simp only [Nat.toDigits] at h
  rw [h, hj] at hi
  simpa using hi.symm

/-- A list is cut at the first occurrence of a character in one way only. -/
theorem cut_before_char_unique (c : Char) : ∀ (l1 l2 r1 r2 : List Char), c ∉ l1 → c ∉ l2 →
    l1 ++ c :: r1 = l2 ++ c :: r2 → l1 = l2 := by
  intro l1
  induction l1 with
  | nil =>
    intro l2 r1 r2 _ h2 h
    cases l2 with
    | nil => rfl
    | cons b l2 =>
      simp only [List.nil_append, List.cons_append, List.cons.injEq] at h
      exact absurd (h.1 ▸ List.mem_cons_self b l2) h2
  | cons a l1 ih =>
    intro l2 r1 r2 h1 h2 h
    cases l2 with
    | nil =>
      simp only [List.nil_append, List.cons_append, List.cons.injEq] at h
      exact absurd (h.1 ▸ List.mem_cons_self a l1) h1
    | cons b l2 =>
      simp only [List.cons_append, List.cons.injEq] at h
      rw [h.1, ih l2 r1 r2 (fun hm => h1 (List.mem_cons_of_mem a hm))
        (fun hm => h2 (List.mem_cons_of_mem b hm)) h.2]

/-- Two display names with different indices are different, whatever the entity
names. -/
theorem viewportName_index_injective (i j : Nat) (n m : String)
    (h : "Viewport #" ++ toString i ++ " - " ++ n = "Viewport #" ++ toString j ++ " - " ++ m) :
    i = j := by
  have hd := congrArg String.data h
  simp only [String.data_append, List.append_assoc] at hd
  have hd2 := List.append_cancel_left hd
  have hrepr : ∀ k : Nat, (toString k).data = Nat.toDigits 10 k := fun _ => rfl
  rw [hrepr, hrepr] at hd2
  simp only [List.cons_append] at hd2
  exact toDigits_injective i j
    (cut_before_char_unique ' ' _ _ _ _
      (toDigitsCore_no_space _ _ _ (List.not_mem_nil _))
      (toDigitsCore_no_space _ _ _ (List.not_mem_nil _)) hd2)

namespace MainWindow
variable {R : Type} [LinearOrderedField R]

/-! ## Viewport indices and display names (C17) -/

/-- Each operation adds at most one snapshot. -/
theorem run_viewportList_length_le (lm : Libm R) (ops : List (AppOp R)) :
    ∀ mw : MainWindow R,
      (run lm mw ops).m_viewportList.length ≤ mw.m_viewportList.length + ops.length := by
  induction ops with
  | nil => intro mw; exact Nat.le_refl _
  | cons op ops ih =>
    intro mw
    have hrun : run lm mw (op :: ops) = run lm (step lm mw op) ops := rfl
    have h1 := ih (step lm mw op)
    have h2 : (step lm mw op).m_viewportList.length ≤ mw.m_viewportList.length + 1 := by
      rcases step_viewports lm mw op with h | ⟨v, _, h, _⟩
      · rw [h.1]
        exact Nat.le_succ _
      · rw [h]
        simp
    rw [hrun]
    simp only [List.length_cons]
    omega

/-- In a session that starts with no snapshot and the counter at 0, and makes fewer
than `2^32` snapshots, the counter is the number of snapshots and the snapshot at
position `k` (from 0) is named with the index `k + 1`. -/
theorem run_viewport_invariant (lm : Libm R) (mw0 : MainWindow R)
    (h0 : mw0.m_viewportList = []) (hi : mw0.s_viewportIndex = 0) (ops : List (AppOp R)) :
    (run lm mw0 ops).m_viewportList.length < 2 ^ 32 →
      (run lm mw0 ops).s_viewportIndex = (run lm mw0 ops).m_viewportList.length ∧
        ∀ (k : Nat) (v : ViewportObject R), (run lm mw0 ops).m_viewportList[k]? = some v →
          ∃ n : String, v.m_name = "Viewport #" ++ toString (k + 1) ++ " - " ++ n := by
  induction ops using List.reverseRecOn with
  | nil =>
    intro _
    simp only [run, List.foldl_nil, h0, hi, List.length_nil, true_and]
    intro k v hk
    simp at hk
  | append_singleton ops op ih =>
    have hrun : run lm mw0 (ops ++ [op]) = step lm (run lm mw0 ops) op := by
      simp only [run, List.foldl_append, List.foldl_cons, List.foldl_nil]
    rw [hrun]
    intro hlen
    rcases step_viewports lm (run lm mw0 ops) op with h | ⟨v, n, hl, hname, hidx⟩
    · rw [h.1] at hlen ⊢
      rw [h.2]
      exact ih hlen
    · rw [hl] at hlen ⊢
      rw [hidx]
      simp only [List.length_append, List.length_singleton] at hlen ⊢
      obtain ⟨ihi, ihn⟩ := ih (by omega)
      rw [ihi] at hname ⊢
      have hmod : ((run lm mw0 ops).m_viewportList.length + 1) % 2 ^ 32 =
          (run lm mw0 ops).m_viewportList.length + 1 := Nat.mod_eq_of_lt hlen
      rw [hmod] at hname
      refine ⟨hmod, ?_⟩
      intro k u hk
      by_cases hlt : k < (run lm mw0 ops).m_viewportList.length
      · rw [List.getElem?_append_left hlt] at hk
        exact ihn k u hk
      · have hge : (run lm mw0 ops).m_viewportList.length ≤ k := Nat.le_of_not_lt hlt
        rw [List.getElem?_append_right hge] at hk
        have hk0 : k - (run lm mw0 ops).m_viewportList.length = 0 := by
          by_contra hne
          obtain ⟨j, hj⟩ := Nat.exists_eq_succ_of_ne_zero hne
          rw [hj] at hk
          simp at hk
        rw [hk0] at hk
        simp only [List.getElem?_cons_zero, Option.some.injEq] at hk
        have hkeq : k = (run lm mw0 ops).m_viewportList.length := by omega
        rw [← hk, hkeq]
        exact ⟨n, hname⟩

/-- A save leaves the entity map and the current tree item as they are, so the
selected entity is the same after it. -/
theorem saveViewportForSelectedEntity_selection (lm : Libm R) (mw : MainWindow R) :
    (saveViewportForSelectedEntity lm mw).m_pointClouds = mw.m_pointClouds ∧
      getSelectedPointCloud (saveViewportForSelectedEntity lm mw) = getSelectedPointCloud mw := by
  rcases saveViewportForSelectedEntity_cases lm mw with h | ⟨pc, hsel, hlook, hpts, hbox⟩
  · rw [h]
    exact ⟨rfl, rfl⟩
  · have hemp : pc.points.isEmpty = false := by
      cases hp : pc.points with
      | nil => exact absurd hp hpts
      | cons a l => rfl
    have hmap : (saveViewportForSelectedEntity lm mw).m_pointClouds = mw.m_pointClouds := by
      simp only [saveViewportForSelectedEntity, hsel, hlook, hemp, hbox, Bool.false_eq_true,
        if_false]
    have hcur : (saveViewportForSelectedEntity lm mw).m_treeWidget.currentItem =
        mw.m_treeWidget.currentItem := by
      simp only [saveViewportForSelectedEntity, hsel, hlook, hemp, hbox, Bool.false_eq_true,
        if_false]
    exact ⟨hmap, by simp only [getSelectedPointCloud, hmap, hcur]⟩

/-- Two saves in a row on `tetraWindow` give the snapshots `Viewport #1 - tetra.pts`
and `Viewport #2 - tetra.pts`. -/
theorem tetraWindow_two_saves (lm : Libm R) :
    (run lm (tetraWindow : MainWindow R) [.saveViewport, .saveViewport]).m_viewportList.map
        ViewportObject.getName =
      ["Viewport #1 - tetra.pts", "Viewport #2 - tetra.pts"] := by
  have hname : getSelectedPointCloud (tetraWindow : MainWindow R) = "tetra.pts" := by
    simp [getSelectedPointCloud, tetraWindow, mapContains, List.lookup]
  obtain ⟨v1, hl1, hn1, hi1, _⟩ := saveViewportForSelectedEntity_of_success lm tetraWindow _
    tetraWindow_selected tetraWindow_lookup tetraCloud_points tetraCloud_box
  obtain ⟨hmap, hsel⟩ := saveViewportForSelectedEntity_selection lm (tetraWindow : MainWindow R)
  obtain ⟨v2, hl2, hn2, _⟩ := saveViewportForSelectedEntity_of_success lm
    (saveViewportForSelectedEntity lm tetraWindow) _
    (by rw [hsel]; exact tetraWindow_selected)
    (by rw [hsel, hmap]; exact tetraWindow_lookup) tetraCloud_points tetraCloud_box
  have hrun : run lm (tetraWindow : MainWindow R) [.saveViewport, .saveViewport] =
      saveViewportForSelectedEntity lm (saveViewportForSelectedEntity lm tetraWindow) := rfl
  have h0 : (tetraWindow : MainWindow R).s_viewportIndex = 0 := rfl
  have h0l : (tetraWindow : MainWindow R).m_viewportList = [] := rfl
  rw [hrun, hl2, hl1, h0l]
  rw [hi1, hsel, hname, h0] at hn2
  rw [hname, h0] at hn1
  simp only [List.nil_append, List.map_cons, List.map_nil, List.cons_append,
    ViewportObject.getName, hn1, hn2]
  decide

/-- C17. In a session that starts with no snapshot and the counter at 0 and makes
fewer than `2^32` snapshots: the counter equals the number of snapshots, so each
successful save takes the next index; the `k`-th snapshot, counting from 1, is named
`Viewport #k - <entity name>`; no two snapshots of the list have the same display
name; and a further save either is rejected and leaves the whole state, counter
included, as it was, or appends one snapshot and increments the counter. -/
theorem viewport_names_sequential (lm : Libm R) (mw0 : MainWindow R)
    (h0 : mw0.m_viewportList = []) (hi : mw0.s_viewportIndex = 0) (ops : List (AppOp R))
    (hlen : (run lm mw0 ops).m_viewportList.length < 2 ^ 32) :
    (run lm mw0 ops).s_viewportIndex = (run lm mw0 ops).m_viewportList.length ∧
      (∀ (k : Nat) (v : ViewportObject R), (run lm mw0 ops).m_viewportList[k]? = some v →
        ∃ n : String, v.getName = "Viewport #" ++ toString (k + 1) ++ " - " ++ n) ∧
      ((run lm mw0 ops).m_viewportList.map ViewportObject.getName).Nodup ∧
      (saveViewportForSelectedEntity lm (run lm mw0 ops) = run lm mw0 ops ∨
        ((saveViewportForSelectedEntity lm (run lm mw0 ops)).m_viewportList.length =
            (run lm mw0 ops).m_viewportList.length + 1 ∧
          (saveViewportForSelectedEntity lm (run lm mw0 ops)).s_viewportIndex =
            ((run lm mw0 ops).s_viewportIndex + 1) % 2 ^ 32)) := by
  obtain ⟨hidx, hnames⟩ := run_viewport_invariant lm mw0 h0 hi ops hlen
  refine ⟨hidx, hnames, ?_, ?_⟩
  · rw [List.nodup_iff_getElem?_ne_getElem?]
    intro i j hij hj heq
    rw [List.length_map] at hj
    have hi2 : i < (run lm mw0 ops).m_viewportList.length := Nat.lt_trans hij hj
    simp only [List.getElem?_map, List.getElem?_eq_getElem hi2, List.getElem?_eq_getElem hj,
      Option.map_some', Option.some.injEq] at heq
    obtain ⟨n, hn⟩ := hnames i _ (List.getElem?_eq_getElem hi2)
    obtain ⟨m, hm⟩ := hnames j _ (List.getElem?_eq_getElem hj)
    simp only [ViewportObject.getName] at heq
    rw [hn, hm] at heq
    have := viewportName_index_injective _ _ _ _ heq
    omega
  · rcases saveViewportForSelectedEntity_cases lm (run lm mw0 ops) with
      h | ⟨pc, hsel, hlook, hpts, hbox⟩
    · exact Or.inl h
    · right
      obtain ⟨v, h1, _, h3, _⟩ :=
        saveViewportForSelectedEntity_of_success lm (run lm mw0 ops) pc hsel hlook hpts hbox
      exact ⟨by rw [h1]; simp, h3⟩

/-- Witness of C17: two saves in a row on the main window with scenario A's entity
selected. -/
theorem viewport_names_sequential_witness :
    (run Libm.rational (tetraWindow : MainWindow ℚ)
        [.saveViewport, .saveViewport]).m_viewportList.length < 2 ^ 32 ∧
      (run Libm.rational (tetraWindow : MainWindow ℚ)
          [.saveViewport, .saveViewport]).s_viewportIndex =
        (run Libm.rational (tetraWindow : MainWindow ℚ)
          [.saveViewport, .saveViewport]).m_viewportList.length ∧
      ((run Libm.rational (tetraWindow : MainWindow ℚ)
        [.saveViewport, .saveViewport]).m_viewportList.map ViewportObject.getName).Nodup := by
  have hlen : (run Libm.rational (tetraWindow : MainWindow ℚ)
      [.saveViewport, .saveViewport]).m_viewportList.length < 2 ^ 32 :=
    Nat.lt_of_le_of_lt (run_viewportList_length_le Libm.rational _ _) (by decide)
  have h := viewport_names_sequential Libm.rational tetraWindow rfl rfl _ hlen
  exact ⟨hlen, h.1, h.2.2.1⟩

end MainWindow

namespace PointCloudGLWidget
variable {R : Type} [LinearOrderedField R]

/-! ## The tight box of a point list (C21) -/

omit [LinearOrderedField R] in
/-- A vector with finite coordinates has no `NaN`. -/
theorem noNaN_of_isFinite {p : QVector3D R} (h : p.IsFinite) : p.NoNaN := by
  obtain ⟨a, b, c, rfl⟩ := h
  exact ⟨by simp, by simp, by simp⟩

/-- A vector in the `float` range has finite coordinates. -/
theorem isFinite_of_inFloatRange {p : QVector3D R} (h : p.InFloatRange) : p.IsFinite := by
  obtain ⟨a, b, c, rfl, _⟩ := h
  exact ⟨a, b, c, rfl⟩

omit [LinearOrderedField R] in
/-- A point found among the points seen so far is found after one more point. -/
theorem attained_append (f : QVector3D R → FloatVal R) {seen : List (QVector3D R)}
    (q : QVector3D R) {old new : FloatVal R} (hold : ∃ p ∈ seen, f p = old)
    (h : new = old ∨ new = f q) : ∃ p ∈ seen ++ [q], f p = new := by
  rcases h with h | h
  · obtain ⟨p, hp, hpe⟩ := hold
    exact ⟨p, List.mem_append_left _ hp, hpe.trans h.symm⟩
  · exact ⟨q, List.mem_append_right _ (List.mem_singleton_self q), h.symm⟩

/-- On finite values `qMin` returns one of its arguments. -/
theorem qMin_finite_choice (a b : R) :
    FloatVal.qMin (.finite a) (.finite b) = .finite a ∨
      FloatVal.qMin (.finite a) (.finite b) = (.finite b : FloatVal R) := by
  rw [FloatVal.qMin_finite]
  rcases min_choice a b with h | h <;> rw [h] <;> simp

/-- On finite values `qMax` returns one of its arguments. -/
theorem qMax_finite_choice (a b : R) :
    FloatVal.qMax (.finite a) (.finite b) = .finite a ∨
      FloatVal.qMax (.finite a) (.finite b) = (.finite b : FloatVal R) := by
  rw [FloatVal.qMax_finite]
  rcases max_choice a b with h | h <;> rw [h] <;> simp

/-- One widening step keeps the box tight: the tight box of the points seen so far,
widened by a finite point, is the tight box of the points with that point added. -/
theorem extendBox_tight {seen : List (QVector3D R)} {box : QVector3D R × QVector3D R}
    {q : QVector3D R} (ht : TightBox seen box) (h1 : box.1.IsFinite) (h2 : box.2.IsFinite)
    (hq : q.IsFinite) : TightBox (seen ++ [q]) (extendBox box q) := by
  obtain ⟨hin, hx1, hy1, hz1, hx2, hy2, hz2⟩ := ht
  obtain ⟨_, hw, hqin⟩ := @extendBox_spec R _ box q
    ⟨noNaN_of_isFinite h1, noNaN_of_isFinite h2⟩ (noNaN_of_isFinite hq)
  obtain ⟨a1, a2, a3, ha⟩ := h1
  obtain ⟨b1, b2, b3, hb⟩ := h2
  obtain ⟨q1, q2, q3, hqe⟩ := hq
  have hax : box.1.x = .finite a1 := by rw [ha]
  have hay : box.1.y = .finite a2 := by rw [ha]
  have haz : box.1.z = .finite a3 := by rw [ha]
  have hbx : box.2.x = .finite b1 := by rw [hb]
  have hby : box.2.y = .finite b2 := by rw [hb]
  have hbz : box.2.z = .finite b3 := by rw [hb]
  have hqx : q.x = .finite q1 := by rw [hqe]
  have hqy : q.y = .finite q2 := by rw [hqe]
  have hqz : q.z = .finite q3 := by rw [hqe]
  refine ⟨?_, ?_, ?_, ?_, ?_, ?_, ?_⟩
  · intro p hp
    rcases List.mem_append.mp hp with h | h
    · exact inBox_of_widens hw (hin p h)
    · rw [List.mem_singleton.mp h]
      exact hqin
  · exact attained_append (fun p => p.x) q hx1
      (by simp only [extendBox, hax, hqx]; exact qMin_finite_choice a1 q1)
  · exact attained_append (fun p => p.y) q hy1
      (by simp only [extendBox, hay, hqy]; exact qMin_finite_choice a2 q2)
  · exact attained_append (fun p => p.z) q hz1
      (by simp only [extendBox, haz, hqz]; exact qMin_finite_choice a3 q3)
  · exact attained_append (fun p => p.x) q hx2
      (by simp only [extendBox, hbx, hqx]; exact qMax_finite_choice b1 q1)
  · exact attained_append (fun p => p.y) q hy2
      (by simp only [extendBox, hby, hqy]; exact qMax_finite_choice b2 q2)
  · exact attained_append (fun p => p.z) q hz2
      (by simp only [extendBox, hbz, hqz]; exact qMax_finite_choice b3 q3)

/-- The widening loop keeps the box tight. -/
theorem foldl_extendBox_tight (pts : List (QVector3D R)) :
    ∀ (seen : List (QVector3D R)) (box : QVector3D R × QVector3D R), TightBox seen box →
      box.1.IsFinite → box.2.IsFinite → (∀ p ∈ pts, p.IsFinite) →
      TightBox (seen ++ pts) (pts.foldl extendBox box) := by
  induction pts with
  | nil =>
    intro seen box ht _ _ _
    rw [List.append_nil]
    exact ht
  | cons q rest ih =>
    intro seen box ht h1 h2 hpts
    have hq := hpts q (List.mem_cons_self q rest)
    obtain ⟨s1, s2⟩ := extendBox_finite h1 h2 hq
    have := ih (seen ++ [q]) (extendBox box q) (extendBox_tight ht h1 h2 hq) s1 s2
      (fun p hp => hpts p (List.mem_cons_of_mem q hp))
    rw [List.append_assoc] at this
    exact this

/-- Widening the starting box `(FLT_MAX, -FLT_MAX)` by a point in the `float` range
gives the box that is this point. -/
theorem extendBox_start {q : QVector3D R} (hq : q.InFloatRange) :
    extendBox (QVector3D.ofFinite FloatVal.fltMax FloatVal.fltMax FloatVal.fltMax,
      QVector3D.ofFinite (-FloatVal.fltMax) (-FloatVal.fltMax) (-FloatVal.fltMax)) q =
      (q, q) := by
  obtain ⟨a, b, c, rfl, ha, hb, hc⟩ := hq
  have ha2 := abs_le.mp ha
  have hb2 := abs_le.mp hb
  have hc2 := abs_le.mp hc
  simp only [extendBox, QVector3D.ofFinite, FloatVal.qMin_finite, FloatVal.qMax_finite,
    min_eq_right ha2.2, min_eq_right hb2.2, min_eq_right hc2.2, max_eq_right ha2.1,
    max_eq_right hb2.1, max_eq_right hc2.1]

/-- The box that the loader's loop computes for a non-empty list of points in the
`float` range is their tight box. -/
theorem foldl_extendBox_start_tight (pts : List (QVector3D R)) (hne : pts ≠ [])
    (hfin : ∀ p ∈ pts, p.InFloatRange) :
    TightBox pts (pts.foldl extendBox
      (QVector3D.ofFinite FloatVal.fltMax FloatVal.fltMax FloatVal.fltMax,
        QVector3D.ofFinite (-FloatVal.fltMax) (-FloatVal.fltMax) (-FloatVal.fltMax))) := by
  cases pts with
  | nil => exact absurd rfl hne
  | cons q rest =>
    have hq := hfin q (List.mem_cons_self q rest)
    have hqf := isFinite_of_inFloatRange hq
    obtain ⟨hx, hy, hz⟩ := noNaN_of_isFinite hqf
    have h0 : TightBox [q] (q, q) := by
      refine ⟨?_, ⟨q, List.mem_singleton_self q, rfl⟩, ⟨q, List.mem_singleton_self q, rfl⟩,
        ⟨q, List.mem_singleton_self q, rfl⟩, ⟨q, List.mem_singleton_self q, rfl⟩,
        ⟨q, List.mem_singleton_self q, rfl⟩, ⟨q, List.mem_singleton_self q, rfl⟩⟩
      intro p hp
      rw [List.mem_singleton.mp hp]
      exact ⟨⟨FloatVal.le_refl_val hx, FloatVal.le_refl_val hx⟩,
        ⟨FloatVal.le_refl_val hy, FloatVal.le_refl_val hy⟩,
        ⟨FloatVal.le_refl_val hz, FloatVal.le_refl_val hz⟩⟩
    rw [List.foldl_cons, extendBox_start hq]
    exact foldl_extendBox_tight rest [q] (q, q) h0 hqf hqf
      (fun p hp => isFinite_of_inFloatRange (hfin p (List.mem_cons_of_mem q hp)))

end PointCloudGLWidget

namespace MainWindow
variable {R : Type} [LinearOrderedField R]

omit [LinearOrderedField R] in
/-- After `m[name] = pc` the map holds `pc` under `name`. -/
theorem lookup_mapInsert (name : String) (pc : PointCloud R) :
    ∀ m : List (String × PointCloud R), (mapInsert m name pc).lookup name = some pc := by
  intro m
  induction m with
  | nil => simp [mapInsert, List.lookup]
  | cons kv rest ih =>
    obtain ⟨k, v⟩ := kv
    by_cases h1 : name = k
    · simp [mapInsert, h1, List.lookup]
    · by_cases h2 : name < k
      · simp [mapInsert, h1, h2, List.lookup]
      · simp only [mapInsert, h1, h2, if_false, List.lookup]
        have hb : (name == k) = false := by simpa using h1
        rw [hb]
        exact ih

/-- Focusing the camera leaves the entity map as it is. -/
theorem focusCameraOnPointCloud_pointClouds (lm : Libm R) (mw : MainWindow R) (name : String) :
    (focusCameraOnPointCloud lm mw name).m_pointClouds = mw.m_pointClouds := by
  unfold focusCameraOnPointCloud
  cases mw.m_pointClouds.lookup name <;> rfl

/-- C21. For every non-empty point list with finite `float` coordinates, the box
that `loadPointCloud` caches on the entity is the tight axis-aligned box of the
points: every point lies in `[boundingBoxMin, boundingBoxMax]` in each of x, y, z,
and each of the six bounds is the matching coordinate of some point of the list. -/
theorem loadPointCloud_box_tight (lm : Libm R) (mw : MainWindow R) (file : PtsFile R)
    (hne : file.points ≠ []) (hfin : ∀ p ∈ file.points, p.InFloatRange) :
    (loadPointCloud lm mw file).2 = true ∧
      ∃ pc : PointCloud R,
        (loadPointCloud lm mw file).1.m_pointClouds.lookup file.name = some pc ∧
        pc.points = file.points ∧
        TightBox pc.points (pc.boundingBoxMin, pc.boundingBoxMax) := by
  have hemp : file.points.isEmpty = false := by
    cases hp : file.points with
    | nil => exact absurd hp hne
    | cons a l => rfl
  simp only [loadPointCloud, hemp, Bool.false_eq_true, if_false, true_and,
    focusCameraOnPointCloud_pointClouds, lookup_mapInsert]
  exact ⟨_, rfl, rfl, PointCloudGLWidget.foldl_extendBox_start_tight file.points hne hfin⟩

/-- Witness of C21 on scenario A's file, loaded into the initial main window. -/
theorem loadPointCloud_box_tight_witness :
    (tetraFile : PtsFile ℚ).points ≠ [] ∧
      ∃ pc : PointCloud ℚ,
        (loadPointCloud Libm.rational (init 1024 768) tetraFile).1.m_pointClouds.lookup
          (tetraFile : PtsFile ℚ).name = some pc ∧
        pc.points = (tetraFile : PtsFile ℚ).points ∧
        TightBox pc.points (pc.boundingBoxMin, pc.boundingBoxMax) := by
  have hne : (tetraFile : PtsFile ℚ).points ≠ [] := by simp [tetraFile, tetraPoints]
  have hfin : ∀ p ∈ (tetraFile : PtsFile ℚ).points, p.InFloatRange := by
    intro p hp
    simp only [tetraFile, tetraPoints, List.mem_cons, List.mem_singleton, List.not_mem_nil,
      or_false] at hp
    rcases hp with rfl | rfl | rfl | rfl <;>
      exact ⟨_, _, _, rfl, by norm_num [FloatVal.fltMax], by norm_num [FloatVal.fltMax],
        by norm_num [FloatVal.fltMax]⟩
  exact ⟨hne, (loadPointCloud_box_tight Libm.rational (init 1024 768) tetraFile hne hfin).2⟩

end MainWindow

namespace PointCloudGLWidget
variable {R : Type} [LinearOrderedField R]

/-! ## Framing the scene and framing its only entity (C28) -/

/-- Two values, each the coordinate of a point of the list and each a lower bound
of that coordinate over the list, are equal. -/
theorem attained_bound_unique (f : QVector3D R → FloatVal R) {pts : List (QVector3D R)}
    (hfin : ∀ p ∈ pts, ∃ a : R, f p = .finite a) {u v : FloatVal R}
    (hu : ∃ p ∈ pts, f p = u) (hv : ∃ p ∈ pts, f p = v)
    (hule : ∀ p ∈ pts, u ≤ f p) (hvle : ∀ p ∈ pts, v ≤ f p) : u = v := by
  obtain ⟨p, hp, rfl⟩ := hu
  obtain ⟨q, hq, rfl⟩ := hv
  obtain ⟨a, ha⟩ := hfin p hp
  obtain ⟨b, hb⟩ := hfin q hq
  have h1 := hule q hq
  have h2 := hvle p hp
  rw [ha, hb] at h1 h2 ⊢
  rw [FloatVal.finite_le_iff] at h1 h2
  rw [le_antisymm h1 h2]

/-- Two values, each the coordinate of a point of the list and each an upper bound
of that coordinate over the list, are equal. -/
theorem attained_upper_unique (f : QVector3D R → FloatVal R) {pts : List (QVector3D R)}
    (hfin : ∀ p ∈ pts, ∃ a : R, f p = .finite a) {u v : FloatVal R}
    (hu : ∃ p ∈ pts, f p = u) (hv : ∃ p ∈ pts, f p = v)
    (hule : ∀ p ∈ pts, f p ≤ u) (hvle : ∀ p ∈ pts, f p ≤ v) : u = v := by
  obtain ⟨p, hp, rfl⟩ := hu
  obtain ⟨q, hq, rfl⟩ := hv
  obtain ⟨a, ha⟩ := hfin p hp
  obtain ⟨b, hb⟩ := hfin q hq
  have h1 := hule q hq
  have h2 := hvle p hp
  rw [ha, hb] at h1 h2 ⊢
  rw [FloatVal.finite_le_iff] at h1 h2
  rw [le_antisymm h2 h1]

/-- A list of points with finite coordinates has at most one tight box. -/
theorem tightBox_unique {pts : List (QVector3D R)} {b1 b2 : QVector3D R × QVector3D R}
    (hfin : ∀ p ∈ pts, p.IsFinite) (h1 : TightBox pts b1) (h2 : TightBox pts b2) : b1 = b2 := by
  obtain ⟨hin1, x1, y1, z1, u1, v1, w1⟩ := h1
  obtain ⟨hin2, x2, y2, z2, u2, v2, w2⟩ := h2
  have fx : ∀ p ∈ pts, ∃ a : R, p.x = .finite a := by
    intro p hp
    obtain ⟨a, b, c, rfl⟩ := hfin p hp
    exact ⟨a, rfl⟩
  have fy : ∀ p ∈ pts, ∃ a : R, p.y = .finite a := by
    intro p hp
    obtain ⟨a, b, c, rfl⟩ := hfin p hp
    exact ⟨b, rfl⟩
  have fz : ∀ p ∈ pts, ∃ a : R, p.z = .finite a := by
    intro p hp
    obtain ⟨a, b, c, rfl⟩ := hfin p hp
    exact ⟨c, rfl⟩
  have e1 := attained_bound_unique (fun p => p.x) fx x1 x2 (fun p hp => (hin1 p hp).1.1)
    (fun p hp => (hin2 p hp).1.1)
  have e2 := attained_bound_unique (fun p => p.y) fy y1 y2 (fun p hp => (hin1 p hp).2.1.1)
    (fun p hp => (hin2 p hp).2.1.1)
  have e3 := attained_bound_unique (fun p => p.z) fz z1 z2 (fun p hp => (hin1 p hp).2.2.1)
    (fun p hp => (hin2 p hp).2.2.1)
  have e4 := attained_upper_unique (fun p => p.x) fx u1 u2 (fun p hp => (hin1 p hp).1.2)
    (fun p hp => (hin2 p hp).1.2)
  have e5 := attained_upper_unique (fun p => p.y) fy v1 v2 (fun p hp => (hin1 p hp).2.1.2)
    (fun p hp => (hin2 p hp).2.1.2)
  have e6 := attained_upper_unique (fun p => p.z) fz w1 w2 (fun p hp => (hin1 p hp).2.2.2)
    (fun p hp => (hin2 p hp).2.2.2)
  obtain ⟨⟨a1, a2, a3⟩, ⟨a4, a5, a6⟩⟩ := b1
  obtain ⟨⟨c1, c2, c3⟩, ⟨c4, c5, c6⟩⟩ := b2
  simp only at e1 e2 e3 e4 e5 e6
  rw [e1, e2, e3, e4, e5, e6]

/-- The model matrix that `resetView` stores is the framing matrix of the scene
extents. -/
theorem resetView_model (lm : Libm R) (w : PointCloudGLWidget R) :
    (w.resetView lm).m_model =
      framingModel ((w.calculateSceneExtents.1 + w.calculateSceneExtents.2).scaleBy
        (.finite (1 / 2))) (w.calculateSceneExtents.2 - w.calculateSceneExtents.1) := rfl

/-- The scene extents of a scene whose only visible non-empty entity is `pc` are the
box that the widening loop computes over the points of `pc`. -/
theorem calculateSceneExtents_single (w : PointCloudGLWidget R) (name : String)
    (pc : PointCloud R)
    (hone : w.m_pointClouds.filter (fun kv => kv.2.contributes) = [(name, pc)]) :
    w.calculateSceneExtents = pc.points.foldl extendBox
      (QVector3D.ofFinite FloatVal.fltMax FloatVal.fltMax FloatVal.fltMax,
        QVector3D.ofFinite (-FloatVal.fltMax) (-FloatVal.fltMax) (-FloatVal.fltMax)) := by
  have hmap : (w.m_pointClouds.map Prod.snd).filter PointCloud.contributes = [pc] := by
    have : (w.m_pointClouds.map Prod.snd).filter PointCloud.contributes =
        (w.m_pointClouds.filter (fun kv => kv.2.contributes)).map Prod.snd := by
      rw [List.filter_map]
      rfl
    rw [this, hone]
    rfl
  have hc : pc.contributes = true := by
    have hmem : (name, pc) ∈ w.m_pointClouds.filter (fun kv => kv.2.contributes) := by
      rw [hone]
      exact List.mem_singleton_self _
    exact (List.mem_filter.mp hmem).2
  simp only [calculateSceneExtents]
  rw [foldl_extentsStep_filter (w.m_pointClouds.map Prod.snd), hmap]
  simp only [List.foldl_cons, List.foldl_nil, extentsStep_of_contributes _ pc hc, Bool.not_true,
    Bool.false_eq_true, if_false]

/-- C28. In a scene whose only visible non-empty entity is `pc`, stored under `name`,
with points of finite `float` coordinates and a cached bounding box that is the
tight box of its points, the model matrix that `resetView` computes from the scene
extents equals the model matrix that `setFocusOnPointCloud` computes from the
cached box. -/
theorem resetView_model_eq_focus_model (lm : Libm R) (w : PointCloudGLWidget R)
    (name : String) (pc : PointCloud R)
    (hone : w.m_pointClouds.filter (fun kv => kv.2.contributes) = [(name, pc)])
    (hlook : w.m_pointClouds.lookup name = some pc)
    (hfin : ∀ p ∈ pc.points, p.InFloatRange)
    (htight : TightBox pc.points (pc.boundingBoxMin, pc.boundingBoxMax)) :
    (w.resetView lm).m_model =
      (w.setFocusOnPointCloud lm name pc.boundingBoxMin pc.boundingBoxMax).m_model := by
  have hc : pc.contributes = true := by
    have hmem : (name, pc) ∈ w.m_pointClouds.filter (fun kv => kv.2.contributes) := by
      rw [hone]
      exact List.mem_singleton_self _
    exact (List.mem_filter.mp hmem).2
  have hemp : pc.points.isEmpty = false := by
    simp only [PointCloud.contributes, Bool.and_eq_true, Bool.not_eq_true'] at hc
    exact hc.2
  have hne : pc.points ≠ [] := by
    intro h
    rw [h] at hemp
    exact absurd hemp (by simp)
  have hext : w.calculateSceneExtents = (pc.boundingBoxMin, pc.boundingBoxMax) := by
    rw [calculateSceneExtents_single w name pc hone]
    exact tightBox_unique (fun p hp => isFinite_of_inFloatRange (hfin p hp))
      (foldl_extendBox_start_tight pc.points hne hfin) htight
  rw [resetView_model, hext, setFocusOnPointCloud_of_lookup lm w name pc _ _ hlook hemp]

/-- Witness of C28 on scenario A. -/
theorem resetView_model_eq_focus_model_witness :
    TightBox (tetraPoints : List (QVector3D ℚ))
        (QVector3D.ofFinite 0 0 0, QVector3D.ofFinite 2 2 2) ∧
      ((tetraScene : PointCloudGLWidget ℚ).resetView Libm.rational).m_model =
        ((tetraScene : PointCloudGLWidget ℚ).setFocusOnPointCloud Libm.rational "tetra.pts"
          (.ofFinite 0 0 0) (.ofFinite 2 2 2)).m_model := by
  have hfin : ∀ p ∈ (tetraPoints : List (QVector3D ℚ)), p.InFloatRange := by
    intro p hp
    simp only [tetraPoints, List.mem_cons, List.mem_singleton, List.not_mem_nil,
      or_false] at hp
    rcases hp with rfl | rfl | rfl | rfl <;>
      exact ⟨_, _, _, rfl, by norm_num [FloatVal.fltMax], by norm_num [FloatVal.fltMax],
        by norm_num [FloatVal.fltMax]⟩
  have htight : TightBox (tetraPoints : List (QVector3D ℚ))
      (QVector3D.ofFinite 0 0 0, QVector3D.ofFinite 2 2 2) := by
    refine ⟨?_, ⟨.ofFinite 0 0 0, by simp [tetraPoints], rfl⟩,
      ⟨.ofFinite 0 0 0, by simp [tetraPoints], rfl⟩,
      ⟨.ofFinite 0 0 0, by simp [tetraPoints], rfl⟩,
      ⟨.ofFinite 2 0 0, by simp [tetraPoints], rfl⟩,
      ⟨.ofFinite 0 2 0, by simp [tetraPoints], rfl⟩,
      ⟨.ofFinite 0 0 2, by simp [tetraPoints], rfl⟩⟩
    intro p hp
    simp only [tetraPoints, List.mem_cons, List.mem_singleton, List.not_mem_nil,
      or_false] at hp
    rcases hp with rfl | rfl | rfl | rfl <;> simp [InBox, QVector3D.ofFinite]
  exact ⟨htight,
    resetView_model_eq_focus_model Libm.rational tetraScene "tetra.pts"
      (ptsCloud tetraPoints true (.ofFinite 0 0 0) (.ofFinite 2 2 2))
      (by simp [tetraScene, widgetWith, ptsCloud, tetraPoints, PointCloud.contributes])
      (by simp [tetraScene, widgetWith, List.lookup]) hfin htight⟩

end PointCloudGLWidget

namespace MainWindow
variable {R : Type} [LinearOrderedField R]

/-! ## A rejected save (C27) -/

/-- C27. A rejected save is atomic: when no entity is selected, or the selected
entity has no points, or its cached box has `min == max`,
`saveViewportForSelectedEntity` leaves the whole main window as it was; in
particular the snapshot list, the viewport index counter and the seven camera
fields are unchanged and no snapshot is created. -/
theorem rejected_save_is_atomic (lm : Libm R) (mw : MainWindow R)
    (hrej : (getSelectedPointCloud mw).isEmpty = true ∨
      ∃ pc : PointCloud R, mw.m_pointClouds.lookup (getSelectedPointCloud mw) = some pc ∧
        (pc.points = [] ∨ QVector3D.beq pc.boundingBoxMin pc.boundingBoxMax = true)) :
    saveViewportForSelectedEntity lm mw = mw ∧
      (saveViewportForSelectedEntity lm mw).m_viewportList = mw.m_viewportList ∧
      (saveViewportForSelectedEntity lm mw).s_viewportIndex = mw.s_viewportIndex ∧
      (saveViewportForSelectedEntity lm mw).m_glWidget.cameraState = mw.m_glWidget.cameraState ∧
      (saveViewportForSelectedEntity lm mw).m_treeWidget = mw.m_treeWidget := by
  have h : saveViewportForSelectedEntity lm mw = mw := by
    rcases saveViewportForSelectedEntity_cases lm mw with h | ⟨pc, hsel, hlook, hpts, hbox⟩
    · exact h
    · exfalso
      rcases hrej with h1 | ⟨pc2, hlook2, h2⟩
      · rw [hsel] at h1
        exact Bool.false_ne_true h1
      · rw [hlook] at hlook2
        have hpc : pc = pc2 := Option.some.inj hlook2
        subst hpc
        rcases h2 with h3 | h3
        · exact hpts h3
        · rw [hbox] at h3
          exact Bool.false_ne_true h3
  rw [h]
  exact ⟨rfl, rfl, rfl, rfl, rfl⟩

/-- Witness of C27: a save with nothing selected, and a save on the entity whose
box is a single point. -/
theorem rejected_save_is_atomic_witness :
    (getSelectedPointCloud (init 1024 768 : MainWindow ℚ)).isEmpty = true ∧
      saveViewportForSelectedEntity Libm.rational (init 1024 768 : MainWindow ℚ) =
        init 1024 768 ∧
      QVector3D.beq (QVector3D.ofFinite (1 : ℚ) 2 3) (QVector3D.ofFinite 1 2 3) = true ∧
      saveViewportForSelectedEntity Libm.rational (dotWindow : MainWindow ℚ) = dotWindow := by
  have hb : QVector3D.beq (QVector3D.ofFinite (1 : ℚ) 2 3) (QVector3D.ofFinite 1 2 3) = true := by
    simp [QVector3D.beq, QVector3D.ofFinite, FloatVal.beq]
  have hname : getSelectedPointCloud (dotWindow : MainWindow ℚ) = "dot.pts" := by
    simp [getSelectedPointCloud, dotWindow, mapContains, List.lookup]
  have hlook : (dotWindow : MainWindow ℚ).m_pointClouds.lookup
      (getSelectedPointCloud (dotWindow : MainWindow ℚ)) =
      some (ptsCloud [.ofFinite 1 2 3] true (.ofFinite 1 2 3) (.ofFinite 1 2 3)) := by
    rw [hname]
    simp [dotWindow, List.lookup]
  exact ⟨rfl, (rejected_save_is_atomic Libm.rational (init 1024 768) (Or.inl rfl)).1, hb,
    (rejected_save_is_atomic Libm.rational dotWindow (Or.inr ⟨_, hlook, Or.inr hb⟩)).1⟩

end MainWindow

/-! ## The view matrix of the frame after a focus (C22) -/

/-- The last column of the spec's orbit matrix is `(0, 0, -distance, 1)`. -/
theorem specOrbitView_last_column {R : Type} [LinearOrderedField R] (lm : Libm R)
    (d p y : R) :
    specOrbitView lm d p y 0 3 = 0 ∧ specOrbitView lm d p y 1 3 = 0 ∧
      specOrbitView lm d p y 2 3 = -d ∧ specOrbitView lm d p y 3 3 = 1 := by
  simp [specOrbitView, specTranslateZ, specRotateX, specRotateY, Matrix.mul_apply,
    Fin.sum_univ_four, Matrix.vecHead, Matrix.vecTail]

namespace PointCloudGLWidget
variable {R : Type} [LinearOrderedField R]

/-- The rational square root of 144 is 12. -/
theorem ratSqrt_144 : ratSqrt 144 = 12 := by
  have h := ratSqrt_mul_self 12 (by norm_num)
  norm_num at h
  exact h

/-- The rational square root of 1 is 1. -/
theorem ratSqrt_one : ratSqrt 1 = 1 := by
  have h := ratSqrt_mul_self 1 (by norm_num)
  norm_num at h
  exact h

/-- The rational square root of 9 is 3. -/
theorem ratSqrt_nine : ratSqrt 9 = 3 := by
  have h := ratSqrt_mul_self 3 (by norm_num)
  norm_num at h
  exact h

/-- The look-at matrix that the focus on `slabScene` stores: the translation by
`-eye = (-1, -1, -25/2)`. -/
theorem slabScene_focus_view :
    ((slabScene : PointCloudGLWidget ℚ).setFocusOnPointCloud Libm.rational "slab.pts"
        (.ofFinite 0 0 0) (.ofFinite 2 2 1)).m_view =
      { (QMatrix4x4.identity : QMatrix4x4 ℚ) with
        m30 := .finite (-1), m31 := .finite (-1), m32 := .finite (-(25 / 2)), flagBits := 9 } := by
  have hlook : (slabScene : PointCloudGLWidget ℚ).m_pointClouds.lookup "slab.pts" =
      some (ptsCloud [.ofFinite 0 0 0, .ofFinite 2 2 1] true (.ofFinite 0 0 0)
        (.ofFinite 2 2 1)) := by
    simp [slabScene, widgetWith, List.lookup]
  rw [setFocusOnPointCloud_of_lookup Libm.rational slabScene "slab.pts" _ _ _ hlook rfl]
  have h9 : Libm.rational.sqrt 9 = 3 := ratSqrt_nine
  have h144 : Libm.rational.sqrt 144 = 12 := ratSqrt_144
  have h1 : Libm.rational.sqrt 1 = 1 := ratSqrt_one
  norm_num [QMatrix4x4.lookAt, QVector3D.ofFinite_add, QVector3D.ofFinite_sub,
    QVector3D.ofFinite_scaleBy, QVector3D.length_ofFinite, h9, ofFinite_add_z,
    FloatVal.qFuzzyIsNull, FloatVal.qAbs, QVector3D.ofFinite, QVector3D.normalize,
    QVector3D.normalized, QVector3D.length, FloatVal.sqrtWith, h144, h1,
    QVector3D.crossProduct, QMatrix4x4.mulAssign, QMatrix4x4.identity, QMatrix4x4.translate,
    FloatVal.finite_div]
  decide

/-- A successful focus leaves a non-empty entity map, the distance `4 * diag`, the
pitch 30 and the yaw 40. -/
theorem setFocusOnPointCloud_orbit_fields (lm : Libm R) (w : PointCloudGLWidget R)
    (name : String) (pc : PointCloud R) (a1 a2 a3 b1 b2 b3 : R)
    (hlook : w.m_pointClouds.lookup name = some pc) (hpts : pc.points ≠ []) :
    (w.setFocusOnPointCloud lm name (.ofFinite a1 a2 a3) (.ofFinite b1 b2 b3)).m_pointClouds ≠
        [] ∧
      (w.setFocusOnPointCloud lm name (.ofFinite a1 a2 a3) (.ofFinite b1 b2 b3)).m_distance =
        .finite (4 * lm.sqrt (boxDiagSq a1 a2 a3 b1 b2 b3)) ∧
      (w.setFocusOnPointCloud lm name (.ofFinite a1 a2 a3) (.ofFinite b1 b2 b3)).m_xRot =
        .finite 30 ∧
      (w.setFocusOnPointCloud lm name (.ofFinite a1 a2 a3) (.ofFinite b1 b2 b3)).m_yRot =
        .finite 40 ∧
      (w.setFocusOnPointCloud lm name (.ofFinite a1 a2 a3) (.ofFinite b1 b2 b3)).m_view =
        QMatrix4x4.lookAt lm QMatrix4x4.identity
          (.ofFinite ((a1 + b1) / 2) ((a2 + b2) / 2)
            ((a3 + b3) / 2 + 4 * lm.sqrt (boxDiagSq a1 a2 a3 b1 b2 b3)))
          (.ofFinite ((a1 + b1) / 2) ((a2 + b2) / 2) ((a3 + b3) / 2))
          (.ofFinite 0 1 0) := by
  have hemp : pc.points.isEmpty = false := by
    cases hp : pc.points with
    | nil => exact absurd hp hpts
    | cons a l => rfl
  have hD : lm.sqrt ((b1 - a1) * (b1 - a1) + (b2 - a2) * (b2 - a2) + (b3 - a3) * (b3 - a3)) =
      lm.sqrt (boxDiagSq a1 a2 a3 b1 b2 b3) := rfl
  have hmap : w.m_pointClouds ≠ [] := by
    intro h
    rw [h] at hlook
    simp [List.lookup] at hlook
  rw [setFocusOnPointCloud_of_lookup lm w name pc _ _ hlook hemp]
  simp only [QVector3D.ofFinite_add, QVector3D.ofFinite_sub, QVector3D.ofFinite_scaleBy,
    QVector3D.length_ofFinite, FloatVal.finite_mul, ofFinite_add_z, hD]
  refine ⟨hmap, ?_, trivial, trivial, ?_⟩
  · simp [mul_comm]
  · simp [mul_comm, div_eq_mul_inv]

/-- C22, the counterexample.  On `slabScene` (box `(0,0,0)-(2,2,1)`, diagonal 3) the
focus stores the look-at matrix, the translation by `(-1, -1, -25/2)`; the next
frame is not rendered with it: `paintGL` rebuilds the view matrix, whose
translation column is `(0, 0, -12)`, without any drag in between. -/
theorem focus_view_not_rendered :
    ((slabScene : PointCloudGLWidget ℚ).setFocusOnPointCloud Libm.rational "slab.pts"
        (.ofFinite 0 0 0) (.ofFinite 2 2 1)).m_view.entry 0 3 = .finite (-1) ∧
      (((slabScene : PointCloudGLWidget ℚ).setFocusOnPointCloud Libm.rational "slab.pts"
        (.ofFinite 0 0 0) (.ofFinite 2 2 1)).paintGL Libm.rational).m_view.entry 0 3 =
        .finite 0 ∧
      (((slabScene : PointCloudGLWidget ℚ).setFocusOnPointCloud Libm.rational "slab.pts"
        (.ofFinite 0 0 0) (.ofFinite 2 2 1)).paintGL Libm.rational).m_view.entry 2 3 =
        .finite (-12) ∧
      (((slabScene : PointCloudGLWidget ℚ).setFocusOnPointCloud Libm.rational "slab.pts"
        (.ofFinite 0 0 0) (.ofFinite 2 2 1)).paintGL Libm.rational).m_view ≠
        ((slabScene : PointCloudGLWidget ℚ).setFocusOnPointCloud Libm.rational "slab.pts"
          (.ofFinite 0 0 0) (.ofFinite 2 2 1)).m_view := by
  have hlook : (slabScene : PointCloudGLWidget ℚ).m_pointClouds.lookup "slab.pts" =
      some (ptsCloud [.ofFinite 0 0 0, .ofFinite 2 2 1] true (.ofFinite 0 0 0)
        (.ofFinite 2 2 1)) := by
    simp [slabScene, widgetWith, List.lookup]
  obtain ⟨hne, hd, hp, hy, _⟩ := setFocusOnPointCloud_orbit_fields Libm.rational slabScene
    "slab.pts" _ 0 0 0 2 2 1 hlook (by simp [ptsCloud])
  have hdiag : Libm.rational.sqrt (boxDiagSq (0 : ℚ) 0 0 2 2 1) = 3 := by
    have : boxDiagSq (0 : ℚ) 0 0 2 2 1 = 9 := by norm_num [boxDiagSq]
    rw [this]
    exact ratSqrt_nine
  rw [hdiag] at hd
  obtain ⟨f, hv⟩ := paintGL_view Libm.rational _ _ 30 40 hne hd hp hy
  obtain ⟨c0, _, c2, _⟩ := specOrbitView_last_column Libm.rational (4 * 3 : ℚ) 30 40
  have e0 : (((slabScene : PointCloudGLWidget ℚ).setFocusOnPointCloud Libm.rational "slab.pts"
      (.ofFinite 0 0 0) (.ofFinite 2 2 1)).paintGL Libm.rational).m_view.entry 0 3 =
      .finite 0 := by
    rw [hv, QMatrix4x4.entry_ofMatrix, c0]
  have e2 : (((slabScene : PointCloudGLWidget ℚ).setFocusOnPointCloud Libm.rational "slab.pts"
      (.ofFinite 0 0 0) (.ofFinite 2 2 1)).paintGL Libm.rational).m_view.entry 2 3 =
      .finite (-12) := by
    rw [hv, QMatrix4x4.entry_ofMatrix, c2]
    norm_num
  have e1 : ((slabScene : PointCloudGLWidget ℚ).setFocusOnPointCloud Libm.rational "slab.pts"
      (.ofFinite 0 0 0) (.ofFinite 2 2 1)).m_view.entry 0 3 = .finite (-1) := by
    rw [slabScene_focus_view]
    rfl
  refine ⟨e1, e0, e2, ?_⟩
  intro h
  rw [h, e1] at e0
  simp at e0

/-- C22 as amended.  After a successful focus on an entity with a finite box, the
view field holds the look-at matrix that the focus stored, but the next frame is
rendered with the matrix that `paintGL` rebuilds from the distance `4 * diag`, the
pitch 30 and the yaw 40 that the focus set: its entries are those of
`translate(0, 0, -4 * diag) * rotateX(30) * rotateY(40)`.  No drag is needed for the
orbit formula to take over. -/
theorem focus_then_frame_uses_orbit (lm : Libm R) (w : PointCloudGLWidget R) (name : String)
    (pc : PointCloud R) (a1 a2 a3 b1 b2 b3 : R)
    (hlook : w.m_pointClouds.lookup name = some pc) (hpts : pc.points ≠ []) :
    (w.setFocusOnPointCloud lm name (.ofFinite a1 a2 a3) (.ofFinite b1 b2 b3)).m_view =
        QMatrix4x4.lookAt lm QMatrix4x4.identity
          (.ofFinite ((a1 + b1) / 2) ((a2 + b2) / 2)
            ((a3 + b3) / 2 + 4 * lm.sqrt (boxDiagSq a1 a2 a3 b1 b2 b3)))
          (.ofFinite ((a1 + b1) / 2) ((a2 + b2) / 2) ((a3 + b3) / 2))
          (.ofFinite 0 1 0) ∧
      ∀ i j : Fin 4,
        ((w.setFocusOnPointCloud lm name (.ofFinite a1 a2 a3)
            (.ofFinite b1 b2 b3)).paintGL lm).m_view.entry i j =
          .finite (specOrbitView lm (4 * lm.sqrt (boxDiagSq a1 a2 a3 b1 b2 b3)) 30 40 i j) := by
  obtain ⟨hne, hd, hp, hy, hview⟩ :=
    setFocusOnPointCloud_orbit_fields lm w name pc a1 a2 a3 b1 b2 b3 hlook hpts
  obtain ⟨f, hv⟩ := paintGL_view lm _ _ 30 40 hne hd hp hy
  refine ⟨hview, ?_⟩
  intro i j
  rw [hv, QMatrix4x4.entry_ofMatrix]

/-- Witness of the amended C22 on `slabScene`. -/
theorem focus_then_frame_uses_orbit_witness :
    (slabScene : PointCloudGLWidget ℚ).m_pointClouds.lookup "slab.pts" =
        some (ptsCloud [.ofFinite 0 0 0, .ofFinite 2 2 1] true (.ofFinite 0 0 0)
          (.ofFinite 2 2 1)) ∧
      ∀ i j : Fin 4,
        (((slabScene : PointCloudGLWidget ℚ).setFocusOnPointCloud Libm.rational "slab.pts"
            (.ofFinite 0 0 0) (.ofFinite 2 2 1)).paintGL Libm.rational).m_view.entry i j =
          .finite (specOrbitView Libm.rational
            (4 * Libm.rational.sqrt (boxDiagSq 0 0 0 2 2 1)) 30 40 i j) := by
  have hlook : (slabScene : PointCloudGLWidget ℚ).m_pointClouds.lookup "slab.pts" =
      some (ptsCloud [.ofFinite 0 0 0, .ofFinite 2 2 1] true (.ofFinite 0 0 0)
        (.ofFinite 2 2 1)) := by
    simp [slabScene, widgetWith, List.lookup]
  exact ⟨hlook, (focus_then_frame_uses_orbit Libm.rational slabScene "slab.pts" _ 0 0 0 2 2 1
    hlook (by simp [ptsCloud])).2⟩

/-! ## The projection after a change of the field of view (C23) -/

/-- The projection that `resizeGL` builds at 1024 x 768 for the field of view 60,
with the rational library: its entry in row 1, column 1 is the cotangent of 30
degrees. -/
theorem perspective_60_m11 :
    (QMatrix4x4.perspective Libm.rational QMatrix4x4.identity (.finite 60)
        (FloatVal.ofInt 1024 / FloatVal.ofInt 768) (.finite (1 / 100)) (.finite 1000)).m11 =
      .finite (Libm.rational.cos (355 / 678) / Libm.rational.sin (355 / 678)) := by
  norm_num [QMatrix4x4.perspective, FloatVal.beq, FloatVal.liftFn, FloatVal.ofInt,
    FloatVal.finite_div, Libm.rational, QMatrix4x4.mulAssign, QMatrix4x4.identity]

/-- The projection for the field of view 30 at the same size and planes: its entry
in row 1, column 1 is the cotangent of 15 degrees. -/
theorem perspective_30_m11 :
    (QMatrix4x4.perspective Libm.rational QMatrix4x4.identity (.finite 30)
        (FloatVal.ofInt 1024 / FloatVal.ofInt 768) (.finite (1 / 100)) (.finite 1000)).m11 =
      .finite (Libm.rational.cos (355 / 1356) / Libm.rational.sin (355 / 1356)) := by
  norm_num [QMatrix4x4.perspective, FloatVal.beq, FloatVal.liftFn, FloatVal.ofInt,
    FloatVal.finite_div, Libm.rational, QMatrix4x4.mulAssign, QMatrix4x4.identity]

/-- C23, the code at the failing input.  `resetView` and `applyViewport` change the
field of view and leave the projection matrix as it was, for every state.  On
scenario A's widget, sized 1024 x 768 by `resizeGL` at the initial field of view 60:
after `resetView` the field of view is 30 and the projection matrix is still the
perspective projection for 60, which is not the one for 30 (row 1, column 1 holds
the cotangent of 30 degrees, not of 15 degrees). -/
theorem fov_change_keeps_projection :
    (∀ (lm : Libm R) (w : PointCloudGLWidget R),
      (w.resetView lm).m_fov = .finite 30 ∧ (w.resetView lm).m_projection = w.m_projection) ∧
    (∀ (v : ViewportObject R) (w : PointCloudGLWidget R),
      (v.applyViewport w).m_fov = v.m_params.fov ∧
        (v.applyViewport w).m_projection = w.m_projection) ∧
    ((tetraScene : PointCloudGLWidget ℚ).resizeGL Libm.rational 1024 768).m_fov = .finite 60 ∧
    (((tetraScene : PointCloudGLWidget ℚ).resizeGL Libm.rational 1024 768).resetView
        Libm.rational).m_fov = .finite 30 ∧
    (((tetraScene : PointCloudGLWidget ℚ).resizeGL Libm.rational 1024 768).resetView
        Libm.rational).m_projection =
      QMatrix4x4.perspective Libm.rational QMatrix4x4.identity (.finite 60)
        (FloatVal.ofInt 1024 / FloatVal.ofInt 768) (.finite (1 / 100)) (.finite 1000) ∧
    (((tetraScene : PointCloudGLWidget ℚ).resizeGL Libm.rational 1024 768).resetView
        Libm.rational).m_projection ≠
      QMatrix4x4.perspective Libm.rational QMatrix4x4.identity (.finite 30)
        (FloatVal.ofInt 1024 / FloatVal.ofInt 768) (.finite (1 / 100)) (.finite 1000) := by
  have hproj : (((tetraScene : PointCloudGLWidget ℚ).resizeGL Libm.rational 1024 768).resetView
      Libm.rational).m_projection =
      QMatrix4x4.perspective Libm.rational QMatrix4x4.identity (.finite 60)
        (FloatVal.ofInt 1024 / FloatVal.ofInt 768) (.finite (1 / 100)) (.finite 1000) := rfl
  refine ⟨fun lm w => ⟨rfl, rfl⟩, fun v w => ⟨rfl, rfl⟩, rfl, rfl, hproj, ?_⟩
  rw [hproj]
  intro h
  have h11 := congrArg (fun m => m.m11) h
  simp only [perspective_60_m11, perspective_30_m11] at h11
  norm_num [Libm.rational] at h11

end PointCloudGLWidget

namespace MainWindow
variable {R : Type} [LinearOrderedField R]

/-! ## The values that a save writes (C24, C25) -/

/-- The snapshot that a successful save appends, and the camera it leaves, written
out: the centre is `(min + max) * 1.5`, the model matrix is the framing matrix for
that centre, the distance is `2 * |max - min|`, the focal distance
`1.5 * |max - min|` and the field of view 30. -/
theorem saveViewportForSelectedEntity_values (lm : Libm R) (mw : MainWindow R)
    (pc : PointCloud R) (hsel : (getSelectedPointCloud mw).isEmpty = false)
    (hlook : mw.m_pointClouds.lookup (getSelectedPointCloud mw) = some pc)
    (hpts : pc.points ≠ [])
    (hbox : QVector3D.beq pc.boundingBoxMin pc.boundingBoxMax = false) :
    (saveViewportForSelectedEntity lm mw).m_viewportList.map (fun v => v.m_params.modelCenter) =
        mw.m_viewportList.map (fun v => v.m_params.modelCenter) ++
          [(pc.boundingBoxMin + pc.boundingBoxMax).scaleBy (.finite (3 / 2))] ∧
      (saveViewportForSelectedEntity lm mw).m_viewportList.map
          (fun v => v.m_params.modelMatrix) =
        mw.m_viewportList.map (fun v => v.m_params.modelMatrix) ++
          [PointCloudGLWidget.framingModel
            ((pc.boundingBoxMin + pc.boundingBoxMax).scaleBy (.finite (3 / 2)))
            (pc.boundingBoxMax - pc.boundingBoxMin)] ∧
      (saveViewportForSelectedEntity lm mw).m_glWidget.m_distance =
        (pc.boundingBoxMax - pc.boundingBoxMin).length lm * .finite 2 ∧
      (saveViewportForSelectedEntity lm mw).m_glWidget.m_focalDistance =
        (pc.boundingBoxMax - pc.boundingBoxMin).length lm * .finite (3 / 2) ∧
      (saveViewportForSelectedEntity lm mw).m_glWidget.m_fov = .finite 30 := by
  have hemp : pc.points.isEmpty = false := by
    cases hp : pc.points with
    | nil => exact absurd hp hpts
    | cons a l => rfl
  simp only [saveViewportForSelectedEntity, hsel, hlook, hemp, hbox, Bool.false_eq_true,
    if_false, List.map_append, List.map_cons, List.map_nil, and_self]

/-- C24, the code at the failing input.  On the main window with scenario A's entity
selected (box `(0,0,0)-(2,2,2)`, midpoint `(1,1,1)`), the snapshot that a save
creates records the centre `(3,3,3)`, three times the midpoint, and its model
matrix maps `(3,3,3)` to the origin and the midpoint `(1,1,1)` to `(-1,-1,-1)`. -/
theorem save_centre_is_not_midpoint :
    (saveViewportForSelectedEntity Libm.rational (tetraWindow : MainWindow ℚ)).m_viewportList.map
        (fun v => v.m_params.modelCenter) = [QVector3D.ofFinite 3 3 3] ∧
      (saveViewportForSelectedEntity Libm.rational (tetraWindow : MainWindow ℚ)).m_viewportList.map
          (fun v => v.m_params.modelMatrix.mulVec4 ⟨.finite 1, .finite 1, .finite 1, .finite 1⟩) =
        [⟨.finite (-1), .finite (-1), .finite (-1), .finite 1⟩] ∧
      (saveViewportForSelectedEntity Libm.rational (tetraWindow : MainWindow ℚ)).m_viewportList.map
          (fun v => v.m_params.modelMatrix.mulVec4 ⟨.finite 3, .finite 3, .finite 3, .finite 1⟩) =
        [⟨.finite 0, .finite 0, .finite 0, .finite 1⟩] ∧
      (QVector3D.ofFinite 3 3 3 : QVector3D ℚ) ≠
        ((QVector3D.ofFinite 0 0 0 : QVector3D ℚ) + QVector3D.ofFinite 2 2 2).scaleBy
          (.finite (1 / 2)) := by
  obtain ⟨hc, hm, _⟩ := saveViewportForSelectedEntity_values Libm.rational
    (tetraWindow : MainWindow ℚ) _ tetraWindow_selected tetraWindow_lookup tetraCloud_points
    tetraCloud_box
  have h0 : (tetraWindow : MainWindow ℚ).m_viewportList = [] := rfl
  have hcentre : (saveViewportForSelectedEntity Libm.rational
      (tetraWindow : MainWindow ℚ)).m_viewportList.map (fun v => v.m_params.modelCenter) =
      [QVector3D.ofFinite 3 3 3] := by
    rw [hc, h0]
    norm_num [ptsCloud, QVector3D.ofFinite_add, QVector3D.ofFinite_scaleBy]
  have hmodel : (saveViewportForSelectedEntity Libm.rational
      (tetraWindow : MainWindow ℚ)).m_viewportList.map (fun v => v.m_params.modelMatrix) =
      [PointCloudGLWidget.framingModel (QVector3D.ofFinite 3 3 3)
        (QVector3D.ofFinite 2 2 2)] := by
    rw [hm, h0]
    norm_num [ptsCloud, QVector3D.ofFinite_add, QVector3D.ofFinite_sub,
      QVector3D.ofFinite_scaleBy]
  have hmap : ∀ p : Vec4 ℚ,
      (saveViewportForSelectedEntity Libm.rational
        (tetraWindow : MainWindow ℚ)).m_viewportList.map
          (fun v => v.m_params.modelMatrix.mulVec4 p) =
        [(PointCloudGLWidget.framingModel (QVector3D.ofFinite 3 3 3)
          (QVector3D.ofFinite 2 2 2)).mulVec4 p] := by
    intro p
    have := congrArg (List.map (fun m : QMatrix4x4 ℚ => m.mulVec4 p)) hmodel
    simpa [List.map_map, Function.comp] using this
  refine ⟨hcentre, ?_, ?_, ?_⟩
  · rw [hmap]
    norm_num [PointCloudGLWidget.framingModel, QMatrix4x4.identity, QMatrix4x4.scale,
      QMatrix4x4.translate, QMatrix4x4.mulVec4, QVector3D.ofFinite, FloatVal.finite_div]
  · rw [hmap]
    norm_num [PointCloudGLWidget.framingModel, QMatrix4x4.identity, QMatrix4x4.scale,
      QMatrix4x4.translate, QMatrix4x4.mulVec4, QVector3D.ofFinite, FloatVal.finite_div]
  · rw [QVector3D.ofFinite_add, QVector3D.ofFinite_scaleBy]
    intro h
    have hx := congrArg (fun p : QVector3D ℚ => p.x) h
    simp only [QVector3D.ofFinite] at hx
    have := FloatVal.finite.inj hx
    norm_num at this

/-- C25, the code at the failing input.  On scenario A's entity (box
`(0,0,0)-(2,2,2)`, with `s` the library square root of 12), a save leaves the camera
at distance `2 * s` while `setFocusOnPointCloud` on the same box leaves it at
`4 * s`, and the two differ; the focal distance `1.5 * s` and the field of view 30
are the same in both. -/
theorem save_distance_differs_from_focus :
    (saveViewportForSelectedEntity Libm.rational
        (tetraWindow : MainWindow ℚ)).m_glWidget.m_distance =
      .finite (Libm.rational.sqrt (boxDiagSq 0 0 0 2 2 2) * 2) ∧
    ((tetraWindow : MainWindow ℚ).m_glWidget.setFocusOnPointCloud Libm.rational "tetra.pts"
        (.ofFinite 0 0 0) (.ofFinite 2 2 2)).m_distance =
      .finite (Libm.rational.sqrt (boxDiagSq 0 0 0 2 2 2) * 4) ∧
    (saveViewportForSelectedEntity Libm.rational
        (tetraWindow : MainWindow ℚ)).m_glWidget.m_distance ≠
      ((tetraWindow : MainWindow ℚ).m_glWidget.setFocusOnPointCloud Libm.rational "tetra.pts"
        (.ofFinite 0 0 0) (.ofFinite 2 2 2)).m_distance ∧
    (saveViewportForSelectedEntity Libm.rational
        (tetraWindow : MainWindow ℚ)).m_glWidget.m_focalDistance =
      ((tetraWindow : MainWindow ℚ).m_glWidget.setFocusOnPointCloud Libm.rational "tetra.pts"
        (.ofFinite 0 0 0) (.ofFinite 2 2 2)).m_focalDistance ∧
    (saveViewportForSelectedEntity Libm.rational
        (tetraWindow : MainWindow ℚ)).m_glWidget.m_fov =
      ((tetraWindow : MainWindow ℚ).m_glWidget.setFocusOnPointCloud Libm.rational "tetra.pts"
        (.ofFinite 0 0 0) (.ofFinite 2 2 2)).m_fov := by
  obtain ⟨_, _, hd, hf, hv⟩ := saveViewportForSelectedEntity_values Libm.rational
    (tetraWindow : MainWindow ℚ) _ tetraWindow_selected tetraWindow_lookup tetraCloud_points
    tetraCloud_box
  have hlook : (tetraWindow : MainWindow ℚ).m_glWidget.m_pointClouds.lookup "tetra.pts" =
      some (ptsCloud tetraPoints true (.ofFinite 0 0 0) (.ofFinite 2 2 2)) := by
    simp [tetraWindow, tetraScene, widgetWith, List.lookup]
  have hfocus := PointCloudGLWidget.setFocusOnPointCloud_of_lookup Libm.rational
    (tetraWindow : MainWindow ℚ).m_glWidget "tetra.pts" _ (.ofFinite 0 0 0) (.ofFinite 2 2 2)
    hlook rfl
  have hlen : QVector3D.length Libm.rational
      ((QVector3D.ofFinite 2 2 2 : QVector3D ℚ) - QVector3D.ofFinite 0 0 0) =
      .finite (Libm.rational.sqrt (boxDiagSq 0 0 0 2 2 2)) := by
    rw [QVector3D.ofFinite_sub, QVector3D.length_ofFinite]
    rfl
  have hd2 : (saveViewportForSelectedEntity Libm.rational
      (tetraWindow : MainWindow ℚ)).m_glWidget.m_distance =
      .finite (Libm.rational.sqrt (boxDiagSq 0 0 0 2 2 2) * 2) := by
    rw [hd]
    simp only [ptsCloud, hlen, FloatVal.finite_mul]
  have hf2 : (saveViewportForSelectedEntity Libm.rational
      (tetraWindow : MainWindow ℚ)).m_glWidget.m_focalDistance =
      .finite (Libm.rational.sqrt (boxDiagSq 0 0 0 2 2 2) * (3 / 2)) := by
    rw [hf]
    simp only [ptsCloud, hlen, FloatVal.finite_mul]
  have hd4 : ((tetraWindow : MainWindow ℚ).m_glWidget.setFocusOnPointCloud Libm.rational
      "tetra.pts" (.ofFinite 0 0 0) (.ofFinite 2 2 2)).m_distance =
      .finite (Libm.rational.sqrt (boxDiagSq 0 0 0 2 2 2) * 4) := by
    rw [hfocus]
    simp only [hlen, FloatVal.finite_mul]
  have hf4 : ((tetraWindow : MainWindow ℚ).m_glWidget.setFocusOnPointCloud Libm.rational
      "tetra.pts" (.ofFinite 0 0 0) (.ofFinite 2 2 2)).m_focalDistance =
      .finite (Libm.rational.sqrt (boxDiagSq 0 0 0 2 2 2) * (3 / 2)) := by
    rw [hfocus]
    simp only [hlen, FloatVal.finite_mul]
  have hpos : 0 < Libm.rational.sqrt (boxDiagSq 0 0 0 2 2 2) :=
    ratSqrt_pos _ (by norm_num [boxDiagSq])
  refine ⟨hd2, hd4, ?_, by rw [hf2, hf4], ?_⟩
  · rw [hd2, hd4]
    intro h
    have := FloatVal.finite.inj h
    linarith
  · rw [hv, hfocus]

end MainWindow

/-! ## The read loop keeps positions and colours together (C26) -/

/-- The result of `qBound(0, v, 255)` lies in `[0, 255]`. -/
theorem qBound_range (v : Int) : 0 ≤ qBound 0 v 255 ∧ qBound 0 v 255 ≤ 255 := by
  unfold qBound
  omega

/-- What one line does to the two sequences: nothing; or one position and the
colour white, when fewer than six fields are present or a colour field does not
parse; or one position and the colour of the three parsed fields, each clamped. -/
theorem readPtsLine_cases {R : Type} [LinearOrderedField R] (txt : QtText R)
    (st : List (QVector3D R) × List (QVector3D R)) (raw : String) :
    readPtsLine txt st raw = st ∨
      (∃ p : QVector3D R,
        readPtsLine txt st raw = (st.1 ++ [p], st.2 ++ [QVector3D.ofFinite 255 255 255]) ∧
        ((txt.split (txt.trimmed raw)).length < 6 ∨
          txt.toInt ((txt.split (txt.trimmed raw)).getD 3 "") = none ∨
          txt.toInt ((txt.split (txt.trimmed raw)).getD 4 "") = none ∨
          txt.toInt ((txt.split (txt.trimmed raw)).getD 5 "") = none)) ∨
      ∃ (p : QVector3D R) (r g b : Int),
        6 ≤ (txt.split (txt.trimmed raw)).length ∧
        txt.toInt ((txt.split (txt.trimmed raw)).getD 3 "") = some r ∧
        txt.toInt ((txt.split (txt.trimmed raw)).getD 4 "") = some g ∧
        txt.toInt ((txt.split (txt.trimmed raw)).getD 5 "") = some b ∧
        readPtsLine txt st raw =
          (st.1 ++ [p], st.2 ++ [⟨FloatVal.ofInt (qBound 0 r 255),
            FloatVal.ofInt (qBound 0 g 255), FloatVal.ofInt (qBound 0 b 255)⟩]) := by
  unfold readPtsLine
  by_cases he : (txt.trimmed raw).isEmpty = true
  · left
    simp only [he, if_true]
  · by_cases h3 : 3 ≤ (txt.split (txt.trimmed raw)).length
    · cases hx : txt.toFloat ((txt.split (txt.trimmed raw)).getD 0 "") with
      | none => left; simp only [he, h3, hx, if_true, Bool.false_eq_true, if_false]
      | some x =>
        cases hy : txt.toFloat ((txt.split (txt.trimmed raw)).getD 1 "") with
        | none => left; simp only [he, h3, hx, hy, if_true, Bool.false_eq_true, if_false]
        | some y =>
          cases hz : txt.toFloat ((txt.split (txt.trimmed raw)).getD 2 "") with
          | none => left; simp only [he, h3, hx, hy, hz, if_true, Bool.false_eq_true, if_false]
          | some z =>
            right
            by_cases h6 : 6 ≤ (txt.split (txt.trimmed raw)).length
            · cases hr : txt.toInt ((txt.split (txt.trimmed raw)).getD 3 "") with
              | none =>
                left
                refine ⟨⟨x, y, z⟩, ?_, Or.inr (Or.inl rfl)⟩
                simp only [he, h3, hx, hy, hz, h6, hr, if_true, Bool.false_eq_true, if_false]
              | some r =>
                cases hg : txt.toInt ((txt.split (txt.trimmed raw)).getD 4 "") with
                | none =>
                  left
                  refine ⟨⟨x, y, z⟩, ?_, Or.inr (Or.inr (Or.inl rfl))⟩
                  simp only [he, h3, hx, hy, hz, h6, hr, hg, if_true, Bool.false_eq_true,
                    if_false]
                | some g =>
                  cases hb : txt.toInt ((txt.split (txt.trimmed raw)).getD 5 "") with
                  | none =>
                    left
                    refine ⟨⟨x, y, z⟩, ?_, Or.inr (Or.inr (Or.inr rfl))⟩
                    simp only [he, h3, hx, hy, hz, h6, hr, hg, hb, if_true, Bool.false_eq_true,
                      if_false]
                  | some b =>
                    right
                    refine ⟨⟨x, y, z⟩, r, g, b, h6, rfl, rfl, rfl, ?_⟩
                    simp only [he, h3, hx, hy, hz, h6, hr, hg, hb, if_true, Bool.false_eq_true,
                      if_false]
            · left
              refine ⟨⟨x, y, z⟩, ?_, Or.inl (Nat.lt_of_not_le h6)⟩
              simp only [he, h3, hx, hy, hz, h6, if_true, Bool.false_eq_true, if_false]
    · left
      simp only [he, h3, if_true, Bool.false_eq_true, if_false]

/-- One line keeps the two sequences at equal lengths. -/
theorem readPtsLine_lengths {R : Type} [LinearOrderedField R] (txt : QtText R)
    (st : List (QVector3D R) × List (QVector3D R)) (raw : String)
    (h : st.1.length = st.2.length) :
    (readPtsLine txt st raw).1.length = (readPtsLine txt st raw).2.length := by
  rcases readPtsLine_cases txt st raw with h1 | ⟨p, h1, _⟩ | ⟨p, r, g, b, _, _, _, _, h1⟩
  · rw [h1]
    exact h
  · rw [h1]
    simp [h]
  · rw [h1]
    simp [h]

/-- The loop keeps the two sequences at equal lengths. -/
theorem foldl_readPtsLine_lengths {R : Type} [LinearOrderedField R] (txt : QtText R)
    (lines : List String) :
    ∀ st : List (QVector3D R) × List (QVector3D R), st.1.length = st.2.length →
      (lines.foldl (readPtsLine txt) st).1.length =
        (lines.foldl (readPtsLine txt) st).2.length := by
  induction lines with
  | nil => intro st h; exact h
  | cons raw rest ih =>
    intro st h
    exact ih _ (readPtsLine_lengths txt st raw h)

/-- C26. For every list of lines and whatever the Qt text functions return, the
read loop produces position and colour sequences of equal length.  Line by line:
a line either adds nothing to either sequence, or adds one position and exactly
one colour, which is white `(255, 255, 255)` when fewer than six fields are present
or a colour field does not parse, and otherwise the parsed `r, g, b`, each clamped
by `qBound(0, ., 255)` to `[0, 255]`. -/
theorem readPts_equal_lengths {R : Type} [LinearOrderedField R] (txt : QtText R)
    (name : String) (lines : List String) :
    (readPts txt lines).1.length = (readPts txt lines).2.length ∧
      (PtsFile.ofLines txt name lines).points.length =
        (PtsFile.ofLines txt name lines).colors.length ∧
      (∀ (st : List (QVector3D R) × List (QVector3D R)) (raw : String),
        readPtsLine txt st raw = st ∨
          (∃ p : QVector3D R,
            readPtsLine txt st raw =
              (st.1 ++ [p], st.2 ++ [QVector3D.ofFinite 255 255 255]) ∧
            ((txt.split (txt.trimmed raw)).length < 6 ∨
              txt.toInt ((txt.split (txt.trimmed raw)).getD 3 "") = none ∨
              txt.toInt ((txt.split (txt.trimmed raw)).getD 4 "") = none ∨
              txt.toInt ((txt.split (txt.trimmed raw)).getD 5 "") = none)) ∨
          ∃ (p : QVector3D R) (r g b : Int),
            6 ≤ (txt.split (txt.trimmed raw)).length ∧
            txt.toInt ((txt.split (txt.trimmed raw)).getD 3 "") = some r ∧
            txt.toInt ((txt.split (txt.trimmed raw)).getD 4 "") = some g ∧
            txt.toInt ((txt.split (txt.trimmed raw)).getD 5 "") = some b ∧
            readPtsLine txt st raw =
              (st.1 ++ [p], st.2 ++ [⟨FloatVal.ofInt (qBound 0 r 255),
                FloatVal.ofInt (qBound 0 g 255), FloatVal.ofInt (qBound 0 b 255)⟩])) ∧
      ∀ v : Int, 0 ≤ qBound 0 v 255 ∧ qBound 0 v 255 ≤ 255 := by
  have h : (readPts txt lines).1.length = (readPts txt lines).2.length :=
    foldl_readPtsLine_lengths txt lines ([], []) rfl
  exact ⟨h, h, fun st raw => readPtsLine_cases txt st raw, qBound_range⟩

/-- The read loop on the six sample lines, with the stand-in text functions: three
positions, with the colours white, `(255, 0, 7)` and white. -/
theorem readPts_sampleLines :
    readPts QtText.ascii sampleLines =
      ([.ofFinite 0 0 0, .ofFinite 1 2 3, .ofFinite 4 5 6],
        [.ofFinite 255 255 255, .ofFinite 255 0 7, .ofFinite 255 255 255]) := by
  rfl

/-! ## Rounding to `float`: evaluation -/

theorem roundHalfEven_of_near (x : ℚ) (z : Int) (h : |x - z| < 1 / 2) :
    roundHalfEven x = z := by
  have h1 := abs_lt.mp h
  rcases le_or_lt (z : ℚ) x with hz | hz
  · have hf : ⌊x⌋ = z := Int.floor_eq_iff.mpr ⟨hz, by linarith [h1.2]⟩
    unfold roundHalfEven
    rw [hf, if_pos (by linarith [h1.2])]
  · have hf : ⌊x⌋ = z - 1 := Int.floor_eq_iff.mpr ⟨by push_cast; linarith [h1.1], by push_cast; linarith⟩
    unfold roundHalfEven
    rw [hf, if_neg (by push_cast; linarith [h1.1]), if_pos (by push_cast; linarith [h1.1])]
    ring

theorem roundHalfEven_tie_even (x : ℚ) (z : Int) (h : x = z + 1 / 2) (hz : z % 2 = 0) :
    roundHalfEven x = z := by
  have hf : ⌊x⌋ = z := Int.floor_eq_iff.mpr ⟨by linarith, by linarith⟩
  unfold roundHalfEven
  rw [hf, if_neg (by linarith), if_neg (by linarith), if_pos hz]

theorem ulp32_of_bounds (q : ℚ) (e : Int) (h1 : (2 : ℚ) ^ e ≤ |q|) (h2 : |q| < (2 : ℚ) ^ (e + 1))
    (he : -126 ≤ e) : ulp32 q = (2 : ℚ) ^ (e - 23) := by
  have hpos : (0 : ℚ) < |q| := lt_of_lt_of_le (zpow_pos (by norm_num) e) h1
  have hl1 : e ≤ Int.log 2 |q| := (Int.zpow_le_iff_le_log (by norm_num) hpos).mp (by exact_mod_cast h1)
  have hl2 : Int.log 2 |q| < e + 1 := (Int.lt_zpow_iff_log_lt (by norm_num) hpos).mp (by exact_mod_cast h2)
  have hl : Int.log 2 |q| = e := by omega
  unfold ulp32
  rw [hl, max_eq_left he]

/-- A value within half a spacing of the multiple `z * 2 ^ (e - 23)` rounds to it. -/
theorem round32_of_near (q : ℚ) (e z : Int) (h1 : (2 : ℚ) ^ e ≤ |q|)
    (h2 : |q| < (2 : ℚ) ^ (e + 1)) (he : -126 ≤ e)
    (h : |q / (2 : ℚ) ^ (e - 23) - z| < 1 / 2) : round32 q = z * (2 : ℚ) ^ (e - 23) := by
  unfold round32
  rw [ulp32_of_bounds q e h1 h2 he, roundHalfEven_of_near _ z h]

/-- A value halfway between two multiples of the spacing rounds to the even one. -/
theorem round32_of_tie_even (q : ℚ) (e z : Int) (h1 : (2 : ℚ) ^ e ≤ |q|)
    (h2 : |q| < (2 : ℚ) ^ (e + 1)) (he : -126 ≤ e)
    (h : q / (2 : ℚ) ^ (e - 23) = z + 1 / 2) (hz : z % 2 = 0) :
    round32 q = z * (2 : ℚ) ^ (e - 23) := by
  unfold round32
  rw [ulp32_of_bounds q e h1 h2 he, roundHalfEven_tie_even _ z h hz]

/-- A multiple of the spacing is its own rounding. -/
theorem round32_of_exact (q : ℚ) (e z : Int) (h1 : (2 : ℚ) ^ e ≤ |q|)
    (h2 : |q| < (2 : ℚ) ^ (e + 1)) (he : -126 ≤ e) (hq : q = z * (2 : ℚ) ^ (e - 23)) :
    round32 q = q := by
  have hp : (2 : ℚ) ^ (e - 23) ≠ 0 := (zpow_pos (by norm_num) _).ne'
  have hx : q / (2 : ℚ) ^ (e - 23) = z := by rw [hq, mul_div_assoc, div_self hp, mul_one]
  rw [round32_of_near q e z h1 h2 he (by rw [hx, sub_self]; norm_num), ← hq]

theorem round32_zero : round32 0 = 0 := by
  unfold round32 roundHalfEven
  simp

/-- Every integer of magnitude at most `2 ^ 24` is a `float`. -/
theorem round32_intCast (n : Int) (h : |n| ≤ 2 ^ 24) : round32 (n : ℚ) = n := by
  rcases eq_or_ne n 0 with rfl | hn
  · simpa using round32_zero
  have hn1 : (1 : ℚ) ≤ |(n : ℚ)| := by
    have : (1 : Int) ≤ |n| := Int.one_le_abs hn
    exact_mod_cast this
  have hpos : (0 : ℚ) < |(n : ℚ)| := lt_of_lt_of_le one_pos hn1
  have hle : |(n : ℚ)| ≤ 2 ^ 24 := by exact_mod_cast h
  have h1 : ((2 : ℕ) : ℚ) ^ Int.log 2 |(n : ℚ)| ≤ |(n : ℚ)| := Int.zpow_log_le_self (by norm_num) hpos
  have h2 : |(n : ℚ)| < ((2 : ℕ) : ℚ) ^ (Int.log 2 |(n : ℚ)| + 1) :=
    Int.lt_zpow_succ_log_self (by norm_num) _
  have he0 : (0 : Int) ≤ Int.log 2 |(n : ℚ)| :=
    (Int.zpow_le_iff_le_log (by norm_num) hpos).mp (by simpa using hn1)
  have he24 : Int.log 2 |(n : ℚ)| < 25 :=
    (Int.lt_zpow_iff_log_lt (by norm_num) hpos).mp (by
      refine lt_of_le_of_lt hle ?_
      norm_num)
  generalize Int.log 2 |(n : ℚ)| = e at h1 h2 he0 he24
  have h1' : (2 : ℚ) ^ e ≤ |(n : ℚ)| := by exact_mod_cast h1
  have h2' : |(n : ℚ)| < (2 : ℚ) ^ (e + 1) := by exact_mod_cast h2
  rcases lt_or_le e 24 with he | he
  · obtain ⟨k, hk⟩ : ∃ k : ℕ, (k : Int) = 23 - e := ⟨(23 - e).toNat, by omega⟩
    refine round32_of_exact _ e (n * 2 ^ k) h1' h2' (by omega) ?_
    have : ((2 : ℚ) ^ k) * (2 : ℚ) ^ (e - 23) = 1 := by
      rw [← zpow_natCast, ← zpow_add₀ (by norm_num : (2 : ℚ) ≠ 0), hk]
      simp
    push_cast
    rw [mul_assoc, this, mul_one]
  · have he' : e = 24 := by omega
    subst he'
    have habs : |n| = 2 ^ 24 := by
      refine le_antisymm h ?_
      have : ((2 : ℚ) ^ (24 : Int)) ≤ |(n : ℚ)| := h1'
      have h3 : ((2 ^ 24 : Int) : ℚ) ≤ ((|n| : Int) : ℚ) := by
        push_cast
        norm_num at this ⊢
        exact this
      exact_mod_cast h3
    obtain ⟨z, hz⟩ : ∃ z : Int, n = z * 2 := by
      rcases abs_eq (by norm_num : (0 : Int) ≤ 2 ^ 24) |>.mp habs with h4 | h4
      · exact ⟨2 ^ 23, by rw [h4]; norm_num⟩
      · exact ⟨-2 ^ 23, by rw [h4]; norm_num⟩
    refine round32_of_exact _ 24 z h1' h2' (by norm_num) ?_
    rw [hz]
    push_cast
    norm_num

theorem toFloat32_of_round (q r : ℚ) (h : round32 q = r) (hb : |r| < 2 ^ 128) :
    toFloat32 q = .finite r := by
  unfold toFloat32
  rw [h, if_neg (not_le.mpr hb)]

theorem toFloat32_intCast (n : Int) (h : |n| ≤ 2 ^ 24) : toFloat32 (n : ℚ) = .finite (n : ℚ) := by
  refine toFloat32_of_round _ _ (round32_intCast n h) ?_
  have : |(n : ℚ)| ≤ 2 ^ 24 := by exact_mod_cast h
  refine lt_of_le_of_lt this ?_
  norm_num

theorem roundHalfEven_spec (x : ℚ) :
    |x - roundHalfEven x| < 1 / 2 ∨
      (|x - roundHalfEven x| = 1 / 2 ∧ roundHalfEven x % 2 = 0) := by
  have h1 : (⌊x⌋ : ℚ) ≤ x := Int.floor_le x
  have h2 : x < ⌊x⌋ + 1 := Int.lt_floor_add_one x
  unfold roundHalfEven
  split_ifs with ha hb hc
  · left
    rw [abs_of_nonneg (by linarith)]
    exact ha
  · left
    rw [abs_lt]
    push_cast
    constructor <;> linarith
  · right
    have hx : x - ⌊x⌋ = 1 / 2 := le_antisymm (not_lt.mp hb) (not_lt.mp ha)
    exact ⟨by rw [hx]; norm_num, hc⟩
  · right
    have hx : x - ⌊x⌋ = 1 / 2 := le_antisymm (not_lt.mp hb) (not_lt.mp ha)
    refine ⟨?_, by omega⟩
    push_cast
    rw [show x - (⌊x⌋ + 1) = -(1 / 2) by linarith]
    norm_num

theorem roundHalfEven_unique (x : ℚ) (z : Int)
    (h : |x - z| < 1 / 2 ∨ (|x - z| = 1 / 2 ∧ z % 2 = 0)) : roundHalfEven x = z := by
  rcases h with h | ⟨h, hz⟩
  · exact roundHalfEven_of_near x z h
  · rcases abs_eq (by norm_num : (0 : ℚ) ≤ 1 / 2) |>.mp h with h1 | h1
    · exact roundHalfEven_tie_even x z (by linarith) hz
    · have hf : ⌊x⌋ = z - 1 :=
        Int.floor_eq_iff.mpr ⟨by push_cast; linarith, by push_cast; linarith⟩
      unfold roundHalfEven
      rw [hf, if_neg (by push_cast; linarith), if_neg (by push_cast; linarith),
        if_neg (by omega)]
      ring

theorem roundHalfEven_neg (x : ℚ) : roundHalfEven (-x) = -roundHalfEven x := by
  apply roundHalfEven_unique
  have habs : |-x - ((-roundHalfEven x : Int) : ℚ)| = |x - roundHalfEven x| := by
    push_cast
    rw [show -x - -(roundHalfEven x : ℚ) = -(x - roundHalfEven x) by ring, abs_neg]
  rw [habs]
  rcases roundHalfEven_spec x with h | ⟨h, hz⟩
  · exact Or.inl h
  · exact Or.inr ⟨h, by omega⟩

/-- Rounding commutes with the change of sign. -/
theorem round32_neg (q : ℚ) : round32 (-q) = -round32 q := by
  have hu : ulp32 (-q) = ulp32 q := by
    unfold ulp32
    rw [abs_neg]
  unfold round32
  rw [hu, neg_div, roundHalfEven_neg]
  push_cast
  ring

/-- A value within half a spacing of `z * 2 ^ (e - 23) = r`, below the overflow
threshold, rounds to the `float` `r`. -/
theorem toFloat32_of_near (q : ℚ) (e z : Int) (r : ℚ) (h1 : (2 : ℚ) ^ e ≤ |q|)
    (h2 : |q| < (2 : ℚ) ^ (e + 1)) (he : -126 ≤ e)
    (h : |q / (2 : ℚ) ^ (e - 23) - z| < 1 / 2) (hr : (z : ℚ) * (2 : ℚ) ^ (e - 23) = r)
    (hb : |r| < 2 ^ 128) : toFloat32 q = .finite r :=
  toFloat32_of_round q r (by rw [round32_of_near q e z h1 h2 he h, hr]) hb

/-- A value halfway between two neighbouring `float`s rounds to the one with the
even significand. -/
theorem toFloat32_of_tie_even (q : ℚ) (e z : Int) (r : ℚ) (h1 : (2 : ℚ) ^ e ≤ |q|)
    (h2 : |q| < (2 : ℚ) ^ (e + 1)) (he : -126 ≤ e)
    (h : q / (2 : ℚ) ^ (e - 23) = z + 1 / 2) (hz : z % 2 = 0)
    (hr : (z : ℚ) * (2 : ℚ) ^ (e - 23) = r) (hb : |r| < 2 ^ 128) : toFloat32 q = .finite r :=
  toFloat32_of_round q r (by rw [round32_of_tie_even q e z h1 h2 he h hz, hr]) hb

/-- The literal `0.1f`. -/
theorem toFloat32_tenth : toFloat32 (1 / 10) = .finite (13421773 / 134217728) :=
  toFloat32_of_near _ (-4) 13421773 _ (by norm_num [abs_of_pos]) (by norm_num [abs_of_pos])
    (by norm_num) (by norm_num [abs_lt]) (by norm_num) (by norm_num [abs_of_pos])

/-- The literal `0.01f`. -/
theorem toFloat32_hundredth : toFloat32 (1 / 100) = .finite (5368709 / 536870912) :=
  toFloat32_of_near _ (-7) 10737418 _ (by norm_num [abs_of_pos]) (by norm_num [abs_of_pos])
    (by norm_num) (by norm_num [abs_lt]) (by norm_num) (by norm_num [abs_of_pos])

/-- The literal `0.001f`. -/
theorem toFloat32_thousandth : toFloat32 (1 / 1000) = .finite (8589935 / 8589934592) :=
  toFloat32_of_near _ (-10) 8589935 _ (by norm_num [abs_of_pos]) (by norm_num [abs_of_pos])
    (by norm_num) (by norm_num [abs_lt]) (by norm_num) (by norm_num [abs_of_pos])

@[simp] theorem FloatVal.roundWith_finite {R : Type} (fl : R → FloatVal R) (a : R) :
    (FloatVal.finite a).roundWith fl = fl a := rfl

namespace FloatVal

variable {R : Type} [LinearOrderedField R]

/-- The larger of a finite floor and any value, `NaN` included, is not below the floor. -/
theorem le_qMax_of_le (c b : R) (x : FloatVal R) (h : b ≤ c) :
    finite b ≤ qMax (finite c) x := by
  unfold qMax
  cases x with
  | finite a =>
    by_cases hlt : c < a
    · simp [hlt, le_of_lt (lt_of_le_of_lt h hlt)]
    · simp [hlt, h]
  | posInf => simp [lt_def, lt, le_def, le]
  | negInf => simp [lt_def, lt, h]
  | nan => simp [lt_def, lt, h]

end FloatVal

namespace PointCloudGLWidget

/-! ## Drag and scroll in `float` arithmetic (C6, C7, C8) -/

/-- With a rounding that changes no value, the rounded handlers are the handlers
of exact arithmetic. -/
theorem handleEventRounded_exact {R : Type} [LinearOrderedField R] (w : PointCloudGLWidget R)
    (e : InputEvent) : w.handleEventRounded FloatVal.finite e = w.handleEvent e := by
  have hr : ∀ x : FloatVal R, x.roundWith FloatVal.finite = x := by
    intro x
    cases x <;> rfl
  cases e with
  | press pos => rfl
  | move event =>
    simp only [handleEventRounded, handleEvent, mouseMoveEventRounded, mouseMoveEvent, hr,
      FloatVal.ofIntWith, FloatVal.ofInt]
  | wheel event =>
    simp only [handleEventRounded, handleEvent, wheelEventRounded, wheelEvent, hr,
      FloatVal.ofIntWith, FloatVal.ofInt]

/-- In `float` arithmetic too, every drag or scroll that writes the orbit distance
leaves it at `0.1f` or above, hence at `0.1` or above, and a press leaves it as it is. -/
theorem handleEventRounded_floor (w : PointCloudGLWidget ℚ) (e : InputEvent)
    (h : FloatVal.finite (1 / 10) ≤ w.m_distance) :
    FloatVal.finite (1 / 10) ≤ (w.handleEventRounded toFloat32 e).m_distance := by
  cases e with
  | press pos => exact h
  | move event =>
    simp only [handleEventRounded, mouseMoveEventRounded]
    split_ifs
    · exact h
    · simp only [toFloat32_tenth]
      exact FloatVal.le_qMax_of_le _ _ _ (by norm_num)
    · exact h
  | wheel event =>
    simp only [handleEventRounded, wheelEventRounded, toFloat32_tenth]
    exact FloatVal.le_qMax_of_le _ _ _ (by norm_num)

/-- A move with the left button held: yaw and pitch take the rounded sums, the
pointer position is recorded, and nothing else changes. -/
theorem mouseMoveEventRounded_of_left {R : Type} [LinearOrderedField R] (fl : R → FloatVal R)
    (w : PointCloudGLWidget R) (event : QMouseEvent) (hleft : event.buttons &&& 1 ≠ 0) :
    w.mouseMoveEventRounded fl event =
      { w with
        m_yRot := (w.m_yRot + FloatVal.ofIntWith fl (mouseDx w event)).roundWith fl
        m_xRot := (w.m_xRot + FloatVal.ofIntWith fl (mouseDy w event)).roundWith fl
        m_lastPos := (qRound event.position.1, qRound event.position.2) } := by
  simp only [mouseMoveEventRounded, hleft, ne_eq, not_false_eq_true, if_true]

/-- A move with the right button held and the left one not: the orbit distance
takes the rounded difference, floored at `0.1f`, the pointer position is recorded,
and nothing else changes. -/
theorem mouseMoveEventRounded_of_right {R : Type} [LinearOrderedField R] (fl : R → FloatVal R)
    (w : PointCloudGLWidget R) (event : QMouseEvent) (hleft : event.buttons &&& 1 = 0)
    (hright : event.buttons &&& 2 ≠ 0) :
    w.mouseMoveEventRounded fl event =
      { w with
        m_distance :=
          FloatVal.qMax (fl (1 / 10))
            ((w.m_distance -
                (FloatVal.ofIntWith fl (mouseDy w event) * fl (1 / 100)).roundWith fl).roundWith
              fl)
        m_lastPos := (qRound event.position.1, qRound event.position.2) } := by
  simp only [mouseMoveEventRounded, hleft, hright, ne_eq, not_true_eq_false, not_false_eq_true,
    if_true, if_false]

/-- In `float` arithmetic too, from a state whose orbit distance is at least `0.1`,
every finite sequence of press, move and wheel events leaves it at least `0.1`. -/
theorem handleEventsRounded_floor (w : PointCloudGLWidget ℚ) (events : List InputEvent)
    (h : FloatVal.finite (1 / 10) ≤ w.m_distance) :
    FloatVal.finite (1 / 10) ≤ (w.handleEventsRounded toFloat32 events).m_distance := by
  unfold handleEventsRounded
  induction events generalizing w with
  | nil => exact h
  | cons e rest ih => exact ih (w.handleEventRounded toFloat32 e) (handleEventRounded_floor w e h)

/-- C6, the counterexample.  At yaw `2 ^ 24 = 16777216`, where neighbouring `float`
values are `2` apart, a left-button drag by one pixel to the right leaves the yaw
at `2 ^ 24`: the sum `2 ^ 24 + 1` is halfway between two `float` values and rounds
back to `2 ^ 24`, so the yaw is not `yaw + dx`. -/
theorem left_drag_absorbed :
    mouseDx { (init 800 600 : PointCloudGLWidget ℚ) with m_yRot := .finite 16777216 }
        ⟨(1, 0), 1⟩ = 1 ∧
      (({ (init 800 600 : PointCloudGLWidget ℚ) with m_yRot := .finite 16777216
        }).mouseMoveEventRounded toFloat32 ⟨(1, 0), 1⟩).m_yRot = .finite 16777216 ∧
      (({ (init 800 600 : PointCloudGLWidget ℚ) with m_yRot := .finite 16777216
        }).mouseMoveEventRounded toFloat32 ⟨(1, 0), 1⟩).m_yRot ≠
        .finite (16777216 + 1) := by
  have hdx : mouseDx { (init 800 600 : PointCloudGLWidget ℚ) with m_yRot := .finite 16777216 }
      ⟨(1, 0), 1⟩ = 1 := by
    simp [mouseDx, init, truncToInt]
  have h1 : toFloat32 ((1 : Int) : ℚ) = .finite 1 := by
    simpa using toFloat32_intCast 1 (by norm_num)
  have h2 : toFloat32 (16777216 + 1) = .finite 16777216 :=
    toFloat32_of_tie_even _ 24 8388608 _ (by norm_num [abs_of_pos]) (by norm_num [abs_of_pos])
      (by norm_num) (by norm_num) (by norm_num) (by norm_num) (by norm_num [abs_of_pos])
  have hy : (({ (init 800 600 : PointCloudGLWidget ℚ) with m_yRot := .finite 16777216
      }).mouseMoveEventRounded toFloat32 ⟨(1, 0), 1⟩).m_yRot = .finite 16777216 := by
    rw [mouseMoveEventRounded_of_left _ _ _ (by decide), hdx]
    show FloatVal.roundWith toFloat32 (.finite 16777216 + FloatVal.ofIntWith toFloat32 1) = _
    rw [FloatVal.ofIntWith, h1, FloatVal.finite_add, FloatVal.roundWith_finite, h2]
  refine ⟨hdx, hy, ?_⟩
  rw [hy]
  intro h
  have := FloatVal.finite.inj h
  norm_num at this

/-- C6, amended.  For every camera state and every pointer-move whose integer
deltas are `(dx, dy)`, with the left button held: the yaw becomes the `float`
sum of the yaw and `float(dx)`, the pitch the `float` sum of the pitch and
`float(dy)`, with no clamping and no wrap-around; for `|dx| ≤ 2 ^ 24` and a finite
yaw this is the `float` nearest to `yaw + dx`, and it is `yaw + dx` itself when the
yaw is an integer and `|yaw + dx| ≤ 2 ^ 24` (the same for the pitch and `dy`).
The orbit distance, the field of view, the focal distance and the model matrix
are unchanged. -/
theorem mouseMoveEventRounded_left (w : PointCloudGLWidget ℚ) (event : QMouseEvent)
    (dx dy : Int) (hdx : mouseDx w event = dx) (hdy : mouseDy w event = dy)
    (hleft : event.buttons &&& 1 ≠ 0) :
    (w.mouseMoveEventRounded toFloat32 event).m_yRot =
        (w.m_yRot + toFloat32 dx).roundWith toFloat32 ∧
      (w.mouseMoveEventRounded toFloat32 event).m_xRot =
        (w.m_xRot + toFloat32 dy).roundWith toFloat32 ∧
      (∀ yaw : ℚ, w.m_yRot = .finite yaw → |dx| ≤ 2 ^ 24 →
        (w.mouseMoveEventRounded toFloat32 event).m_yRot = toFloat32 (yaw + dx)) ∧
      (∀ pitch : ℚ, w.m_xRot = .finite pitch → |dy| ≤ 2 ^ 24 →
        (w.mouseMoveEventRounded toFloat32 event).m_xRot = toFloat32 (pitch + dy)) ∧
      (∀ yaw : Int, w.m_yRot = .finite yaw → |dx| ≤ 2 ^ 24 → |yaw + dx| ≤ 2 ^ 24 →
        (w.mouseMoveEventRounded toFloat32 event).m_yRot = .finite ((yaw : ℚ) + dx)) ∧
      (∀ pitch : Int, w.m_xRot = .finite pitch → |dy| ≤ 2 ^ 24 → |pitch + dy| ≤ 2 ^ 24 →
        (w.mouseMoveEventRounded toFloat32 event).m_xRot = .finite ((pitch : ℚ) + dy)) ∧
      (w.mouseMoveEventRounded toFloat32 event).m_distance = w.m_distance ∧
      (w.mouseMoveEventRounded toFloat32 event).m_fov = w.m_fov ∧
      (w.mouseMoveEventRounded toFloat32 event).m_focalDistance = w.m_focalDistance ∧
      (w.mouseMoveEventRounded toFloat32 event).m_model = w.m_model := by
  subst hdx hdy
  rw [mouseMoveEventRounded_of_left toFloat32 w event hleft]
  have hsum : ∀ (a : ℚ) (d : Int), |d| ≤ 2 ^ 24 →
      (FloatVal.finite a + FloatVal.ofIntWith toFloat32 d).roundWith toFloat32 =
        toFloat32 (a + d) := by
    intro a d hd
    rw [FloatVal.ofIntWith, toFloat32_intCast d hd, FloatVal.finite_add,
      FloatVal.roundWith_finite]
  have hint : ∀ (a d : Int), |d| ≤ 2 ^ 24 → |a + d| ≤ 2 ^ 24 →
      (FloatVal.finite (a : ℚ) + FloatVal.ofIntWith toFloat32 d).roundWith toFloat32 =
        .finite ((a : ℚ) + d) := by
    intro a d hd had
    rw [hsum _ d hd]
    have := toFloat32_intCast (a + d) had
    push_cast at this
    exact this
  refine ⟨rfl, rfl, ?_, ?_, ?_, ?_, rfl, rfl, rfl, rfl⟩
  · intro yaw hy h
    show (w.m_yRot + FloatVal.ofIntWith toFloat32 (mouseDx w event)).roundWith toFloat32 = _
    rw [hy, hsum _ _ h]
  · intro pitch hp h
    show (w.m_xRot + FloatVal.ofIntWith toFloat32 (mouseDy w event)).roundWith toFloat32 = _
    rw [hp, hsum _ _ h]
  · intro yaw hy h h2
    show (w.m_yRot + FloatVal.ofIntWith toFloat32 (mouseDx w event)).roundWith toFloat32 = _
    rw [hy, hint _ _ h h2]
  · intro pitch hp h h2
    show (w.m_xRot + FloatVal.ofIntWith toFloat32 (mouseDy w event)).roundWith toFloat32 = _
    rw [hp, hint _ _ h h2]

/-- Witness of C6 amended, the spec's scenario C: from the initial state a
left-drag by `(10, -5)` raises the yaw from 0 to 10, lowers the pitch from 0 to -5
and leaves the distance at 5. -/
theorem mouseMoveEventRounded_left_witness :
    mouseDx (init 1024 768 : PointCloudGLWidget ℚ) ⟨(10, -5), 1⟩ = 10 ∧
      mouseDy (init 1024 768 : PointCloudGLWidget ℚ) ⟨(10, -5), 1⟩ = -5 ∧
      (1 &&& 1 : Nat) ≠ 0 ∧
      ((init 1024 768 : PointCloudGLWidget ℚ).mouseMoveEventRounded toFloat32
        ⟨(10, -5), 1⟩).m_yRot = .finite 10 ∧
      ((init 1024 768 : PointCloudGLWidget ℚ).mouseMoveEventRounded toFloat32
        ⟨(10, -5), 1⟩).m_xRot = .finite (-5) ∧
      ((init 1024 768 : PointCloudGLWidget ℚ).mouseMoveEventRounded toFloat32
        ⟨(10, -5), 1⟩).m_distance = .finite 5 := by
  have hdx : mouseDx (init 1024 768 : PointCloudGLWidget ℚ) ⟨(10, -5), 1⟩ = 10 := by
    norm_num [mouseDx, init, truncToInt]
  have hdy : mouseDy (init 1024 768 : PointCloudGLWidget ℚ) ⟨(10, -5), 1⟩ = -5 := by
    norm_num [mouseDy, init, truncToInt]
    exact_mod_cast @Int.ceil_intCast ℚ _ _ (-5)
  have hleft : (1 &&& 1 : Nat) ≠ 0 := by decide
  have h := mouseMoveEventRounded_left (init 1024 768 : PointCloudGLWidget ℚ) ⟨(10, -5), 1⟩ 10
    (-5) hdx hdy hleft
  refine ⟨hdx, hdy, hleft, ?_, ?_, ?_⟩
  · have h1 := h.2.2.2.2.1 0 (by norm_num [init]) (by norm_num) (by norm_num)
    rw [h1]
    norm_num
  · have h1 := h.2.2.2.2.2.1 0 (by norm_num [init]) (by norm_num) (by norm_num)
    rw [h1]
    norm_num
  · exact h.2.2.2.2.2.2.1

/-- The scroll handler with the two literals evaluated: `0.1f` is
`13421773 / 2 ^ 27` and `0.001f` is `8589935 / 2 ^ 33`. -/
theorem wheelEventRounded_eq (w : PointCloudGLWidget ℚ) (event : QWheelEvent) :
    w.wheelEventRounded toFloat32 event =
      { w with
        m_distance :=
          FloatVal.qMax (.finite (13421773 / 134217728))
            ((w.m_distance -
                (toFloat32 event.angleDelta.2 * .finite (8589935 / 8589934592)).roundWith
                  toFloat32).roundWith toFloat32) } := by
  rw [wheelEventRounded, toFloat32_tenth, toFloat32_thousandth, FloatVal.ofIntWith]

/-- The orbit distance after a scroll by `s` from the distance `d`. -/
theorem wheelEventRounded_m_distance (w : PointCloudGLWidget ℚ) (a s : Int) (d : FloatVal ℚ)
    (hd : w.m_distance = d) :
    (w.wheelEventRounded toFloat32 ⟨(a, s)⟩).m_distance =
      FloatVal.qMax (.finite (13421773 / 134217728))
        ((d - (toFloat32 (s : ℚ) * .finite (8589935 / 8589934592)).roundWith
          toFloat32).roundWith toFloat32) := by
  rw [wheelEventRounded_eq]
  subst hd
  rfl

/-- The `float` product `120 * 0.001f`, which is `0.12000000476837158203125`. -/
theorem toFloat32_notch :
    (toFloat32 ((120 : Int) : ℚ) * .finite (8589935 / 8589934592)).roundWith toFloat32 =
      .finite (1006633 / 8388608) := by
  rw [toFloat32_intCast 120 (by norm_num), FloatVal.finite_mul, FloatVal.roundWith_finite]
  exact toFloat32_of_near _ (-4) 16106128 _ (by norm_num [abs_of_pos])
    (by norm_num [abs_of_pos]) (by norm_num) (by norm_num [abs_lt]) (by norm_num)
    (by norm_num [abs_of_pos])

/-- C7, the counterexample.  At the orbit distance `2 ^ 22 = 4194304`, where the
`float` values just below are `0.25` apart, one wheel notch of `+120` leaves the
distance at `2 ^ 22`: the difference `2 ^ 22 - 0.12` rounds back to `2 ^ 22`, so the
distance is not `max(0.1, distance - 120 * 0.001)`. -/
theorem wheel_notch_absorbed :
    (({ (init 800 600 : PointCloudGLWidget ℚ) with m_distance := .finite 4194304
        }).wheelEventRounded toFloat32 ⟨(0, 120)⟩).m_distance = .finite 4194304 ∧
      (({ (init 800 600 : PointCloudGLWidget ℚ) with m_distance := .finite 4194304
        }).wheelEventRounded toFloat32 ⟨(0, 120)⟩).m_distance ≠
        .finite (max (1 / 10) (4194304 - 120 * (1 / 1000))) := by
  have hd : (({ (init 800 600 : PointCloudGLWidget ℚ) with m_distance := .finite 4194304
      }).wheelEventRounded toFloat32 ⟨(0, 120)⟩).m_distance = .finite 4194304 := by
    rw [wheelEventRounded_m_distance _ 0 120 (.finite 4194304) rfl, toFloat32_notch,
      FloatVal.finite_sub, FloatVal.roundWith_finite,
      toFloat32_of_near (4194304 - 1006633 / 8388608) 21 16777216 4194304
        (by norm_num [abs_of_pos]) (by norm_num [abs_of_pos]) (by norm_num)
        (by norm_num [abs_lt]) (by norm_num) (by norm_num [abs_of_pos]),
      FloatVal.qMax_finite]
    norm_num
  refine ⟨hd, ?_⟩
  rw [hd]
  intro h
  have := FloatVal.finite.inj h
  norm_num at this

/-- C7, amended.  For every camera state and every wheel delta `s`, the wheel
handler sets `distance' = qMax(0.1f, fl(distance - fl(float(s) * 0.001f)))`, where
`fl` rounds to the nearest `float`, `0.1f = 13421773 / 2 ^ 27` and
`0.001f = 8589935 / 2 ^ 33`, and changes no other field; the new distance is at
least `0.1f`, hence at least `0.1`; for `s = +120` the amount subtracted before the
last rounding is the `float` `1006633 / 2 ^ 23 = 0.12000000476837158203125`. -/
theorem wheelEventRounded_distance (w : PointCloudGLWidget ℚ) (event : QWheelEvent) :
    w.wheelEventRounded toFloat32 event =
        { w with
          m_distance :=
            FloatVal.qMax (.finite (13421773 / 134217728))
              ((w.m_distance -
                  (toFloat32 event.angleDelta.2 * .finite (8589935 / 8589934592)).roundWith
                    toFloat32).roundWith toFloat32) } ∧
      (FloatVal.finite (13421773 / 134217728) : FloatVal ℚ) ≤
        (w.wheelEventRounded toFloat32 event).m_distance ∧
      (FloatVal.finite (1 / 10) : FloatVal ℚ) ≤
        (w.wheelEventRounded toFloat32 event).m_distance ∧
      (w.wheelEventRounded toFloat32 ⟨(event.angleDelta.1, 120)⟩).m_distance =
        FloatVal.qMax (.finite (13421773 / 134217728))
          ((w.m_distance - .finite (1006633 / 8388608)).roundWith toFloat32) ∧
      (∀ d : ℚ, w.m_distance = .finite d →
        (w.wheelEventRounded toFloat32 ⟨(event.angleDelta.1, 120)⟩).m_distance =
          FloatVal.qMax (.finite (13421773 / 134217728))
            (toFloat32 (d - 1006633 / 8388608))) := by
  have h120 : (w.wheelEventRounded toFloat32 ⟨(event.angleDelta.1, 120)⟩).m_distance =
      FloatVal.qMax (.finite (13421773 / 134217728))
        ((w.m_distance - .finite (1006633 / 8388608)).roundWith toFloat32) := by
    rw [wheelEventRounded_m_distance w _ 120 _ rfl, toFloat32_notch]
  refine ⟨wheelEventRounded_eq w event, ?_, ?_, h120, ?_⟩
  · rw [wheelEventRounded_eq]
    exact FloatVal.le_qMax_of_le _ _ _ le_rfl
  · rw [wheelEventRounded_eq]
    exact FloatVal.le_qMax_of_le _ _ _ (by norm_num)
  · intro d hd
    rw [h120, hd, FloatVal.finite_sub, FloatVal.roundWith_finite]

/-- Witness of C7 amended, the spec's scenario D: from the initial distance 5 one
wheel notch of `+120` gives the `float` `5117051 / 2 ^ 20 = 4.88000011444091796875`,
and from the distance `0.125` it gives `0.1f`. -/
theorem wheelEventRounded_distance_witness :
    ((init 1024 768 : PointCloudGLWidget ℚ).wheelEventRounded toFloat32 ⟨(0, 120)⟩).m_distance =
        .finite (5117051 / 1048576) ∧
      (({ (init 1024 768 : PointCloudGLWidget ℚ) with m_distance := .finite (1 / 8)
        }).wheelEventRounded toFloat32 ⟨(0, 120)⟩).m_distance =
        .finite (13421773 / 134217728) := by
  constructor
  · rw [(wheelEventRounded_distance (init 1024 768 : PointCloudGLWidget ℚ) ⟨(0, 120)⟩).2.2.2.2 5
      rfl,
      toFloat32_of_near (5 - 1006633 / 8388608) 2 10234102 (5117051 / 1048576)
        (by norm_num [abs_of_pos]) (by norm_num [abs_of_pos]) (by norm_num)
        (by norm_num [abs_lt]) (by norm_num) (by norm_num [abs_of_pos]),
      FloatVal.qMax_finite]
    norm_num
  · rw [(wheelEventRounded_distance
        { (init 1024 768 : PointCloudGLWidget ℚ) with m_distance := .finite (1 / 8) }
        ⟨(0, 120)⟩).2.2.2.2 (1 / 8) rfl,
      toFloat32_of_near (1 / 8 - 1006633 / 8388608) (-8) 10737408 (41943 / 8388608)
        (by norm_num [abs_of_pos]) (by norm_num [abs_of_pos]) (by norm_num)
        (by norm_num [abs_lt]) (by norm_num) (by norm_num [abs_of_pos]),
      FloatVal.qMax_finite]
    norm_num

/-- The orbit distance after a move by `dy` with the right button held and the
left one not, from the distance `d`, with the two literals evaluated: `0.1f` is
`13421773 / 2 ^ 27` and `0.01f` is `5368709 / 2 ^ 29`. -/
theorem mouseMoveEventRounded_distance_of_right (w : PointCloudGLWidget ℚ) (event : QMouseEvent)
    (dy : Int) (d : FloatVal ℚ) (hdy : mouseDy w event = dy) (hd : w.m_distance = d)
    (hleft : event.buttons &&& 1 = 0) (hright : event.buttons &&& 2 ≠ 0) :
    (w.mouseMoveEventRounded toFloat32 event).m_distance =
      FloatVal.qMax (.finite (13421773 / 134217728))
        ((d - (toFloat32 (dy : ℚ) * .finite (5368709 / 536870912)).roundWith
          toFloat32).roundWith toFloat32) := by
  rw [mouseMoveEventRounded_of_right toFloat32 w event hleft hright, toFloat32_tenth,
    toFloat32_hundredth, hdy, FloatVal.ofIntWith]
  subst hd
  rfl

/-- C8, the counterexample.  At the orbit distance `2 ^ 19 = 524288`, where the
`float` values just below are `1 / 32` apart, a right-button drag by one pixel
down leaves the distance at `2 ^ 19`: the difference `2 ^ 19 - 0.01` rounds back to
`2 ^ 19`, so the distance is not `max(0.1, distance - dy * 0.01)`. -/
theorem right_drag_absorbed :
    mouseDy { (init 800 600 : PointCloudGLWidget ℚ) with m_distance := .finite 524288 }
        ⟨(0, 1), 2⟩ = 1 ∧
      (({ (init 800 600 : PointCloudGLWidget ℚ) with m_distance := .finite 524288
        }).mouseMoveEventRounded toFloat32 ⟨(0, 1), 2⟩).m_distance = .finite 524288 ∧
      (({ (init 800 600 : PointCloudGLWidget ℚ) with m_distance := .finite 524288
        }).mouseMoveEventRounded toFloat32 ⟨(0, 1), 2⟩).m_distance ≠
        .finite (max (1 / 10) (524288 - 1 * (1 / 100))) := by
  have hdy : mouseDy { (init 800 600 : PointCloudGLWidget ℚ) with m_distance := .finite 524288 }
      ⟨(0, 1), 2⟩ = 1 := by
    simp [mouseDy, init, truncToInt]
  have hd : (({ (init 800 600 : PointCloudGLWidget ℚ) with m_distance := .finite 524288
      }).mouseMoveEventRounded toFloat32 ⟨(0, 1), 2⟩).m_distance = .finite 524288 := by
    rw [mouseMoveEventRounded_distance_of_right _ _ 1 (.finite 524288) hdy rfl (by decide)
        (by decide),
      toFloat32_intCast 1 (by norm_num), FloatVal.finite_mul, FloatVal.roundWith_finite,
      toFloat32_of_near (((1 : Int) : ℚ) * (5368709 / 536870912)) (-7) 10737418
        (5368709 / 536870912) (by norm_num [abs_of_pos]) (by norm_num [abs_of_pos])
        (by norm_num) (by norm_num [abs_lt]) (by norm_num) (by norm_num [abs_of_pos]),
      FloatVal.finite_sub, FloatVal.roundWith_finite,
      toFloat32_of_near (524288 - 5368709 / 536870912) 18 16777216 524288
        (by norm_num [abs_of_pos]) (by norm_num [abs_of_pos]) (by norm_num)
        (by norm_num [abs_lt]) (by norm_num) (by norm_num [abs_of_pos]),
      FloatVal.qMax_finite]
    norm_num
  refine ⟨hdy, hd, ?_⟩
  rw [hd]
  intro h
  have := FloatVal.finite.inj h
  norm_num at this

/-- C8, amended.  For every camera state and every pointer-move whose integer
vertical delta is `dy`, with the right button held and the left button not held:
`distance' = qMax(0.1f, fl(distance - fl(float(dy) * 0.01f)))`, where `fl` rounds to
the nearest `float`, `0.1f = 13421773 / 2 ^ 27` and `0.01f = 5368709 / 2 ^ 29`; the
new distance is at least `0.1f`, hence at least `0.1`; and pitch, yaw, field of
view, focal distance and model matrix are unchanged. -/
theorem mouseMoveEventRounded_right (w : PointCloudGLWidget ℚ) (event : QMouseEvent) (dy : Int)
    (hdy : mouseDy w event = dy) (hleft : event.buttons &&& 1 = 0)
    (hright : event.buttons &&& 2 ≠ 0) :
    (w.mouseMoveEventRounded toFloat32 event).m_distance =
        FloatVal.qMax (.finite (13421773 / 134217728))
          ((w.m_distance - (toFloat32 (dy : ℚ) * .finite (5368709 / 536870912)).roundWith
            toFloat32).roundWith toFloat32) ∧
      (∀ d : ℚ, w.m_distance = .finite d → |dy| ≤ 2 ^ 24 →
        (w.mouseMoveEventRounded toFloat32 event).m_distance =
          FloatVal.qMax (.finite (13421773 / 134217728))
            ((FloatVal.finite d - toFloat32 (dy * (5368709 / 536870912))).roundWith
              toFloat32)) ∧
      (FloatVal.finite (13421773 / 134217728) : FloatVal ℚ) ≤
        (w.mouseMoveEventRounded toFloat32 event).m_distance ∧
      (FloatVal.finite (1 / 10) : FloatVal ℚ) ≤
        (w.mouseMoveEventRounded toFloat32 event).m_distance ∧
      (w.mouseMoveEventRounded toFloat32 event).m_xRot = w.m_xRot ∧
      (w.mouseMoveEventRounded toFloat32 event).m_yRot = w.m_yRot ∧
      (w.mouseMoveEventRounded toFloat32 event).m_fov = w.m_fov ∧
      (w.mouseMoveEventRounded toFloat32 event).m_focalDistance = w.m_focalDistance ∧
      (w.mouseMoveEventRounded toFloat32 event).m_model = w.m_model := by
  have hdist := mouseMoveEventRounded_distance_of_right w event dy _ hdy rfl hleft hright
  refine ⟨hdist, ?_, ?_, ?_, ?_⟩
  · intro d hd h
    rw [hdist, hd, toFloat32_intCast dy h, FloatVal.finite_mul, FloatVal.roundWith_finite]
  · rw [hdist]
    exact FloatVal.le_qMax_of_le _ _ _ le_rfl
  · rw [hdist]
    exact FloatVal.le_qMax_of_le _ _ _ (by norm_num)
  · rw [mouseMoveEventRounded_of_right toFloat32 w event hleft hright]
    exact ⟨rfl, rfl, rfl, rfl, rfl⟩

/-- Witness of C8 amended: from the initial distance 5 a right-drag by `dy = 10`
gives the `float` `10276045 / 2 ^ 21 = 4.900000095367431640625`. -/
theorem mouseMoveEventRounded_right_witness :
    mouseDy (init 1024 768 : PointCloudGLWidget ℚ) ⟨(0, 10), 2⟩ = 10 ∧
      (2 &&& 1 : Nat) = 0 ∧ (2 &&& 2 : Nat) ≠ 0 ∧
      ((init 1024 768 : PointCloudGLWidget ℚ).mouseMoveEventRounded toFloat32
        ⟨(0, 10), 2⟩).m_distance = .finite (10276045 / 2097152) := by
  have hdy : mouseDy (init 1024 768 : PointCloudGLWidget ℚ) ⟨(0, 10), 2⟩ = 10 := by
    norm_num [mouseDy, init, truncToInt]
  have hl : (2 &&& 1 : Nat) = 0 := by decide
  have hr : (2 &&& 2 : Nat) ≠ 0 := by decide
  have h := mouseMoveEventRounded_right (init 1024 768 : PointCloudGLWidget ℚ) ⟨(0, 10), 2⟩ 10
    hdy hl hr
  refine ⟨hdy, hl, hr, ?_⟩
  rw [h.2.1 5 rfl (by norm_num),
    toFloat32_of_tie_even (((10 : Int) : ℚ) * (5368709 / 536870912)) (-4) 13421772
      (3355443 / 33554432) (by norm_num [abs_of_pos]) (by norm_num [abs_of_pos]) (by norm_num)
      (by norm_num) (by norm_num) (by norm_num) (by norm_num [abs_of_pos]),
    FloatVal.finite_sub, FloatVal.roundWith_finite,
    toFloat32_of_near (5 - 3355443 / 33554432) 2 10276045 (10276045 / 2097152)
      (by norm_num [abs_of_pos]) (by norm_num [abs_of_pos]) (by norm_num)
      (by norm_num [abs_lt]) (by norm_num) (by norm_num [abs_of_pos]),
    FloatVal.qMax_finite]
  norm_num

/-! ## The framing matrix in `float` arithmetic (C10) -/

/-- With a rounding that changes no value, the rounded framing matrix is the
matrix that `resetView` and `setFocusOnPointCloud` store in exact arithmetic. -/
theorem framingModelRounded_exact {R : Type} [LinearOrderedField R] (min max : QVector3D R) :
    framingModelRounded FloatVal.finite min max =
      framingModel ((min + max).scaleBy (.finite (1 / 2))) (max - min) := by
  have hr : ∀ x : FloatVal R, x.roundWith FloatVal.finite = x := by
    intro x
    cases x <;> rfl
  have hs : ∀ x : FloatVal R,
      ((QMatrix4x4.identity : QMatrix4x4 R).scale x).flagBits = 2 := by
    intro x
    simp [QMatrix4x4.scale, QMatrix4x4.identity]
  simp only [framingModelRounded, framingModel, QVector3D.addRounded, QVector3D.subRounded,
    QVector3D.scaleByRounded, QMatrix4x4.translateRounded, QMatrix4x4.translate, hr, hs]
  rfl

/-- The rounded framing matrix of a finite box, from the values to which its
`float` operations round: the sums `s`, the centre `c`, the size `d`, the scale
`σ` and the translation `t`. -/
theorem framingModelRounded_eval {R : Type} [LinearOrderedField R] (fl : R → FloatVal R)
    (a1 a2 a3 b1 b2 b3 s1 s2 s3 c1 c2 c3 d1 d2 d3 σ t1 t2 t3 : R)
    (hs1 : fl (a1 + b1) = .finite s1) (hs2 : fl (a2 + b2) = .finite s2)
    (hs3 : fl (a3 + b3) = .finite s3)
    (hc1 : fl (s1 * (1 / 2)) = .finite c1) (hc2 : fl (s2 * (1 / 2)) = .finite c2)
    (hc3 : fl (s3 * (1 / 2)) = .finite c3)
    (hd1 : fl (b1 - a1) = .finite d1) (hd2 : fl (b2 - a2) = .finite d2)
    (hd3 : fl (b3 - a3) = .finite d3)
    (hm : max (max d1 d2) d3 ≠ 0) (hσ : fl (1 / max (max d1 d2) d3) = .finite σ)
    (ht1 : fl (σ * -c1) = .finite t1) (ht2 : fl (σ * -c2) = .finite t2)
    (ht3 : fl (σ * -c3) = .finite t3) :
    framingModelRounded fl (QVector3D.ofFinite a1 a2 a3) (QVector3D.ofFinite b1 b2 b3) =
      { (QMatrix4x4.identity : QMatrix4x4 R) with
        m00 := .finite σ, m11 := .finite σ, m22 := .finite σ
        m30 := .finite t1, m31 := .finite t2, m32 := .finite t3
        flagBits := 3 } := by
  have htr : ∀ (x : FloatVal R) (v : QVector3D R),
      ((QMatrix4x4.identity : QMatrix4x4 R).scale x).translateRounded fl v =
        { (QMatrix4x4.identity : QMatrix4x4 R) with
          m00 := x, m11 := x, m22 := x
          m30 := (x * v.x).roundWith fl, m31 := (x * v.y).roundWith fl
          m32 := (x * v.z).roundWith fl, flagBits := 3 } := by
    intro x v
    simp [QMatrix4x4.translateRounded, QMatrix4x4.scale, QMatrix4x4.identity]
  simp only [framingModelRounded, htr, QVector3D.addRounded, QVector3D.subRounded,
    QVector3D.scaleByRounded, QVector3D.ofFinite_x, QVector3D.ofFinite_y, QVector3D.ofFinite_z,
    QVector3D.neg_x, QVector3D.neg_y, QVector3D.neg_z, FloatVal.finite_add,
    FloatVal.finite_sub, FloatVal.finite_mul, FloatVal.neg_finite, FloatVal.roundWith_finite,
    FloatVal.qMax_finite, hs1, hs2, hs3, hc1, hc2, hc3, hd1, hd2, hd3,
    FloatVal.finite_div _ hm, hσ, ht1, ht2, ht3]

/-- The rounded product of a scale-and-translation matrix with a point, from the
values to which its `float` operations round: the products `q = σ * p` and the
sums `r = q + t`. -/
theorem mulVec4Rounded_affine {R : Type} [LinearOrderedField R] (fl : R → FloatVal R)
    (σ t1 t2 t3 p1 p2 p3 q1 q2 q3 r1 r2 r3 : R)
    (h0 : fl 0 = .finite 0) (h1 : fl 1 = .finite 1)
    (hq1 : fl (σ * p1) = .finite q1) (hq2 : fl (σ * p2) = .finite q2)
    (hq3 : fl (σ * p3) = .finite q3)
    (hq1f : fl q1 = .finite q1) (hq2f : fl q2 = .finite q2) (hq3f : fl q3 = .finite q3)
    (ht1 : fl t1 = .finite t1) (ht2 : fl t2 = .finite t2) (ht3 : fl t3 = .finite t3)
    (hr1 : fl (q1 + t1) = .finite r1) (hr2 : fl (q2 + t2) = .finite r2)
    (hr3 : fl (q3 + t3) = .finite r3) :
    QMatrix4x4.mulVec4Rounded fl
        { (QMatrix4x4.identity : QMatrix4x4 R) with
          m00 := .finite σ, m11 := .finite σ, m22 := .finite σ
          m30 := .finite t1, m31 := .finite t2, m32 := .finite t3
          flagBits := 3 }
        ⟨.finite p1, .finite p2, .finite p3, .finite 1⟩ =
      ⟨.finite r1, .finite r2, .finite r3, .finite 1⟩ := by
  simp only [QMatrix4x4.mulVec4Rounded, QMatrix4x4.identity, FloatVal.finite_mul,
    FloatVal.roundWith_finite, zero_mul, mul_one, h0, h1, hq1, hq2, hq3, ht1, ht2, ht3,
    FloatVal.finite_add, add_zero, zero_add, hq1f, hq2f, hq3f, hr1, hr2, hr3]

end PointCloudGLWidget

theorem IsFloat32.neg {x : ℚ} (h : IsFloat32 x) : IsFloat32 (-x) := by
  unfold IsFloat32 toFloat32 at h ⊢
  rw [round32_neg, abs_neg]
  by_cases hov : (2 : ℚ) ^ 128 ≤ |round32 x|
  · rw [if_pos hov] at h
    split_ifs at h
  · rw [if_neg hov] at h
    rw [if_neg hov, FloatVal.finite.inj h]

theorem isFloat32_zero : IsFloat32 0 := by
  unfold IsFloat32
  exact toFloat32_of_round 0 0 round32_zero (by norm_num)

/-- A value equal to an integer of magnitude at most `2 ^ 24` is a `float`. -/
theorem isFloat32_of_int (q : ℚ) (n : Int) (hq : q = n) (hn : |n| ≤ 2 ^ 24) : IsFloat32 q := by
  unfold IsFloat32
  rw [hq]
  exact toFloat32_intCast n hn

/-- A multiple of the spacing, below the overflow threshold, is a `float`. -/
theorem isFloat32_of_exact (q : ℚ) (e z : Int) (h1 : (2 : ℚ) ^ e ≤ |q|)
    (h2 : |q| < (2 : ℚ) ^ (e + 1)) (he : -126 ≤ e) (hq : q = z * (2 : ℚ) ^ (e - 23))
    (hb : |q| < 2 ^ 128) : IsFloat32 q :=
  toFloat32_of_round q q (round32_of_exact q e z h1 h2 he hq) hb

namespace PointCloudGLWidget

end PointCloudGLWidget

end PointCloudViewer
